import Mathlib

/-!
# RINGMesh attributes: a shallow embedding of `ringmesh/basic/attributes.h`

The stores (`Store`, `VectorStore<T>`, `ConstantStore<T>`), the owning wrapper
`AttributeStore`, the type registry, the `AttributesManager` and the typed handles
`Attribute<T>` / `Attribute<bool>` are translated function by function.

Conventions of the embedding

* `index_t` is a 32-bit unsigned integer; indices and sizes are natural numbers and
  `NO_ID` is the value of `index_t(-1)`.
* a call either returns, stops on a `ringmesh_assert` that does not hold, or runs into
  undefined behaviour (null or dangling dereference, access outside the storage):
  see `Outcome`.
* objects created with `new` live in a `World`; a pointer is the position of the object.
* the element type `T` of a template instantiation is described by a `TypeInfo`
  (what `typeid(T).name()` and `sizeof(T)` evaluate to); element values are taken in a
  type `α` of raw element values.
-/

namespace RINGMesh

/-! ## Basic types -/

/-- The invalid index `NO_ID = index_t(-1)` of `types.h`, also the "removed" marker of
`compress`. -/
def NO_ID : Nat := 2 ^ 32 - 1

/-- Result of a call.  `ok a`: the call returned `a`.  `assertion_failed s`: a
`ringmesh_assert` did not hold, `s` being the state of the program at that point.
`undefined`: the call ran into undefined behaviour. -/
inductive Outcome (ε α : Type) where
  | ok (a : α)
  | assertion_failed (s : ε)
  | undefined
  deriving DecidableEq, Repr

/-- Modelled from the spec: the macro `ringmesh_assert` comes from
ringmesh/basic/ringmesh_assert.h, which is not at hand.  "Failure policy is fail-fast via
precondition assertions": when the condition holds the call goes on with `rest`, otherwise
it stops there, in the state `s`. -/
def ringmesh_assert {ε α : Type} (condition : Bool) (s : ε) (rest : Outcome ε α) :
    Outcome ε α :=
  if condition then rest else .assertion_failed s

/-- What the compiler knows about a template argument `T`: `typeid(T).name()` and
`sizeof(T)`. -/
structure TypeInfo where
  name : String
  sizeof : Nat
  deriving DecidableEq, Repr

/-- The type `Byte` (an 8-bit unsigned integer) that backs `Attribute<bool>`. -/
def ByteType : TypeInfo := { name := "h", sizeof := 1 }

/-! ## Store hierarchy -/

/-- The members that `VectorStore<T>` (`std::vector<T> vector_`) and `ConstantStore<T>`
(`T constant_`) add to `Store`; the constructor tells the dynamic type. -/
inductive Backing (α : Type) where
  | vector (vector_ : List α)
  | constant (constant_ : α)
  deriving DecidableEq, Repr

/-- Class `Store` with its subclass `TypedStore<T>`: the members `size_` and
`element_size_`, the template argument `T`, and the members of the most derived class. -/
structure Store (α : Type) where
  T : TypeInfo
  size_ : Nat
  element_size_ : Nat
  backing : Backing α
  deriving DecidableEq, Repr

namespace Store

variable {α : Type}

/-- `Store::size`. -/
def size (s : Store α) : Nat := s.size_

/-- `Store::nb_elements`. -/
def nb_elements (s : Store α) : Nat := s.size_

/-- `Store::element_size`. -/
def element_size (s : Store α) : Nat := s.element_size_

/-- `TypedStore<T>::elements_type_matches`. -/
def elements_type_matches (s : Store α) (type_name : String) : Bool :=
  type_name == s.T.name

/-- `TypedStore<T>::element_typeid_name`. -/
def element_typeid_name (s : Store α) : String := s.T.name

/-- `std::vector<T>::resize(n)`: keeps the first `n` elements and appends
value-initialised elements up to length `n`. -/
def vector_resize [Inhabited α] (v : List α) (n : Nat) : List α :=
  v.take n ++ List.replicate (n - v.length) default

/-- `VectorStore<T>::VectorStore()`: `Store(sizeof(T))`, `size_{ 0 }`, empty vector. -/
def VectorStore (T : TypeInfo) : Store α :=
  { T := T, size_ := 0, element_size_ := T.sizeof, backing := .vector [] }

/-- `ConstantStore<T>::ConstantStore()`: `Store(sizeof(T))` and `size_ = 1`; the member
`constant_` is default-initialised. -/
def ConstantStore [Inhabited α] (T : TypeInfo) : Store α :=
  { T := T, size_ := 1, element_size_ := T.sizeof, backing := .constant default }

/-- `VectorStore<T>::resize` (sets `size_`, resizes `vector_`) and
`ConstantStore<T>::resize` (a warning, nothing else). -/
def resize [Inhabited α] (s : Store α) (new_size : Nat) : Store α :=
  match s.backing with
  | .vector v => { s with size_ := new_size, backing := .vector (vector_resize v new_size) }
  | .constant _ => s

/-- `VectorStore<T>::clear` (`vector_.clear()`, `size_` is left as it is) and
`ConstantStore<T>::clear` (empty body). -/
def clear (s : Store α) : Store α :=
  match s.backing with
  | .vector _ => { s with backing := .vector [] }
  | .constant _ => s

/-- `VectorStore<T>::clone` (a new `VectorStore<T>`, resized to `size()`, then
`vector_` copied) and `ConstantStore<T>::clone` (a new `ConstantStore<T>`, then
`constant_` copied). -/
def clone [Inhabited α] (s : Store α) : Store α :=
  match s.backing with
  | .vector v =>
      let result : Store α := (VectorStore s.T).resize s.size
      { result with backing := .vector v }
  | .constant c =>
      let result : Store α := ConstantStore s.T
      { result with backing := .constant c }

/-- `VectorStore<T>::compress` and `ConstantStore<T>::compress`: both bodies are
`return;`. -/
def compress (s : Store α) (_old2new : List Nat) : Store α := s

/-- `VectorStore<T>::apply_permutation` and `ConstantStore<T>::apply_permutation`:
both bodies are `return;`. -/
def apply_permutation (s : Store α) (_permutation : List Nat) : Store α := s

/-- `VectorStore<T>::copy_item` and `ConstantStore<T>::copy_item`: both bodies are
`return;`. -/
def copy_item (s : Store α) (_to _from : Nat) : Store α := s

/-- Reading `( (const T*) data() )[i]`: `data()` is `vector_.data()` for a vector store
and `&constant_` for a constant store; outside the storage there is no value. -/
def data_get (s : Store α) (i : Nat) : Option α :=
  match s.backing with
  | .vector v => v[i]?
  | .constant c => if i = 0 then some c else none

/-- Writing `( (T*) data() )[i] = value`; outside the storage there is no result. -/
def data_set (s : Store α) (i : Nat) (value : α) : Option (Store α) :=
  match s.backing with
  | .vector v => if i < v.length then some { s with backing := .vector (v.set i value) } else none
  | .constant _ => if i = 0 then some { s with backing := .constant value } else none

/-- The dynamic type is `VectorStore<T>`. -/
def is_vector (s : Store α) : Bool :=
  match s.backing with
  | .vector _ => true
  | .constant _ => false

/-- Every index below `size()` addresses an element of the storage: `vector_` has `size_`
elements, a constant store has size 1. -/
def sized (s : Store α) : Prop :=
  match s.backing with
  | .vector v => v.length = s.size_
  | .constant _ => s.size_ = 1

instance (s : Store α) : Decidable s.sized := by
  unfold sized; cases s.backing <;> exact inferInstance

end Store

/-! ### Store objects behind pointers

`clone()` returns a pointer to a new object; the objects are kept in a list and a
pointer is a position in it. -/

/-- Call `p->clone()`: the new object takes the next free position, which is returned. -/
def clone_at {α : Type} [Inhabited α] (heap : List (Store α)) (p : Nat) :
    Option (Nat × List (Store α)) :=
  match heap[p]? with
  | none => none
  | some s => some (heap.length, heap ++ [s.clone])

/-- Call `p->resize(new_size)`. -/
def resize_at {α : Type} [Inhabited α] (heap : List (Store α)) (p new_size : Nat) :
    Option (List (Store α)) :=
  match heap[p]? with
  | none => none
  | some s => some (heap.set p (s.resize new_size))

/-- Write `( (T*) p->data() )[i] = value`. -/
def data_set_at {α : Type} (heap : List (Store α)) (p i : Nat) (value : α) :
    Option (List (Store α)) :=
  match heap[p]? with
  | none => none
  | some s =>
    match s.data_set i value with
    | none => none
    | some s1 => some (heap.set p s1)

/-! ## `std::map< std::string, V >` -/

/-- A `std::map` keyed by strings: a list of entries, the first entry of a key being the
one the map holds; `assign` and `erase` keep one entry per key. -/
structure StdMap (V : Type) where
  entries : List (String × V)
  deriving DecidableEq, Repr

namespace StdMap

variable {V : Type}

/-- The empty map. -/
def empty : StdMap V := { entries := [] }

/-- `m.find( key )`, with `none` for `m.end()`. -/
def find (m : StdMap V) (key : String) : Option V :=
  match m.entries.find? (fun e => e.1 == key) with
  | some e => some e.2
  | none => none

/-- `m.find( key ) != m.end()`. -/
def contains (m : StdMap V) (key : String) : Bool := (m.find key).isSome

/-- `m.erase( key )`. -/
def erase (m : StdMap V) (key : String) : StdMap V :=
  { entries := m.entries.filter (fun e => !(e.1 == key)) }

/-- `m[key] = value`. -/
def assign (m : StdMap V) (key : String) (value : V) : StdMap V :=
  { entries := (key, value) :: (m.erase key).entries }

/-- Reading `m[key]`: the mapped value; a missing key is first inserted with a
value-initialised value. -/
def index [Inhabited V] (m : StdMap V) (key : String) : V × StdMap V :=
  match m.find key with
  | some v => (v, m)
  | none => (default, m.assign key default)

/-- `m.size()`. -/
def size (m : StdMap V) : Nat := m.entries.length

end StdMap

/-! ## AttributeStore and the type registry -/

/-- Class `AttributeStore`: the member `std::unique_ptr< Store > store_{ nullptr }`. -/
structure AttributeStore (α : Type) where
  store_ : Option (Store α)
  deriving DecidableEq, Repr

namespace AttributeStore

variable {α : Type}

/-- `AttributeStore() = default`: no store yet. -/
def new : AttributeStore α := { store_ := none }

/-- `AttributeStore::set_store`. -/
def set_store (_as : AttributeStore α) (store : Store α) : AttributeStore α :=
  { store_ := some store }

/-- `AttributeStore::get_store`: `*store_`. -/
def get_store (as : AttributeStore α) : Option (Store α) := as.store_

/-- `AttributeStore::resize`: `store_->resize( new_size )`. -/
def resize [Inhabited α] (as : AttributeStore α) (new_size : Nat) :
    Outcome (AttributeStore α) (AttributeStore α) :=
  match as.store_ with
  | none => .undefined
  | some s => .ok { store_ := some (s.resize new_size) }

/-- `AttributeStore::clear`: `store_->clear()`. -/
def clear (as : AttributeStore α) : Outcome (AttributeStore α) (AttributeStore α) :=
  match as.store_ with
  | none => .undefined
  | some s => .ok { store_ := some s.clear }

/-- `AttributeStore::apply_permutation`: `store_->apply_permutation( permutation )`. -/
def apply_permutation (as : AttributeStore α) (permutation : List Nat) :
    Outcome (AttributeStore α) (AttributeStore α) :=
  match as.store_ with
  | none => .undefined
  | some s => .ok { store_ := some (s.apply_permutation permutation) }

/-- `AttributeStore::compress`: `store_->compress( old2new )`. -/
def compress (as : AttributeStore α) (old2new : List Nat) :
    Outcome (AttributeStore α) (AttributeStore α) :=
  match as.store_ with
  | none => .undefined
  | some s => .ok { store_ := some (s.compress old2new) }

/-- `AttributeStore::elements_type_matches`: `store_->elements_type_matches( type_name )`. -/
def elements_type_matches (as : AttributeStore α) (type_name : String) : Outcome Unit Bool :=
  match as.store_ with
  | none => .undefined
  | some s => .ok (s.elements_type_matches type_name)

end AttributeStore

/-- Class `AttributeStoreCreator`: the store built by its virtual
`create_attribute_store()`. -/
structure AttributeStoreCreator (α : Type) where
  create_attribute_store : AttributeStore α
  deriving DecidableEq, Repr

/-- The three static maps of `AttributeStore`. -/
structure Registry (α : Type) where
  type_name_to_creator_ : StdMap (AttributeStoreCreator α)
  typeid_name_to_type_name_ : StdMap String
  type_name_to_typeid_name_ : StdMap String
  deriving DecidableEq, Repr

namespace Registry

variable {α : Type}

/-- The maps before any registration. -/
def empty : Registry α :=
  { type_name_to_creator_ := StdMap.empty
    typeid_name_to_type_name_ := StdMap.empty
    type_name_to_typeid_name_ := StdMap.empty }

/-- `AttributeStore::element_type_name_is_known`. -/
def element_type_name_is_known (r : Registry α) (element_type_name : String) : Bool :=
  r.type_name_to_creator_.contains element_type_name

/-- `AttributeStore::element_typeid_name_is_known`. -/
def element_typeid_name_is_known (r : Registry α) (element_typeid_name : String) : Bool :=
  r.typeid_name_to_type_name_.contains element_typeid_name

/-- `AttributeStore::element_type_name_by_element_typeid_name`: the result and the maps
after the call. -/
def element_type_name_by_element_typeid_name (r : Registry α)
    (element_typeid_name : String) : Outcome (Registry α) (String × Registry α) :=
  ringmesh_assert (r.element_typeid_name_is_known element_typeid_name) r
    (let res := r.typeid_name_to_type_name_.index element_typeid_name
     .ok (res.1, { r with typeid_name_to_type_name_ := res.2 }))

/-- `AttributeStore::element_typeid_name_by_element_type_name`: the result and the maps
after the call. -/
def element_typeid_name_by_element_type_name (r : Registry α)
    (element_type_name : String) : Outcome (Registry α) (String × Registry α) :=
  ringmesh_assert (r.element_type_name_is_known element_type_name) r
    (let res := r.type_name_to_typeid_name_.index element_type_name
     .ok (res.1, { r with type_name_to_typeid_name_ := res.2 }))

/-- The last three statements of `AttributeStore::register_attribute_creator`. -/
def store_mappings (r : Registry α) (creator : AttributeStoreCreator α)
    (element_type_name element_typeid_name : String) : Registry α :=
  { type_name_to_creator_ := r.type_name_to_creator_.assign element_type_name creator
    typeid_name_to_type_name_ :=
      r.typeid_name_to_type_name_.assign element_typeid_name element_type_name
    type_name_to_typeid_name_ :=
      r.type_name_to_typeid_name_.assign element_type_name element_typeid_name }

/-- `AttributeStore::register_attribute_creator`. -/
def register_attribute_creator (r : Registry α) (creator : AttributeStoreCreator α)
    (element_type_name element_typeid_name : String) : Outcome (Registry α) (Registry α) :=
  if r.element_type_name_is_known element_type_name then
    if r.element_typeid_name_is_known element_typeid_name then
      let res := r.type_name_to_typeid_name_.index element_type_name
      let r1 : Registry α := { r with type_name_to_typeid_name_ := res.2 }
      let already_registered_attribute_has_same_type : Bool := res.1 == element_typeid_name
      ringmesh_assert already_registered_attribute_has_same_type r1
        (.ok (r1.store_mappings creator element_type_name element_typeid_name))
    else .ok (r.store_mappings creator element_type_name element_typeid_name)
  else .ok (r.store_mappings creator element_type_name element_typeid_name)

end Registry

/-! ## AttributesManager and the objects it points to -/

/-- Class `AttributesManager`: the members `nb_items_` and
`std::map< std::string, AttributeStore* > attributes_` (a pointer being a position in
`World.stores`). -/
structure AttributesManager where
  nb_items_ : Nat
  attributes_ : StdMap Nat
  deriving DecidableEq, Repr

/-- The objects of a program: the `AttributesManager` objects and the `AttributeStore`
objects created with `new` (`none` once deleted), each addressed by its position. -/
structure World (α : Type) where
  managers : List AttributesManager
  stores : List (Option (AttributeStore α))
  deriving DecidableEq, Repr

namespace AttributesManager

/-- `AttributesManager() = default`. -/
def new : AttributesManager := { nb_items_ := 0, attributes_ := StdMap.empty }

/-- `AttributesManager::nb_attributes`. -/
def nb_attributes (m : AttributesManager) : Nat := m.attributes_.size

/-- `AttributesManager::nb_items`. -/
def nb_items (m : AttributesManager) : Nat := m.nb_items_

/-- Modelled from the spec: `AttributesManager::find_attribute_store` is declared in
attributes.h and defined in a source file that is not at hand.  "Returns the bound store
or a not-found sentinel; never creates." -/
def find_attribute_store (m : AttributesManager) (name : String) : Option Nat :=
  m.attributes_.find name

/-- `AttributesManager::is_defined`: `find_attribute_store( name ) != nullptr`. -/
def is_defined (m : AttributesManager) (name : String) : Bool :=
  (m.find_attribute_store name).isSome

/-- Modelled from the spec: `AttributesManager::bind_attribute_store` is declared in
attributes.h and defined in a source file that is not at hand.  "Transfers ownership of
store to the manager under name.  Precondition: name not already bound." -/
def bind_attribute_store (m : AttributesManager) (name : String) (as : Nat) :
    Outcome AttributesManager AttributesManager :=
  ringmesh_assert (!m.is_defined name) m
    (.ok { m with attributes_ := m.attributes_.assign name as })

end AttributesManager

namespace World

variable {α : Type}

/-- Dereference a pointer to an `AttributeStore`: nothing for a pointer to no object or to
a deleted object. -/
def store_at (w : World α) (p : Nat) : Option (AttributeStore α) :=
  match w.stores[p]? with
  | some (some as) => some as
  | _ => none

/-- `p->get_store()` for a pointer `p` to an `AttributeStore`: the owned `Store`. -/
def get_store (w : World α) (p : Nat) : Option (Store α) :=
  match w.store_at p with
  | some as => as.get_store
  | none => none

/-- `new AttributeStore( as )`: the object takes the next free position, which is
returned. -/
def new_store (w : World α) (as : AttributeStore α) : Nat × World α :=
  (w.stores.length, { w with stores := w.stores ++ [some as] })

/-- Replace the object a pointer refers to. -/
def put_store (w : World α) (p : Nat) (as : AttributeStore α) : World α :=
  { w with stores := w.stores.set p (some as) }

/-- Call `resize( new_size )` on the `AttributeStore` behind every entry of
`attributes_`, in the order of the entries. -/
def resize_stores [Inhabited α] (new_size : Nat) :
    List (String × Nat) → World α → Option (World α)
  | [], w => some w
  | (_, p) :: rest, w =>
    match w.store_at p with
    | none => none
    | some as =>
      match as.resize new_size with
      | .ok as1 => resize_stores new_size rest (w.put_store p as1)
      | _ => none

/-- Modelled from the spec: `AttributesManager::resize` is declared in attributes.h and
defined in a source file that is not at hand.  "Sets nb_items = new_size and calls
resize(new_size) on every bound store." -/
def resize [Inhabited α] (w : World α) (manager : Nat) (new_size : Nat) :
    Outcome (World α) (World α) :=
  match w.managers[manager]? with
  | none => .undefined
  | some m =>
    let w1 : World α :=
      { w with managers := w.managers.set manager { m with nb_items_ := new_size } }
    match resize_stores new_size m.attributes_.entries w1 with
    | none => .undefined
    | some w2 => .ok w2

end World

/-! ## Attribute handles -/

/-- Class `AttributeBase<T>`: the members `manager_` and `store_`, both `nullptr` at
construction. -/
structure AttributeBase where
  manager_ : Option Nat
  store_ : Option Nat
  deriving DecidableEq, Repr

namespace AttributeBase

variable {α : Type}

/-- `AttributeBase() = default`: an unbound handle. -/
def new : AttributeBase := { manager_ := none, store_ := none }

/-- `AttributeBase::is_bound`. -/
def is_bound (h : AttributeBase) : Bool := h.store_.isSome

/-- `AttributeBase::manager`. -/
def manager (h : AttributeBase) : Option Nat := h.manager_

/-- `AttributeBase::unbind`. -/
def unbind (h : AttributeBase) : Outcome AttributeBase AttributeBase :=
  ringmesh_assert h.is_bound h (.ok { manager_ := none, store_ := none })

/-- `AttributeBase<T>::bind`; the handle and the world after the call. -/
def bind (T : TypeInfo) (h : AttributeBase) (w : World α) (manager : Nat) (name : String) :
    Outcome (AttributeBase × World α) (AttributeBase × World α) :=
  ringmesh_assert (!h.is_bound) (h, w)
    (match w.managers[manager]? with
    | none => .undefined
    | some m =>
      match m.find_attribute_store name with
      | none =>
        let created := w.new_store (AttributeStore.new.set_store (Store.VectorStore T))
        let h1 : AttributeBase := { manager_ := some manager, store_ := some created.1 }
        match m.bind_attribute_store name created.1 with
        | .ok m1 => .ok (h1, { created.2 with managers := created.2.managers.set manager m1 })
        | .assertion_failed _ => .assertion_failed (h1, created.2)
        | .undefined => .undefined
      | some p =>
        let h1 : AttributeBase := { manager_ := some manager, store_ := some p }
        match w.get_store p with
        | none => .undefined
        | some s => ringmesh_assert (s.elements_type_matches T.name) (h1, w) (.ok (h1, w)))

/-- `AttributeBase::size`: `store_->get_store().size()`. -/
def size (h : AttributeBase) (w : World α) : Option Nat :=
  match h.store_ with
  | none => none
  | some p =>
    match w.get_store p with
    | none => none
    | some s => some s.size

end AttributeBase

namespace Attribute

variable {α : Type}

/-- `Attribute<T>::set_value`: the assertion `i < size()`, then
`( (T*) store_->data() )[i] = value`. -/
def set_value (h : AttributeBase) (w : World α) (i : Nat) (value : α) :
    Outcome (World α) (World α) :=
  match h.store_, h.size w with
  | some p, some si =>
    ringmesh_assert (decide (i < si)) w
      (match w.get_store p with
      | none => .undefined
      | some s =>
        match s.data_set i value with
        | none => .undefined
        | some s1 => .ok (w.put_store p { store_ := some s1 }))
  | _, _ => .undefined

/-- `Attribute<T>::value`: the assertion `i < size()`, then
`( (const T*) store_->data() )[i]`. -/
def value (h : AttributeBase) (w : World α) (i : Nat) : Outcome (World α) α :=
  match h.store_, h.size w with
  | some p, some si =>
    ringmesh_assert (decide (i < si)) w
      (match w.get_store p with
      | none => .undefined
      | some s =>
        match s.data_get i with
        | none => .undefined
        | some x => .ok x)
  | _, _ => .undefined

/-- `Attribute<T>::operator[]`: `value( i )`. -/
def get (h : AttributeBase) (w : World α) (i : Nat) : Outcome (World α) α :=
  value h w i

/-- The loop `for i in 0 .. values.size(): set_value( first + i, values[i] )`. -/
def set_values (h : AttributeBase) : World α → Nat → List α → Outcome (World α) (World α)
  | w, _, [] => .ok w
  | w, first, v :: rest =>
    match set_value h w first v with
    | .ok w1 => set_values h w1 (first + 1) rest
    | .assertion_failed s => .assertion_failed s
    | .undefined => .undefined

end Attribute

/-! ## The specialisation `Attribute<bool>`

`Attribute<bool>` derives from `AttributeBase<Byte>`: its store holds one `Byte` per
element, here a natural number. -/

/-- The conversion `Byte( x )` of a `bool`. -/
def Byte_of_bool (x : Bool) : Nat := if x then 1 else 0

/-- Class `Attribute<bool>::ConstBoolAttributeAccessor`. -/
structure ConstBoolAttributeAccessor where
  attribute_ : AttributeBase
  index_ : Nat
  deriving DecidableEq, Repr

/-- Class `Attribute<bool>::BoolAttributeAccessor`. -/
structure BoolAttributeAccessor where
  attribute_ : AttributeBase
  index_ : Nat
  deriving DecidableEq, Repr

namespace Attribute_bool

/-- `Attribute<bool>::element( i ) const`: the assertion
`i < store_->get_store().nb_elements()`, then the byte at `i`. -/
def element (h : AttributeBase) (w : World Nat) (i : Nat) : Outcome (World Nat) Nat :=
  match h.store_ with
  | none => .undefined
  | some p =>
    match w.get_store p with
    | none => .undefined
    | some s =>
      ringmesh_assert (decide (i < s.nb_elements)) w
        (match s.data_get i with
        | none => .undefined
        | some b => .ok b)

/-- The assignment `element( i ) = b` through the reference returned by the non-const
`Attribute<bool>::element`. -/
def element_assign (h : AttributeBase) (w : World Nat) (i : Nat) (b : Nat) :
    Outcome (World Nat) (World Nat) :=
  match h.store_ with
  | none => .undefined
  | some p =>
    match w.get_store p with
    | none => .undefined
    | some s =>
      ringmesh_assert (decide (i < s.nb_elements)) w
        (match s.data_set i b with
        | none => .undefined
        | some s1 => .ok (w.put_store p { store_ := some s1 }))

end Attribute_bool

/-- `ConstBoolAttributeAccessor::operator bool`. -/
def ConstBoolAttributeAccessor.to_bool (a : ConstBoolAttributeAccessor) (w : World Nat) :
    Outcome (World Nat) Bool :=
  match Attribute_bool.element a.attribute_ w a.index_ with
  | .ok b => .ok (b != 0)
  | .assertion_failed s => .assertion_failed s
  | .undefined => .undefined

/-- `BoolAttributeAccessor::operator bool`. -/
def BoolAttributeAccessor.to_bool (a : BoolAttributeAccessor) (w : World Nat) :
    Outcome (World Nat) Bool :=
  match Attribute_bool.element a.attribute_ w a.index_ with
  | .ok b => .ok (b != 0)
  | .assertion_failed s => .assertion_failed s
  | .undefined => .undefined

/-- `BoolAttributeAccessor::operator=( bool x )`. -/
def BoolAttributeAccessor.assign_bool (a : BoolAttributeAccessor) (w : World Nat) (x : Bool) :
    Outcome (World Nat) (World Nat) :=
  Attribute_bool.element_assign a.attribute_ w a.index_ (Byte_of_bool x)

namespace Attribute_bool

/-- `Attribute<bool>::value`. -/
def value (h : AttributeBase) (i : Nat) : ConstBoolAttributeAccessor :=
  { attribute_ := h, index_ := i }

/-- `Attribute<bool>::operator[]`: `value( i )`. -/
def get (h : AttributeBase) (i : Nat) : ConstBoolAttributeAccessor := value h i

/-- `Attribute<bool>::set_value( index_t, bool )`. -/
def set_value (h : AttributeBase) (w : World Nat) (i : Nat) (value : Bool) :
    Outcome (World Nat) (World Nat) :=
  (BoolAttributeAccessor.mk h i).assign_bool w value

/-- `Attribute<bool>::set_value( index_t, Byte )`: the byte converts to `bool` for
`operator=( bool )`. -/
def set_value_byte (h : AttributeBase) (w : World Nat) (i : Nat) (value : Nat) :
    Outcome (World Nat) (World Nat) :=
  (BoolAttributeAccessor.mk h i).assign_bool w (value != 0)

/-- `Attribute<bool>( manager, name )` binds through `AttributeBase<Byte>::bind`. -/
def bind (h : AttributeBase) (w : World Nat) (manager : Nat) (name : String) :
    Outcome (AttributeBase × World Nat) (AttributeBase × World Nat) :=
  AttributeBase.bind ByteType h w manager name

end Attribute_bool

/-! ## Creating and cloning through the registry -/

/-- `AttributeStore::create_attribute_store_by_element_type_name`: the assertion that the
name is known, then `type_name_to_creator_[element_type_name]->create_attribute_store()`;
the new store and the maps after the call. -/
def Registry.create_attribute_store_by_element_type_name {α : Type} (r : Registry α)
    (element_type_name : String) : Outcome (Registry α) (AttributeStore α × Registry α) :=
  ringmesh_assert (r.element_type_name_is_known element_type_name) r
    (match r.type_name_to_creator_.find element_type_name with
    | some creator => .ok (creator.create_attribute_store, r)
    | none => .undefined)

/-- `AttributeStore::clone`: the store is created by
`create_attribute_store_by_element_type_name( store_->element_typeid_name() )`, then
`set_store( store_->clone() )`. -/
def AttributeStore.clone {α : Type} [Inhabited α] (as : AttributeStore α) (r : Registry α) :
    Outcome (Registry α) (AttributeStore α × Registry α) :=
  match as.store_ with
  | none => .undefined
  | some s =>
    match r.create_attribute_store_by_element_type_name s.element_typeid_name with
    | .ok created => .ok (created.1.set_store s.clone, created.2)
    | .assertion_failed e => .assertion_failed e
    | .undefined => .undefined

/-! ## More of the handles -/

/-- `AttributeBase<T>::is_defined` (static): `store != nullptr &&
store->elements_type_matches( typeid( T ).name() )`. -/
def AttributeBase.is_defined {α : Type} (T : TypeInfo) (w : World α) (manager : Nat)
    (name : String) : Outcome Unit Bool :=
  match w.managers[manager]? with
  | none => .undefined
  | some m =>
    match m.find_attribute_store name with
    | none => .ok false
    | some p =>
      match w.store_at p with
      | none => .undefined
      | some as => as.elements_type_matches T.name

/-- `AttributeBase<T>::bind_if_is_defined`; the handle and the world after the call. -/
def AttributeBase.bind_if_is_defined {α : Type} (T : TypeInfo) (h : AttributeBase)
    (w : World α) (manager : Nat) (name : String) :
    Outcome (AttributeBase × World α) (AttributeBase × World α) :=
  ringmesh_assert (!h.is_bound) (h, w)
    (match w.managers[manager]? with
    | none => .undefined
    | some m =>
      let h1 : AttributeBase :=
        { manager_ := some manager, store_ := m.find_attribute_store name }
      match h1.store_ with
      | none => .ok (h1, w)
      | some p =>
        match w.store_at p with
        | none => .undefined
        | some as =>
          match as.elements_type_matches T.name with
          | .ok same_type => ringmesh_assert same_type (h1, w) (.ok (h1, w))
          | _ => .undefined)

/-- `AttributeStore::data`: `store_->data()`, the storage of the owned store
(`vector_.data()` or `&constant_`). -/
def AttributeStore.data {α : Type} (as : AttributeStore α) : Outcome Unit (Backing α) :=
  match as.store_ with
  | none => .undefined
  | some s => .ok s.backing

/-! ## More of the manager -/

/-- Modelled from the spec: `AttributesManager::attribute_names` is declared in
attributes.h and defined in a source file that is not at hand.  "Produces the set of
names currently bound." -/
def AttributesManager.attribute_names (m : AttributesManager) : List String :=
  m.attributes_.entries.map Prod.fst

namespace World

variable {α : Type}

/-- The statement `delete as` for a pointer to an `AttributeStore`. -/
def delete_store (w : World α) (as : Nat) : World α :=
  { w with stores := w.stores.set as none }

/-- Modelled from the spec: `AttributesManager::delete_attribute_store( AttributeStore* )`
is declared in attributes.h and defined in a source file that is not at hand.  "Removes
and destroys the store, freeing the name for reuse": every name bound to the store is
removed from `attributes_` and the store object is deleted. -/
def delete_attribute_store (w : World α) (manager : Nat) (as : Nat) :
    Outcome (World α) (World α) :=
  match w.managers[manager]? with
  | none => .undefined
  | some m =>
    let kept := m.attributes_.entries.filter (fun e => !(m.attributes_.find e.1 == some as))
    let m1 : AttributesManager := { m with attributes_ := { entries := kept } }
    .ok ((World.mk (w.managers.set manager m1) w.stores).delete_store as)

/-- Delete the `AttributeStore` behind every entry of `attributes_`. -/
def delete_stores : List (String × Nat) → World α → World α
  | [], w => w
  | (_, p) :: rest, w => delete_stores rest (w.delete_store p)

/-- Modelled from the spec: `AttributesManager::clear` is declared in attributes.h and
defined in a source file that is not at hand.  "If keep_attributes is true, every store
is resized to 0 but remains bound (names survive, re-binding returns the emptied store);
if false, all stores are deleted and nb_items reset to 0."  The stores are resized as
`AttributesManager::resize` resizes them, with `resize( 0 )` on every bound store. -/
def clear [Inhabited α] (w : World α) (manager : Nat) (keep_attributes : Bool) :
    Outcome (World α) (World α) :=
  match w.managers[manager]? with
  | none => .undefined
  | some m =>
    if keep_attributes then
      match resize_stores 0 m.attributes_.entries w with
      | none => .undefined
      | some w1 => .ok w1
    else
      .ok (delete_stores m.attributes_.entries
        (World.mk (w.managers.set manager AttributesManager.new) w.stores))

end World

/-! ## destroy, set_constant_value, create_vector_attribute, fill -/

/-- `AttributeBase<T>::destroy`; the handle and the world after the call. -/
def AttributeBase.destroy {α : Type} (h : AttributeBase) (w : World α) :
    Outcome (AttributeBase × World α) (AttributeBase × World α) :=
  ringmesh_assert h.is_bound (h, w)
    (match h.manager_, h.store_ with
    | some manager, some p =>
      match w.delete_attribute_store manager p with
      | .ok w1 => .ok ({ manager_ := none, store_ := none }, w1)
      | .assertion_failed w1 => .assertion_failed (h, w1)
      | .undefined => .undefined
    | _, _ => .undefined)

/-- `AttributeBase<T>::set_constant_value`: `store_->set_store( new ConstantStore< T >() )`,
then the virtual `set_value( 0, value )`, here the one of `Attribute<T>`. -/
def Attribute.set_constant_value {α : Type} [Inhabited α] (T : TypeInfo) (h : AttributeBase)
    (w : World α) (value : α) : Outcome (World α) (World α) :=
  match h.store_ with
  | none => .undefined
  | some p =>
    match w.store_at p with
    | none => .undefined
    | some as =>
      Attribute.set_value h (w.put_store p (as.set_store (Store.ConstantStore T))) 0 value

/-- `AttributeBase<T>::create_vector_attribute`; the handle and the world after the call.
The argument `nb_component` is not used by the body, and no store is given to the new
`AttributeStore`. -/
def AttributeBase.create_vector_attribute {α : Type} (h : AttributeBase) (w : World α)
    (manager : Nat) (name : String) (_nb_component : Int) :
    Outcome (AttributeBase × World α) (AttributeBase × World α) :=
  ringmesh_assert (!h.is_bound) (h, w)
    (match w.managers[manager]? with
    | none => .undefined
    | some m =>
      let h0 : AttributeBase := { manager_ := some manager, store_ := h.store_ }
      ringmesh_assert (m.find_attribute_store name).isNone (h0, w)
        (let created := w.new_store AttributeStore.new
         let h1 : AttributeBase := { manager_ := some manager, store_ := some created.1 }
         match m.bind_attribute_store name created.1 with
         | .ok m1 => .ok (h1, { created.2 with managers := created.2.managers.set manager m1 })
         | .assertion_failed _ => .assertion_failed (h1, created.2)
         | .undefined => .undefined))

namespace Attribute_bool

/-- The loop of `Attribute<bool>::fill`: `count` more iterations starting at index `i`,
each one `element( i ) = Byte( val )`. -/
def fill_loop (h : AttributeBase) (val : Bool) :
    Nat → Nat → World Nat → Outcome (World Nat) (World Nat)
  | 0, _, w => .ok w
  | count + 1, i, w =>
    match element_assign h w i (Byte_of_bool val) with
    | .ok w1 => fill_loop h val count (i + 1) w1
    | .assertion_failed s => .assertion_failed s
    | .undefined => .undefined

/-- `Attribute<bool>::fill`: `for( i = 0; i < store_->get_store().nb_elements(); ++i )
element( i ) = Byte( val )`. -/
def fill (h : AttributeBase) (w : World Nat) (val : Bool) : Outcome (World Nat) (World Nat) :=
  match h.store_ with
  | none => .undefined
  | some p =>
    match w.get_store p with
    | none => .undefined
    | some s => fill_loop h val s.nb_elements 0 w

end Attribute_bool

/-! ## ReadOnlyScalarAttributeAdapter -/

/-- Reading `reinterpret_cast< const S* >( data() )[j]`: the storage read as an array of
scalars, the scalars of an item (`scalars item`) lying one after the other and the items
lying one after the other; outside the storage there is no value. -/
def Store.data_get_scalar {α σ : Type} (s : Store α) (scalars : α → List σ) (j : Nat) :
    Option σ :=
  match s.backing with
  | .vector v => (v.flatMap scalars)[j]?
  | .constant c => (scalars c)[j]?

/-- Class `ReadOnlyScalarAttributeAdapter`: the members `manager_`, `store_` and
`element_index_`. -/
structure ReadOnlyScalarAttributeAdapter where
  manager_ : Option Nat
  store_ : Option Nat
  element_index_ : Nat
  deriving DecidableEq, Repr

namespace ReadOnlyScalarAttributeAdapter

variable {α : Type}

/-- `ReadOnlyScalarAttributeAdapter::is_bound`. -/
def is_bound (a : ReadOnlyScalarAttributeAdapter) : Bool := a.store_.isSome

/-- `ReadOnlyScalarAttributeAdapter::size`:
`( store_ == nullptr ) ? 0 : store_->get_store().size()`. -/
def size (a : ReadOnlyScalarAttributeAdapter) (w : World α) : Option Nat :=
  match a.store_ with
  | none => some 0
  | some p =>
    match w.get_store p with
    | none => none
    | some s => some s.size

/-- `ReadOnlyScalarAttributeAdapter::element_index`. -/
def element_index (a : ReadOnlyScalarAttributeAdapter) : Nat := a.element_index_

/-- `ReadOnlyScalarAttributeAdapter::get_element< S >( i, multiplier )`: the two
assertions, then `double( reinterpret_cast< const S* >( store_->data() )[( i * multiplier )
+ element_index_] )`, the index being computed in `index_t` (32 bits); `to_double` is the
conversion `double( x )` of a scalar. -/
def get_element {σ δ : Type} (a : ReadOnlyScalarAttributeAdapter) (w : World α)
    (scalars : α → List σ) (to_double : σ → δ) (i multiplier : Nat) : Outcome Unit δ :=
  ringmesh_assert a.is_bound ()
    (match a.size w with
    | none => .undefined
    | some n =>
      ringmesh_assert (decide (i < n)) ()
        (match a.store_ with
        | none => .undefined
        | some p =>
          match w.get_store p with
          | none => .undefined
          | some s =>
            match s.data_get_scalar scalars
                (((i * multiplier) % 2 ^ 32 + a.element_index_) % 2 ^ 32) with
            | none => .undefined
            | some x => .ok (to_double x)))

/-- The digit characters of `k` in base ten, most significant first ("0" for 0). -/
def decimal (k : Nat) : List Char :=
  if k = 0 then ['0'] else (Nat.digits 10 k).reverse.map (fun d => Char.ofNat (48 + d))

/-- The number that a list of digit characters denotes in base ten. -/
def parse_decimal (cs : List Char) : Nat :=
  cs.foldl (fun acc c => 10 * acc + (c.toNat - 48)) 0

/-- Modelled from the spec: `ReadOnlyScalarAttributeAdapter::attribute_base_name` is
declared in attributes.h and defined in a source file that is not at hand.  "Parses a
compound name of the form base[index]"; "for foobar[5], it returns foobar": the
characters before the first `[`, the whole name when there is none. -/
def attribute_base_name (name : String) : String :=
  String.mk (name.data.takeWhile (fun c => c != '['))

/-- Modelled from the spec: `ReadOnlyScalarAttributeAdapter::attribute_element_index` is
declared in attributes.h and defined in a source file that is not at hand.  "The index or
zero if no index was specified; for foobar[5] it returns 5, and for foobar it returns 0":
the number written between the first `[` and the `]` that follows, 0 when there is no
`[`. -/
def attribute_element_index (name : String) : Nat :=
  match name.data.dropWhile (fun c => c != '[') with
  | [] => 0
  | _ :: rest => parse_decimal (rest.takeWhile (fun c => c != ']'))

end ReadOnlyScalarAttributeAdapter

/-! ## Accessor to accessor assignment -/

/-- `BoolAttributeAccessor::operator=( const BoolAttributeAccessor& rhs )`: nothing when
`rhs` is the accessor itself (`same_object` is `&rhs == this`), otherwise
`attribute_->element( index_ ) = rhs.attribute_->element( rhs.index_ )`. -/
def BoolAttributeAccessor.assign_accessor (a : BoolAttributeAccessor) (w : World Nat)
    (rhs : BoolAttributeAccessor) (same_object : Bool) : Outcome (World Nat) (World Nat) :=
  if same_object then .ok w
  else
    match Attribute_bool.element rhs.attribute_ w rhs.index_ with
    | .ok byte => Attribute_bool.element_assign a.attribute_ w a.index_ byte
    | .assertion_failed s => .assertion_failed s
    | .undefined => .undefined

/-- `BoolAttributeAccessor::operator=( const ConstBoolAttributeAccessor& rhs )`:
`attribute_->element( index_ ) = rhs.attribute_->element( rhs.index_ )`. -/
def BoolAttributeAccessor.assign_const_accessor (a : BoolAttributeAccessor) (w : World Nat)
    (rhs : ConstBoolAttributeAccessor) : Outcome (World Nat) (World Nat) :=
  match Attribute_bool.element rhs.attribute_ w rhs.index_ with
  | .ok byte => Attribute_bool.element_assign a.attribute_ w a.index_ byte
  | .assertion_failed s => .assertion_failed s
  | .undefined => .undefined

/-- Every byte of the storage is 0 or 1. -/
def Store.bytes_are_bool (s : Store Nat) : Prop :=
  match s.backing with
  | .vector v => ∀ b ∈ v, b = 0 ∨ b = 1
  | .constant c => c = 0 ∨ c = 1

instance (s : Store Nat) : Decidable s.bytes_are_bool := by
  unfold Store.bytes_are_bool; cases s.backing <;> exact inferInstance

/-! ## Registry states that registrations lead to -/

/-- The registry states reached from the empty maps by calls of
`register_attribute_creator` that returned. -/
inductive Registry.Reachable {α : Type} : Registry α → Prop where
  | empty : Registry.Reachable Registry.empty
  | register (r r1 : Registry α) (creator : AttributeStoreCreator α) (N M : String) :
      Registry.Reachable r → r.register_attribute_creator creator N M = .ok r1 →
      Registry.Reachable r1

/-- The registry states reached from the empty maps by calls of
`register_attribute_creator` that returned and that gave a name already known the id it
had and an id already known the name it had. -/
inductive Registry.ReachableOneToOne {α : Type} : Registry α → Prop where
  | empty : Registry.ReachableOneToOne Registry.empty
  | register (r r1 : Registry α) (creator : AttributeStoreCreator α) (N M : String) :
      Registry.ReachableOneToOne r →
      (r.element_type_name_is_known N = true →
        r.type_name_to_typeid_name_.find N = some M) →
      (r.element_typeid_name_is_known M = true →
        r.typeid_name_to_type_name_.find M = some N) →
      r.register_attribute_creator creator N M = .ok r1 →
      Registry.ReachableOneToOne r1

/-! ## The class `range` of common.h -/

/-- Class `range`: the members `iter_` and `last_`, both `index_t`. -/
structure range where
  iter_ : Nat
  last_ : Nat
  deriving DecidableEq, Repr

namespace range

/-- `range( T end )`: `iter_{ 0 }`, `last_( static_cast< index_t >( end ) )`. -/
def of_end (end_ : Nat) : range := { iter_ := 0, last_ := end_ % 2 ^ 32 }

/-- `range( T1 begin, T2 end )`: both arguments are cast to `index_t`. -/
def of_begin_end (begin_ end_ : Nat) : range :=
  { iter_ := begin_ % 2 ^ 32, last_ := end_ % 2 ^ 32 }

/-- `range::begin`: `*this`, copied into the loop variable. -/
def begin_ (r : range) : range := r

/-- `range::end`: `*this`. -/
def end_ (r : range) : range := r

/-- `range::operator!=`: `iter_ < last_`, whatever the argument. -/
def ne (r : range) (_other : range) : Bool := decide (r.iter_ < r.last_)

/-- `range::operator++`: `++iter_` in `index_t`. -/
def incr (r : range) : range := { r with iter_ := (r.iter_ + 1) % 2 ^ 32 }

/-- `range::operator*`. -/
def deref (r : range) : Nat := r.iter_

/-- The statement `for( ; it != last; ++it ) { visit( *it ); }` run for at most `fuel`
tests of the condition: the values visited, or nothing when the fuel runs out. -/
def for_loop : Nat → range → range → Option (List Nat)
  | 0, _, _ => none
  | fuel + 1, it, last =>
    if it.ne last then (for_loop fuel it.incr last).map (fun visited => it.deref :: visited)
    else some []

/-- The statement `for( index_t i : r )`: the loop from `r.begin()` to `r.end()`. -/
def for_each (fuel : Nat) (r : range) : Option (List Nat) :=
  for_loop fuel r.begin_ r.end_

/-- The loop `for( index_t i = first; i < n; i++ ) { visit( i ); }` run for at most
`fuel` tests of the condition. -/
def counting_loop : Nat → Nat → Nat → Option (List Nat)
  | 0, _, _ => none
  | fuel + 1, i, n =>
    if i < n then (counting_loop fuel ((i + 1) % 2 ^ 32) n).map (fun visited => i :: visited)
    else some []

end range

/-! ## Example data -/

/-- The element type `int`. -/
def IntType : TypeInfo := { name := "i", sizeof := 4 }

/-- A `VectorStore<int>` of five items, every one equal to 7 (the state after
`resize( 5 )` and filling with 7). -/
def five_sevens : Store Int :=
  { T := IntType, size_ := 5, element_size_ := 4, backing := .vector [7, 7, 7, 7, 7] }

/-- A `VectorStore<int>` holding 10, 20, 30. -/
def ten_twenty_thirty : Store Int :=
  { T := IntType, size_ := 3, element_size_ := 4, backing := .vector [10, 20, 30] }

/-- A `ConstantStore<int>` broadcasting 9. -/
def constant_nine : Store Int :=
  { T := IntType, size_ := 1, element_size_ := 4, backing := .constant 9 }

/-- A manager of three items that binds "id" to the store object 0 and "k" to the store
object 1. -/
def id_k_manager : AttributesManager :=
  { nb_items_ := 3, attributes_ := { entries := [("id", 0), ("k", 1)] } }

/-- A world with the manager `id_k_manager` at position 0; the store object 0 owns
`ten_twenty_thirty`, the store object 1 owns `constant_nine`. -/
def id_k_world : World Int :=
  { managers := [id_k_manager],
    stores := [some { store_ := some ten_twenty_thirty }, some { store_ := some constant_nine }] }

/-- A `VectorStore<Byte>` of three items, all 0. -/
def three_flags : Store Nat :=
  { T := ByteType, size_ := 3, element_size_ := 1, backing := .vector [0, 0, 0] }

/-- A world with one manager of three items that binds "flag" to the store object 0,
which owns `three_flags`. -/
def flag_world : World Nat :=
  { managers := [{ nb_items_ := 3, attributes_ := { entries := [("flag", 0)] } }],
    stores := [some { store_ := some three_flags }] }

/-- The handle that points to the manager 0 and the store object 0. -/
def handle_0_0 : AttributeBase := { manager_ := some 0, store_ := some 0 }

/-- The element type `double`. -/
def DoubleType : TypeInfo := { name := "d", sizeof := 8 }

/-- A creator whose `create_attribute_store()` builds an `AttributeStore` owning an empty
`VectorStore<double>`. -/
def double_creator : AttributeStoreCreator Int :=
  { create_attribute_store := AttributeStore.new.set_store (Store.VectorStore DoubleType) }

/-- The maps after `register_attribute_creator( double_creator, "double", "d" )` on the
empty maps. -/
def double_registry : Registry Int :=
  Registry.empty.store_mappings double_creator "double" "d"

/-- The element type `unsigned int`, which `index_t` names too. -/
def UIntType : TypeInfo := { name := "j", sizeof := 4 }

/-- A creator whose `create_attribute_store()` builds an `AttributeStore` owning an empty
`VectorStore<unsigned int>`. -/
def uint_creator : AttributeStoreCreator Int :=
  { create_attribute_store := AttributeStore.new.set_store (Store.VectorStore UIntType) }

/-- The maps after registering "unsigned int" and then "index_t", two names of one type,
both with its mangled id "j". -/
def index_registry : Registry Int :=
  (Registry.empty.store_mappings uint_creator "unsigned int" "j").store_mappings
    uint_creator "index_t" "j"

/-- The element type `float`. -/
def FloatType : TypeInfo := { name := "f", sizeof := 4 }

/-- A creator whose `create_attribute_store()` builds an `AttributeStore` owning an empty
`VectorStore<float>`. -/
def float_creator : AttributeStoreCreator Int :=
  { create_attribute_store := AttributeStore.new.set_store (Store.VectorStore FloatType) }

/-- The maps after registering "double" with "d" and then "float" with "f". -/
def double_float_registry : Registry Int :=
  double_registry.store_mappings float_creator "float" "f"

/-- A `VectorStore<double>` of two items. -/
def two_doubles : Store Int :=
  { T := DoubleType, size_ := 2, element_size_ := 8, backing := .vector [1, 2] }

/-- The element type `vec3`, three `double`. -/
def Vec3Type : TypeInfo := { name := "N3GEO4vec3E", sizeof := 24 }

/-- A `VectorStore<vec3>` of two items, an item being the list of its three scalars. -/
def two_points : Store (List Int) :=
  { T := Vec3Type, size_ := 2, element_size_ := 24,
    backing := .vector [[1, 2, 3], [4, 5, 6]] }

/-- A world whose manager binds "pos" to the store object 0, which owns `two_points`. -/
def pos_world : World (List Int) :=
  { managers := [{ nb_items_ := 2, attributes_ := { entries := [("pos", 0)] } }],
    stores := [some { store_ := some two_points }] }

/-- The adapter bound to the store object 0 with the component 1 selected (the name
"pos[1]"). -/
def pos_1_adapter : ReadOnlyScalarAttributeAdapter :=
  { manager_ := some 0, store_ := some 0, element_index_ := 1 }

/-- A store of `n + 1` items of two scalars each: `n` items `[0, 0]` followed by the item
`[5, 6]`. -/
def long_store (n : Nat) : Store (List Int) :=
  { T := { name := "N3GEO4vec2E", sizeof := 16 }, size_ := n + 1, element_size_ := 16,
    backing := .vector (List.replicate n [0, 0] ++ [[5, 6]]) }

/-- A world whose store object 0 owns `long_store n`. -/
def long_world (n : Nat) : World (List Int) :=
  { managers := [{ nb_items_ := n + 1, attributes_ := { entries := [("uv", 0)] } }],
    stores := [some { store_ := some (long_store n) }] }

/-- The adapter bound to the store object 0 with the component 0 selected. -/
def uv_0_adapter : ReadOnlyScalarAttributeAdapter :=
  { manager_ := some 0, store_ := some 0, element_index_ := 0 }

/-- A world with one empty manager and no store object. -/
def empty_world : World Int :=
  { managers := [AttributesManager.new], stores := [] }

/-! ## Stores: compress, apply_permutation, clone -/

section StoreLemmas

variable {α : Type}

theorem Store.clone_backing [Inhabited α] (s : Store α) : s.clone.backing = s.backing := by
  unfold Store.clone
  cases h : s.backing <;> simp

theorem Store.clone_T [Inhabited α] (s : Store α) : s.clone.T = s.T := by
  unfold Store.clone
  cases h : s.backing <;> simp [Store.VectorStore, Store.ConstantStore, Store.resize]

theorem Store.clone_size_vector [Inhabited α] (s : Store α) (h : s.is_vector = true) :
    s.clone.size = s.size := by
  unfold Store.is_vector at h
  unfold Store.clone
  cases hb : s.backing <;> simp [hb] at h ⊢
  simp [Store.VectorStore, Store.resize, Store.size]

theorem Store.clone_size_constant [Inhabited α] (s : Store α) (h : s.is_vector = false) :
    s.clone.size = 1 := by
  unfold Store.is_vector at h
  unfold Store.clone
  cases hb : s.backing <;> simp [hb] at h ⊢
  simp [Store.ConstantStore, Store.size]

theorem Store.data_get_congr (s t : Store α) (h : s.backing = t.backing) (i : Nat) :
    s.data_get i = t.data_get i := by
  unfold Store.data_get
  rw [h]

theorem Store.is_vector_congr (s t : Store α) (h : s.backing = t.backing) :
    s.is_vector = t.is_vector := by
  unfold Store.is_vector
  rw [h]

end StoreLemmas

/-- C1, the code at the failing input: compressing the vector store of five items all
equal to 7 with the mapping `[0, 1, NO_ID, 2, 3]` (item 2 removed) returns a store that
still has size 5 and still holds five items, where the claim asks for 4 items;
`VectorStore<T>::compress` returns without touching the store. -/
theorem C1_compress_leaves_five_items :
    (five_sevens.compress [0, 1, NO_ID, 2, 3]).size = 5 ∧
    (five_sevens.compress [0, 1, NO_ID, 2, 3]).backing = .vector [7, 7, 7, 7, 7] ∧
    (AttributeStore.compress { store_ := some five_sevens } [0, 1, NO_ID, 2, 3]
      = .ok { store_ := some five_sevens }) := by
  decide

/-- C2, the code at the failing input: applying the permutation `[2, 0, 1]` to the vector
store holding 10, 20, 30 leaves 10 at position 0, where the claim asks for the item
that was at position `perm[0] = 2`, which is 30; `VectorStore<T>::apply_permutation`
returns without touching the store. -/
theorem C2_apply_permutation_leaves_order :
    (ten_twenty_thirty.apply_permutation [2, 0, 1]).data_get 0 = some 10 ∧
    ten_twenty_thirty.data_get 2 = some 30 ∧
    (ten_twenty_thirty.apply_permutation [2, 0, 1]).backing = .vector [10, 20, 30] := by
  decide

/-- C3: for every store (vector-backed or constant), every index array `P` and every index
array `Q`, in particular for a permutation `P` and `Q = inverse(P)`, `apply_permutation(P)`
followed by `apply_permutation(Q)` returns the store it started from: same size, same
elements in the same order; the same holds through `AttributeStore::apply_permutation`. -/
theorem C3_apply_permutation_then_inverse {α : Type} (s : Store α) (P Q : List Nat) :
    (s.apply_permutation P).apply_permutation Q = s ∧
    ((s.apply_permutation P).apply_permutation Q).size = s.size ∧
    (∀ i, ((s.apply_permutation P).apply_permutation Q).data_get i = s.data_get i) ∧
    (∃ as1, AttributeStore.apply_permutation { store_ := some s } P = .ok as1 ∧
      as1.apply_permutation Q = .ok { store_ := some s }) := by
  refine ⟨rfl, rfl, fun _ => rfl, ⟨_, rfl, rfl⟩⟩

/-- C4: `p->clone()` on a store `s` (a constant store having size 1) returns a pointer
`q` to a new object, different from `p`, of the same variant and element type as `s`,
with the size and the element values of `s`; `s` itself is unchanged.  Afterwards a
`resize` or an element write through either pointer leaves the object behind the other
pointer as it was. -/
theorem C4_clone_equal_and_independent {α : Type} [Inhabited α] (heap : List (Store α))
    (p : Nat) (s : Store α) (hp : heap[p]? = some s)
    (hconst : s.is_vector = false → s.size = 1) :
    ∃ q heap1 c, clone_at heap p = some (q, heap1) ∧ q ≠ p ∧
      heap1[p]? = some s ∧ heap1[q]? = some c ∧
      c.is_vector = s.is_vector ∧ c.T = s.T ∧ c.size = s.size ∧
      (∀ i, c.data_get i = s.data_get i) ∧
      (∀ n, ∃ heap2, resize_at heap1 p n = some heap2 ∧ heap2[q]? = some c) ∧
      (∀ n, ∃ heap2, resize_at heap1 q n = some heap2 ∧ heap2[p]? = some s) ∧
      (∀ i v heap2, data_set_at heap1 p i v = some heap2 → heap2[q]? = some c) ∧
      (∀ i v heap2, data_set_at heap1 q i v = some heap2 → heap2[p]? = some s) := by
  have hlt : p < heap.length := by
    rcases List.getElem?_eq_some.1 hp with ⟨h, _⟩
    exact h
  have hne : heap.length ≠ p := Nat.ne_of_gt hlt
  have h1p : (heap ++ [s.clone])[p]? = some s := by
    rw [List.getElem?_append_left hlt]; exact hp
  have h1q : (heap ++ [s.clone])[heap.length]? = some s.clone := by
    simp
  refine ⟨heap.length, heap ++ [s.clone], s.clone, ?_, hne, h1p, h1q,
    Store.is_vector_congr _ _ (Store.clone_backing s), Store.clone_T s, ?_,
    fun i => Store.data_get_congr _ _ (Store.clone_backing s) i, ?_, ?_, ?_, ?_⟩
  · simp [clone_at, hp]
  · cases hv : s.is_vector
    · rw [Store.clone_size_constant s hv, hconst hv]
    · exact Store.clone_size_vector s hv
  · intro n
    refine ⟨(heap ++ [s.clone]).set p (s.resize n), by simp [resize_at, h1p], ?_⟩
    rw [List.getElem?_set_ne (Ne.symm hne)]; exact h1q
  · intro n
    refine ⟨(heap ++ [s.clone]).set heap.length (s.clone.resize n), by simp [resize_at], ?_⟩
    rw [List.getElem?_set_ne hne]; exact h1p
  · intro i v heap2 h
    unfold data_set_at at h
    rw [h1p] at h
    cases hs : s.data_set i v <;> simp [hs] at h
    subst h
    rw [List.getElem?_set_ne (Ne.symm hne)]; exact h1q
  · intro i v heap2 h
    unfold data_set_at at h
    rw [h1q] at h
    cases hs : s.clone.data_set i v <;> simp [hs] at h
    subst h
    rw [List.getElem?_append_left hlt]; exact hp

/-- C4 at a concrete input: cloning the store holding 10, 20, 30 that sits at position 0. -/
theorem C4_clone_equal_and_independent_witness :
    ([ten_twenty_thirty][0]? = some ten_twenty_thirty) ∧
    (ten_twenty_thirty.is_vector = false → ten_twenty_thirty.size = 1) ∧
    ∃ q heap1 c, clone_at [ten_twenty_thirty] 0 = some (q, heap1) ∧ q ≠ 0 ∧
      heap1[0]? = some ten_twenty_thirty ∧ heap1[q]? = some c ∧
      c.is_vector = ten_twenty_thirty.is_vector ∧ c.T = ten_twenty_thirty.T ∧
      c.size = ten_twenty_thirty.size ∧
      (∀ i, c.data_get i = ten_twenty_thirty.data_get i) ∧
      (∀ n, ∃ heap2, resize_at heap1 0 n = some heap2 ∧ heap2[q]? = some c) ∧
      (∀ n, ∃ heap2, resize_at heap1 q n = some heap2 ∧
        heap2[0]? = some ten_twenty_thirty) ∧
      (∀ i v heap2, data_set_at heap1 0 i v = some heap2 → heap2[q]? = some c) ∧
      (∀ i v heap2, data_set_at heap1 q i v = some heap2 →
        heap2[0]? = some ten_twenty_thirty) :=
  ⟨by decide, by decide,
    C4_clone_equal_and_independent [ten_twenty_thirty] 0 ten_twenty_thirty (by decide)
      (by decide)⟩

/-! ## Pointers into a world -/

section WorldLemmas

variable {α : Type}

theorem World.store_at_lt (w : World α) (p : Nat) (as : AttributeStore α)
    (h : w.store_at p = some as) : p < w.stores.length := by
  unfold World.store_at at h
  cases hq : w.stores[p]? with
  | none => simp [hq] at h
  | some o =>
    rcases List.getElem?_eq_some.1 hq with ⟨hlt, _⟩
    exact hlt

theorem World.get_store_some (w : World α) (p : Nat) (s : Store α)
    (h : w.get_store p = some s) :
    ∃ as, w.store_at p = some as ∧ as.store_ = some s := by
  unfold World.get_store at h
  cases hq : w.store_at p with
  | none => simp [hq] at h
  | some as =>
    simp [hq, AttributeStore.get_store] at h
    exact ⟨as, rfl, h⟩

theorem World.get_store_lt (w : World α) (p : Nat) (s : Store α)
    (h : w.get_store p = some s) : p < w.stores.length := by
  rcases World.get_store_some w p s h with ⟨as, has, _⟩
  exact World.store_at_lt w p as has

theorem World.store_at_put_store_same (w : World α) (p : Nat) (as : AttributeStore α)
    (hp : p < w.stores.length) : (w.put_store p as).store_at p = some as := by
  simp [World.put_store, World.store_at, List.getElem?_set_self hp]

theorem World.store_at_put_store_ne (w : World α) (p q : Nat) (as : AttributeStore α)
    (h : q ≠ p) : (w.put_store p as).store_at q = w.store_at q := by
  simp [World.put_store, World.store_at, List.getElem?_set_ne (Ne.symm h)]

theorem World.get_store_put_store_same (w : World α) (p : Nat) (as : AttributeStore α)
    (hp : p < w.stores.length) : (w.put_store p as).get_store p = as.store_ := by
  simp [World.get_store, World.store_at_put_store_same w p as hp, AttributeStore.get_store]

theorem World.get_store_put_store_ne (w : World α) (p q : Nat) (as : AttributeStore α)
    (h : q ≠ p) : (w.put_store p as).get_store q = w.get_store q := by
  simp [World.get_store, World.store_at_put_store_ne w p q as h]

theorem World.put_store_managers (w : World α) (p : Nat) (as : AttributeStore α) :
    (w.put_store p as).managers = w.managers := rfl

theorem StdMap.find_mem {V : Type} (m : StdMap V) (key : String) (v : V)
    (h : m.find key = some v) : (key, v) ∈ m.entries := by
  unfold StdMap.find at h
  cases hf : m.entries.find? (fun e => e.1 == key) with
  | none => simp [hf] at h
  | some e =>
    simp [hf] at h
    have hmem := List.mem_of_find?_eq_some hf
    have hkey := List.find?_some hf
    simp at hkey
    rcases e with ⟨k, x⟩
    simp at hkey h
    subst hkey; subst h
    exact hmem

end WorldLemmas

/-! ## Resizing -/

section ResizeLemmas

variable {α : Type} [Inhabited α]

theorem Store.vector_resize_length (v : List α) (n : Nat) :
    (Store.vector_resize v n).length = n := by
  simp [Store.vector_resize]
  omega

theorem Store.vector_resize_idem (v : List α) (n : Nat) :
    Store.vector_resize (Store.vector_resize v n) n = Store.vector_resize v n := by
  have hl := Store.vector_resize_length v n
  have ht : (Store.vector_resize v n).take n = Store.vector_resize v n :=
    List.take_of_length_le (Nat.le_of_eq hl)
  show (Store.vector_resize v n).take n ++
      List.replicate (n - (Store.vector_resize v n).length) default = _
  rw [ht, hl, Nat.sub_self]
  simp

theorem Store.resize_idem (s : Store α) (n : Nat) : (s.resize n).resize n = s.resize n := by
  unfold Store.resize
  cases hb : s.backing with
  | vector v => simp [Store.vector_resize_idem]
  | constant c => simp [hb]

theorem Store.resize_size_vector (s : Store α) (n : Nat) (h : s.is_vector = true) :
    (s.resize n).is_vector = true ∧ (s.resize n).size = n ∧ (s.resize n).sized := by
  unfold Store.is_vector at h
  unfold Store.resize
  cases hb : s.backing with
  | vector v => simp [Store.is_vector, Store.size, Store.sized, Store.vector_resize_length]
  | constant c => simp [hb] at h

theorem Store.resize_constant (s : Store α) (n : Nat) (h : s.is_vector = false) :
    s.resize n = s := by
  unfold Store.is_vector at h
  unfold Store.resize
  cases hb : s.backing with
  | vector v => simp [hb] at h
  | constant c => simp

/-- After `resize_stores`, the store behind a pointer of the list is the resized store,
every other store is as before, and the managers are as before. -/
theorem World.resize_stores_spec (n : Nat) :
    ∀ (L : List (String × Nat)) (w : World α),
      (∀ e ∈ L, ∃ s, w.get_store e.2 = some s) →
      ∃ w1, World.resize_stores n L w = some w1 ∧ w1.managers = w.managers ∧
        ∀ q, w1.get_store q =
          if q ∈ L.map Prod.snd then (w.get_store q).map (fun s => s.resize n)
          else w.get_store q := by
  intro L
  induction L with
  | nil =>
    intro w _
    exact ⟨w, rfl, rfl, fun q => by simp⟩
  | cons e rest ih =>
    intro w hv
    rcases e with ⟨name, p⟩
    rcases hv (name, p) (List.mem_cons_self _ _) with ⟨s, hs⟩
    rcases World.get_store_some w p s hs with ⟨as, has, hass⟩
    have hlt := World.store_at_lt w p as has
    have hres : as.resize n = .ok { store_ := some (s.resize n) } := by
      simp [AttributeStore.resize, hass]
    have hv1 : ∀ e ∈ rest, ∃ s1,
        (w.put_store p { store_ := some (s.resize n) }).get_store e.2 = some s1 := by
      intro e he
      by_cases hq : e.2 = p
      · rw [hq, World.get_store_put_store_same w p _ hlt]
        exact ⟨_, rfl⟩
      · rw [World.get_store_put_store_ne w p e.2 _ hq]
        exact hv e (List.mem_cons_of_mem _ he)
    rcases ih (w.put_store p { store_ := some (s.resize n) }) hv1 with ⟨w1, hw1, hm1, hq1⟩
    refine ⟨w1, ?_, ?_, ?_⟩
    · simp [World.resize_stores, has, hres, hw1]
    · rw [hm1]; rfl
    · intro q
      rw [hq1 q]
      by_cases hqp : q = p
      · subst hqp
        rw [World.get_store_put_store_same w q _ hlt, hs]
        simp [Store.resize_idem]
      · rw [World.get_store_put_store_ne w p q _ hqp]
        simp only [List.map_cons, List.mem_cons, hqp, false_or]

end ResizeLemmas

/-- C5: in a world where every pointer held by the manager refers to an `AttributeStore`
that owns a store, `AttributesManager::resize( n )` returns; afterwards `nb_items()` is
`n`, the manager binds the same names to the same pointers, every bound vector-backed
store is vector-backed with `size() == n`, and every bound constant-backed store (of
size 1) is the same constant store, with `size() == 1`. -/
theorem C5_manager_resize {α : Type} [Inhabited α] (w : World α) (manager : Nat)
    (m : AttributesManager) (n : Nat) (hm : w.managers[manager]? = some m)
    (hstores : ∀ e ∈ m.attributes_.entries, ∃ s, w.get_store e.2 = some s) :
    ∃ w1 m1, World.resize w manager n = .ok w1 ∧ w1.managers[manager]? = some m1 ∧
      m1.nb_items = n ∧ m1.attributes_ = m.attributes_ ∧
      ∀ name p s, m1.find_attribute_store name = some p → w.get_store p = some s →
        ∃ s1, w1.get_store p = some s1 ∧
          (s.is_vector = true → s1.is_vector = true ∧ s1.size = n) ∧
          (s.is_vector = false → s.size = 1 → s1 = s ∧ s1.is_vector = false ∧ s1.size = 1) := by
  have hlt : manager < w.managers.length := by
    rcases List.getElem?_eq_some.1 hm with ⟨h, _⟩
    exact h
  rcases World.resize_stores_spec n m.attributes_.entries
      { w with managers := w.managers.set manager { m with nb_items_ := n } } hstores
    with ⟨w1, hw1, hm1, hq1⟩
  refine ⟨w1, { m with nb_items_ := n }, ?_, ?_, rfl, rfl, ?_⟩
  · simp [World.resize, hm, hw1]
  · rw [hm1]
    simp [List.getElem?_set_self hlt]
  · intro name p s hfind hs
    have hmem : p ∈ m.attributes_.entries.map Prod.snd :=
      List.mem_map.2 ⟨(name, p), StdMap.find_mem _ name p hfind, rfl⟩
    have hget : w1.get_store p = some (s.resize n) := by
      rw [hq1 p]
      simp only [hmem, if_true]
      change Option.map _ (w.get_store p) = _
      rw [hs]; rfl
    refine ⟨s.resize n, hget, ?_, ?_⟩
    · intro hv
      exact ⟨(Store.resize_size_vector s n hv).1, (Store.resize_size_vector s n hv).2.1⟩
    · intro hc h1
      rw [Store.resize_constant s n hc]
      exact ⟨rfl, hc, h1⟩

/-- C5 at a concrete input: resizing to 5 items the manager that binds "id" to a vector
store of 3 items and "k" to a constant store. -/
theorem C5_manager_resize_witness :
    id_k_world.managers[0]? = some id_k_manager ∧
    (∀ e ∈ id_k_manager.attributes_.entries, ∃ s, id_k_world.get_store e.2 = some s) ∧
    ∃ w1 m1, World.resize id_k_world 0 5 = .ok w1 ∧ w1.managers[0]? = some m1 ∧
      m1.nb_items = 5 ∧ m1.attributes_ = id_k_manager.attributes_ ∧
      ∀ name p s, m1.find_attribute_store name = some p → id_k_world.get_store p = some s →
        ∃ s1, w1.get_store p = some s1 ∧
          (s.is_vector = true → s1.is_vector = true ∧ s1.size = 5) ∧
          (s.is_vector = false → s.size = 1 → s1 = s ∧ s1.is_vector = false ∧ s1.size = 1) :=
  have hstores : ∀ e ∈ id_k_manager.attributes_.entries,
      ∃ s, id_k_world.get_store e.2 = some s := by
    intro e he
    simp [id_k_manager] at he
    rcases he with rfl | rfl
    · exact ⟨ten_twenty_thirty, rfl⟩
    · exact ⟨constant_nine, rfl⟩
  ⟨by decide, hstores, C5_manager_resize id_k_world 0 id_k_manager 5 (by decide) hstores⟩

/-! ## Element access through a handle -/

section AccessLemmas

variable {α : Type}

theorem Store.data_set_spec (s s1 : Store α) (i : Nat) (v : α)
    (h : s.data_set i v = some s1) :
    s1.T = s.T ∧ s1.size_ = s.size_ ∧ s1.element_size_ = s.element_size_ ∧
      s1.is_vector = s.is_vector ∧ (s.sized → s1.sized) ∧
      s1.data_get i = some v ∧ ∀ j, j ≠ i → s1.data_get j = s.data_get j := by
  unfold Store.data_set at h
  cases hb : s.backing with
  | vector l =>
    simp only [hb] at h
    by_cases hi : i < l.length
    · simp only [hi, if_true, Option.some.injEq] at h
      subst h
      refine ⟨rfl, rfl, rfl, ?_, ?_, ?_, ?_⟩
      · simp [Store.is_vector, hb]
      · simp [Store.sized, hb]
      · simp [Store.data_get, hi]
      · intro j hj
        simp [Store.data_get, hb, List.getElem?_set_ne (Ne.symm hj)]
    · simp [hi] at h
  | constant c =>
    simp only [hb] at h
    by_cases hi : i = 0
    · simp only [hi, if_true, Option.some.injEq] at h
      subst h
      refine ⟨rfl, rfl, rfl, ?_, ?_, ?_, ?_⟩
      · simp [Store.is_vector, hb]
      · simp [Store.sized, hb]
      · simp [Store.data_get, hi]
      · intro j hj
        simp [Store.data_get, hb, hi ▸ hj]
    · simp [hi] at h

theorem Store.data_set_some_of_sized (s : Store α) (i : Nat) (v : α) (hs : s.sized)
    (hi : i < s.size) : ∃ s1, s.data_set i v = some s1 := by
  unfold Store.sized at hs
  unfold Store.data_set
  unfold Store.size at hi
  cases hb : s.backing with
  | vector l =>
    simp only [hb] at hs
    simp [hs, hi]
  | constant c =>
    simp only [hb] at hs
    have : i = 0 := by omega
    simp [this]

theorem Store.data_get_some_of_sized (s : Store α) (i : Nat) (hs : s.sized)
    (hi : i < s.size) : ∃ x, s.data_get i = some x := by
  unfold Store.sized at hs
  unfold Store.data_get
  unfold Store.size at hi
  cases hb : s.backing with
  | vector l =>
    simp only [hb] at hs
    have hl : i < l.length := by omega
    exact ⟨l[i], by simp [hl]⟩
  | constant c =>
    simp only [hb] at hs
    have : i = 0 := by omega
    exact ⟨c, by simp [this]⟩

theorem AttributeBase.size_eq (h : AttributeBase) (w : World α) (p : Nat) (s : Store α)
    (hp : h.store_ = some p) (hs : w.get_store p = some s) : h.size w = some s.size := by
  simp [AttributeBase.size, hp, hs]

/-- A handle whose `size()` is defined points to a live `AttributeStore` owning a store. -/
theorem AttributeBase.size_some (h : AttributeBase) (w : World α) (n : Nat)
    (hn : h.size w = some n) :
    ∃ p s, h.store_ = some p ∧ w.get_store p = some s ∧ s.size = n := by
  unfold AttributeBase.size at hn
  cases hp : h.store_ with
  | none => simp [hp] at hn
  | some p =>
    simp only [hp] at hn
    cases hs : w.get_store p with
    | none => simp [hs] at hn
    | some s =>
      simp only [hs, Option.some.injEq] at hn
      exact ⟨p, s, rfl, hs, hn⟩

theorem Attribute.set_value_eq (h : AttributeBase) (w : World α) (p : Nat) (s : Store α)
    (i : Nat) (v : α) (hp : h.store_ = some p) (hs : w.get_store p = some s) :
    Attribute.set_value h w i v =
      if i < s.size then
        match s.data_set i v with
        | none => .undefined
        | some s1 => .ok (w.put_store p { store_ := some s1 })
      else .assertion_failed w := by
  simp [Attribute.set_value, ringmesh_assert, hp, AttributeBase.size_eq h w p s hp hs, hs]

theorem Attribute.value_eq (h : AttributeBase) (w : World α) (p : Nat) (s : Store α)
    (i : Nat) (hp : h.store_ = some p) (hs : w.get_store p = some s) :
    Attribute.value h w i =
      if i < s.size then
        match s.data_get i with
        | none => .undefined
        | some x => .ok x
      else .assertion_failed w := by
  simp [Attribute.value, ringmesh_assert, hp, AttributeBase.size_eq h w p s hp hs, hs]

/-- A `set_value` that returns has written into the store the handle points to. -/
theorem Attribute.set_value_ok (h : AttributeBase) (w w1 : World α) (i : Nat) (v : α)
    (hok : Attribute.set_value h w i v = .ok w1) :
    ∃ p s s1, h.store_ = some p ∧ w.get_store p = some s ∧ i < s.size ∧
      s.data_set i v = some s1 ∧ w1 = w.put_store p { store_ := some s1 } := by
  cases hp : h.store_ with
  | none => simp [Attribute.set_value, hp] at hok
  | some p =>
    cases hn : h.size w with
    | none => simp [Attribute.set_value, hp, hn] at hok
    | some n =>
      rcases AttributeBase.size_some h w n hn with ⟨p1, s, hp1, hs, _⟩
      rw [hp] at hp1
      cases hp1
      rw [Attribute.set_value_eq h w p s i v hp hs] at hok
      by_cases hi : i < s.size
      · simp only [hi, if_true] at hok
        cases hd : s.data_set i v with
        | none => simp [hd] at hok
        | some s1 =>
          simp only [hd, Outcome.ok.injEq] at hok
          exact ⟨p, s, s1, rfl, hs, hi, hd, hok.symm⟩
      · simp [hi] at hok

end AccessLemmas

section BoolAccessLemmas

theorem Attribute_bool.element_eq (h : AttributeBase) (w : World Nat) (p : Nat)
    (s : Store Nat) (i : Nat) (hp : h.store_ = some p) (hs : w.get_store p = some s) :
    Attribute_bool.element h w i =
      if i < s.size then
        match s.data_get i with
        | none => .undefined
        | some b => .ok b
      else .assertion_failed w := by
  simp [Attribute_bool.element, ringmesh_assert, hp, hs, Store.nb_elements, Store.size]

theorem Attribute_bool.element_assign_eq (h : AttributeBase) (w : World Nat) (p : Nat)
    (s : Store Nat) (i b : Nat) (hp : h.store_ = some p) (hs : w.get_store p = some s) :
    Attribute_bool.element_assign h w i b =
      if i < s.size then
        match s.data_set i b with
        | none => .undefined
        | some s1 => .ok (w.put_store p { store_ := some s1 })
      else .assertion_failed w := by
  simp [Attribute_bool.element_assign, ringmesh_assert, hp, hs, Store.nb_elements, Store.size]

theorem Byte_of_bool_ne_zero (x : Bool) : (Byte_of_bool x != 0) = x := by
  cases x <;> rfl

end BoolAccessLemmas

/-- C7: for a handle bound to a store whose items are all in its storage (`sized`), an
index `i < size()` and a value `v`: `set_value( i, v )` returns, and afterwards
`value( i )` and `operator[]( i )` return `v`, `value( j )` is as before for every other
`j < size()`, and `size()` is as before. -/
theorem C7_set_value_frame {α : Type} (h : AttributeBase) (w : World α) (p : Nat)
    (s : Store α) (i : Nat) (v : α) (hp : h.store_ = some p)
    (hs : w.get_store p = some s) (hsized : s.sized) (hi : i < s.size) :
    ∃ w1, Attribute.set_value h w i v = .ok w1 ∧
      Attribute.value h w1 i = .ok v ∧ Attribute.get h w1 i = .ok v ∧
      (∀ j, j ≠ i → j < s.size → ∃ x, Attribute.value h w j = .ok x ∧
        Attribute.value h w1 j = .ok x) ∧
      h.size w = some s.size ∧ h.size w1 = some s.size := by
  rcases Store.data_set_some_of_sized s i v hsized hi with ⟨s1, hs1⟩
  rcases Store.data_set_spec s s1 i v hs1 with ⟨_, hsz, _, _, _, hget, hframe⟩
  have hlt := World.get_store_lt w p s hs
  have hs1w : (w.put_store p { store_ := some s1 }).get_store p = some s1 :=
    World.get_store_put_store_same w p _ hlt
  have hsize1 : s1.size = s.size := hsz
  have hval : Attribute.value h (w.put_store p { store_ := some s1 }) i = .ok v := by
    rw [Attribute.value_eq h _ p s1 i hp hs1w]
    simp [hsize1, hi, hget]
  refine ⟨w.put_store p { store_ := some s1 }, ?_, hval, hval, ?_, ?_, ?_⟩
  · rw [Attribute.set_value_eq h w p s i v hp hs]
    simp [hi, hs1]
  · intro j hj hjn
    rcases Store.data_get_some_of_sized s j hsized hjn with ⟨x, hx⟩
    refine ⟨x, ?_, ?_⟩
    · rw [Attribute.value_eq h w p s j hp hs]
      simp [hjn, hx]
    · rw [Attribute.value_eq h _ p s1 j hp hs1w]
      simp [hsize1, hjn, hframe j hj, hx]
  · exact AttributeBase.size_eq h w p s hp hs
  · rw [AttributeBase.size_eq h _ p s1 hp hs1w, hsize1]

/-- C7 at a concrete input: writing 25 at index 1 of the attribute "id" of `id_k_world`. -/
theorem C7_set_value_frame_witness :
    (AttributeBase.mk (some 0) (some 0)).store_ = some 0 ∧
    id_k_world.get_store 0 = some ten_twenty_thirty ∧ ten_twenty_thirty.sized ∧
    1 < ten_twenty_thirty.size ∧
    ∃ w1, Attribute.set_value (AttributeBase.mk (some 0) (some 0)) id_k_world 1 25 = .ok w1 ∧
      Attribute.value (AttributeBase.mk (some 0) (some 0)) w1 1 = .ok 25 ∧
      Attribute.get (AttributeBase.mk (some 0) (some 0)) w1 1 = .ok 25 ∧
      (∀ j, j ≠ 1 → j < ten_twenty_thirty.size → ∃ x,
        Attribute.value (AttributeBase.mk (some 0) (some 0)) id_k_world j = .ok x ∧
        Attribute.value (AttributeBase.mk (some 0) (some 0)) w1 j = .ok x) ∧
      (AttributeBase.mk (some 0) (some 0)).size id_k_world = some ten_twenty_thirty.size ∧
      (AttributeBase.mk (some 0) (some 0)).size w1 = some ten_twenty_thirty.size :=
  ⟨rfl, by decide, by decide, by decide,
    C7_set_value_frame (AttributeBase.mk (some 0) (some 0)) id_k_world 0 ten_twenty_thirty
      1 25 rfl (by decide) (by decide) (by decide)⟩

/-- C8: for a handle bound to a store `s` (an `Attribute<T>`, or an `Attribute<bool>`
over a store of bytes), `set_value( i, v )` and the read `value( i )` stop on their
assertion exactly when `i >= size()`, and the state in which the assertion stops is the
state before the call: no element has been written.  For `Attribute<bool>` the read is
the conversion to `bool` of the accessor that `value( i )` returns. -/
theorem C8_index_assertion {α : Type} (h : AttributeBase) (w : World α) (p : Nat)
    (s : Store α) (i : Nat) (v : α) (hp : h.store_ = some p) (hs : w.get_store p = some s)
    (b : AttributeBase) (wb : World Nat) (pb : Nat) (sb : Store Nat) (x : Bool) (y : Nat)
    (hpb : b.store_ = some pb) (hsb : wb.get_store pb = some sb) :
    ((∃ w1, Attribute.set_value h w i v = .assertion_failed w1) ↔ s.size ≤ i) ∧
    (∀ w1, Attribute.set_value h w i v = .assertion_failed w1 → w1 = w) ∧
    ((∃ w1, Attribute.value h w i = .assertion_failed w1) ↔ s.size ≤ i) ∧
    (∀ w1, Attribute.value h w i = .assertion_failed w1 → w1 = w) ∧
    ((∃ w1, Attribute_bool.set_value b wb i x = .assertion_failed w1) ↔ sb.size ≤ i) ∧
    (∀ w1, Attribute_bool.set_value b wb i x = .assertion_failed w1 → w1 = wb) ∧
    ((∃ w1, Attribute_bool.set_value_byte b wb i y = .assertion_failed w1) ↔ sb.size ≤ i) ∧
    (∀ w1, Attribute_bool.set_value_byte b wb i y = .assertion_failed w1 → w1 = wb) ∧
    ((∃ w1, (Attribute_bool.value b i).to_bool wb = .assertion_failed w1) ↔ sb.size ≤ i) ∧
    (∀ w1, (Attribute_bool.value b i).to_bool wb = .assertion_failed w1 → w1 = wb) := by
  have hset : ∀ (c : Nat), Attribute_bool.element_assign b wb i c =
      if i < sb.size then
        match sb.data_set i c with
        | none => .undefined
        | some s1 => .ok (wb.put_store pb { store_ := some s1 })
      else .assertion_failed wb := fun c =>
    Attribute_bool.element_assign_eq b wb pb sb i c hpb hsb
  have hread : (Attribute_bool.value b i).to_bool wb =
      if i < sb.size then
        match sb.data_get i with
        | none => .undefined
        | some c => .ok (c != 0)
      else .assertion_failed wb := by
    simp only [ConstBoolAttributeAccessor.to_bool, Attribute_bool.value,
      Attribute_bool.element_eq b wb pb sb i hpb hsb]
    by_cases hi : i < sb.size
    · simp only [hi, if_true]
      cases sb.data_get i <;> rfl
    · simp only [hi, if_false]
  simp only [Attribute_bool.set_value, Attribute_bool.set_value_byte,
    BoolAttributeAccessor.assign_bool, hset, hread,
    Attribute.set_value_eq h w p s i v hp hs, Attribute.value_eq h w p s i hp hs]
  by_cases hi : i < s.size <;> by_cases hib : i < sb.size
  all_goals simp only [hi, hib, if_true, if_false]
  all_goals
    refine ⟨?_, ?_, ?_, ?_, ?_, ?_, ?_, ?_, ?_, ?_⟩
  all_goals
    first
    | (constructor
       · first
         | (intro _; omega)
         | (rintro ⟨w1, hw1⟩; revert hw1; split <;> simp)
       · first
         | (intro _; exact ⟨_, rfl⟩)
         | (intro hle; omega))
    | (intro w1 hw1; first | (cases hw1; rfl) | (revert hw1; split <;> simp))

/-! ## Binding a handle -/

section BindLemmas

variable {α : Type}

theorem StdMap.find_assign_same {V : Type} (m : StdMap V) (key : String) (v : V) :
    (m.assign key v).find key = some v := by
  simp [StdMap.assign, StdMap.find]

theorem StdMap.find_assign_ne {V : Type} (m : StdMap V) (key other : String) (v : V)
    (h : other ≠ key) : (m.assign key v).find other = m.find other := by
  have hko : (key == other) = false := by
    simp [Ne.symm h]
  simp only [StdMap.assign, StdMap.find, StdMap.erase, List.find?_cons, hko]
  have hfilter : ∀ (l : List (String × V)),
      (l.filter (fun e => !(e.1 == key))).find? (fun e => e.1 == other)
        = l.find? (fun e => e.1 == other) := by
    intro l
    induction l with
    | nil => rfl
    | cons e rest ih =>
      by_cases hk : e.1 = key
      · have hne : ¬ e.1 = other := fun ho => h (ho.symm.trans hk)
        have h1 : ¬ ((fun x : String × V => !(x.1 == key)) e = true) := by simp [hk]
        have h2 : ¬ ((fun x : String × V => x.1 == other) e = true) := by simp [hne]
        have hf1 : List.filter (fun x : String × V => !(x.1 == key)) (e :: rest)
            = List.filter (fun x : String × V => !(x.1 == key)) rest :=
          List.filter_cons_of_neg h1
        rw [hf1, List.find?_cons_of_neg (p := fun x : String × V => x.1 == other) _ h2]
        exact ih
      · have h1 : (fun x : String × V => !(x.1 == key)) e = true := by simp [hk]
        have hf1 : List.filter (fun x : String × V => !(x.1 == key)) (e :: rest)
            = e :: List.filter (fun x : String × V => !(x.1 == key)) rest :=
          List.filter_cons_of_pos h1
        rw [hf1]
        by_cases ho : e.1 = other
        · have h2 : (fun x : String × V => x.1 == other) e = true := by simp [ho]
          rw [List.find?_cons_of_pos (p := fun x : String × V => x.1 == other) _ h2, List.find?_cons_of_pos (p := fun x : String × V => x.1 == other) _ h2]
        · have h2 : ¬ ((fun x : String × V => x.1 == other) e = true) := by simp [ho]
          rw [List.find?_cons_of_neg (p := fun x : String × V => x.1 == other) _ h2, List.find?_cons_of_neg (p := fun x : String × V => x.1 == other) _ h2]
          exact ih
  rw [hfilter]

/-- Binding an unbound handle to a name the manager holds, with a store of the element
type of the handle: the handle points to that store and the world is unchanged. -/
theorem AttributeBase.bind_existing (T : TypeInfo) (h : AttributeBase) (w : World α)
    (manager : Nat) (name : String) (m : AttributesManager) (p : Nat) (s : Store α)
    (hu : h.is_bound = false) (hm : w.managers[manager]? = some m)
    (hf : m.find_attribute_store name = some p) (hs : w.get_store p = some s)
    (ht : s.elements_type_matches T.name = true) :
    AttributeBase.bind T h w manager name
      = .ok ({ manager_ := some manager, store_ := some p }, w) := by
  simp [AttributeBase.bind, ringmesh_assert, hu, hm, hf, hs, ht]

/-- The state after a `bind` that returned: the handle points to the manager and to the
store object the manager holds under the name, a store of the element type of the handle;
either the name was bound and the world is unchanged, or it was not and the store is a
new empty `VectorStore<T>`. -/
theorem AttributeBase.bind_ok (T : TypeInfo) (h h1 : AttributeBase) (w w1 : World α)
    (manager : Nat) (name : String)
    (hb : AttributeBase.bind T h w manager name = .ok (h1, w1)) :
    h.is_bound = false ∧
    ∃ m m1 p s, w.managers[manager]? = some m ∧ w1.managers[manager]? = some m1 ∧
      m1.find_attribute_store name = some p ∧
      h1 = { manager_ := some manager, store_ := some p } ∧
      w1.get_store p = some s ∧ s.elements_type_matches T.name = true ∧
      ((m.find_attribute_store name = some p ∧ w1 = w) ∨
       (m.find_attribute_store name = none ∧ p = w.stores.length ∧
        s = Store.VectorStore T ∧ w1.stores = w.stores ++ [some { store_ := some s }] ∧
        m1 = { m with attributes_ := m.attributes_.assign name p } ∧
        w1.managers = w.managers.set manager m1)) := by
  unfold AttributeBase.bind ringmesh_assert at hb
  cases hu : h.is_bound with
  | true => simp [hu] at hb
  | false =>
    refine ⟨rfl, ?_⟩
    simp only [hu, Bool.not_false, if_true] at hb
    cases hm : w.managers[manager]? with
    | none => simp [hm] at hb
    | some m =>
      have hlt : manager < w.managers.length := by
        rcases List.getElem?_eq_some.1 hm with ⟨hl, _⟩
        exact hl
      simp only [hm] at hb
      cases hf : m.find_attribute_store name with
      | some p =>
        simp only [hf] at hb
        cases hs : w.get_store p with
        | none => simp [hs] at hb
        | some s =>
          simp only [hs] at hb
          by_cases ht : s.elements_type_matches T.name = true
          · simp only [ht, if_true, Outcome.ok.injEq, Prod.mk.injEq] at hb
            rcases hb with ⟨h1eq, w1eq⟩
            subst h1eq; subst w1eq
            exact ⟨m, m, p, s, rfl, hm, hf, rfl, hs, ht, Or.inl ⟨hf, rfl⟩⟩
          · simp [ht] at hb
      | none =>
        have hnd : m.is_defined name = false := by
          simp [AttributesManager.is_defined, hf]
        simp only [hf, AttributesManager.bind_attribute_store, ringmesh_assert, hnd,
          Bool.not_false, if_true, World.new_store, Outcome.ok.injEq, Prod.mk.injEq] at hb
        rcases hb with ⟨h1eq, w1eq⟩
        subst h1eq; subst w1eq
        refine ⟨m, { m with attributes_ := m.attributes_.assign name w.stores.length },
          w.stores.length, Store.VectorStore T, rfl, ?_, ?_, rfl, ?_, ?_,
          Or.inr ⟨hf, rfl, rfl, rfl, rfl, rfl⟩⟩
        · simp [List.getElem?_set_self hlt]
        · simp [AttributesManager.find_attribute_store, StdMap.find_assign_same]
        · simp [World.get_store, World.store_at, AttributeStore.get_store,
            AttributeStore.set_store]
        · simp [Store.elements_type_matches, Store.VectorStore]

/-- Writing does not touch the managers. -/
theorem Attribute.set_values_ok (h : AttributeBase) (p : Nat) (hp : h.store_ = some p) :
    ∀ (V : List α) (w w2 : World α) (first : Nat) (s : Store α),
      w.get_store p = some s → Attribute.set_values h w first V = .ok w2 →
      w2.managers = w.managers ∧
      ∃ s2, w2.get_store p = some s2 ∧ s2.T = s.T ∧ s2.size = s.size ∧
        (∀ k x, V[k]? = some x → first + k < s.size ∧ s2.data_get (first + k) = some x) ∧
        (∀ j, j < first → s2.data_get j = s.data_get j) := by
  intro V
  induction V with
  | nil =>
    intro w w2 first s hs hok
    simp only [Attribute.set_values, Outcome.ok.injEq] at hok
    subst hok
    exact ⟨rfl, s, hs, rfl, rfl, fun k x hk => by simp at hk, fun _ _ => rfl⟩
  | cons v rest ih =>
    intro w w2 first s hs hok
    simp only [Attribute.set_values] at hok
    cases h1 : Attribute.set_value h w first v with
    | assertion_failed e => simp [h1] at hok
    | undefined => simp [h1] at hok
    | ok w1 =>
      simp only [h1] at hok
      rcases Attribute.set_value_ok h w w1 first v h1 with ⟨q, t, s1, hq, ht, hi, hd, hw1⟩
      rw [hp] at hq
      cases hq
      rw [hs] at ht
      cases ht
      rcases Store.data_set_spec s s1 first v hd with ⟨hT, hsz, _, _, _, hget, hframe⟩
      have hlt := World.get_store_lt w p s hs
      have hs1 : w1.get_store p = some s1 := by
        rw [hw1]; exact World.get_store_put_store_same w p _ hlt
      rcases ih w1 w2 (first + 1) s1 hs1 hok with ⟨hm2, s2, hs2, hT2, hsz2, hvals, hbelow⟩
      have hsize1 : s1.size = s.size := hsz
      refine ⟨?_, s2, hs2, hT2.trans hT, hsz2.trans hsize1, ?_, ?_⟩
      · rw [hm2, hw1]; rfl
      · intro k x hk
        cases k with
        | zero =>
          simp only [List.getElem?_cons_zero, Option.some.injEq] at hk
          subst hk
          refine ⟨by simpa using hi, ?_⟩
          rw [Nat.add_zero, hbelow first (Nat.lt_succ_self _)]
          exact hget
        | succ k =>
          simp only [List.getElem?_cons_succ] at hk
          have := hvals k x hk
          rw [hsize1] at this
          have harith : first + (k + 1) = first + 1 + k := by omega
          rw [harith]
          exact this
      · intro j hj
        rw [hbelow j (Nat.lt_succ_of_lt hj)]
        exact hframe j (Nat.ne_of_lt hj)

end BindLemmas

/-- C6: bind an `Attribute<T>` to (manager, name), write the values `V` with
`set_value( 0, V[0] )`, `set_value( 1, V[1] )`, ..., call `unbind()`, and bind the same
handle or a new `Attribute<T>` to the same manager and name.  Then `unbind()` returns an
unbound handle, the second `bind` returns and creates nothing (the world after it is the
world after the writes, and the writes left the managers as they were), the handle it
returns points to the same store as the first one, its `size()` is the size the first
handle had, and `value( i )` is `V[i]` for every `i` below the length of `V`. -/
theorem C6_values_persist_across_rebind {α : Type} (T : TypeInfo) (h0 h1 : AttributeBase)
    (w w1 w2 : World α) (manager : Nat) (name : String) (V : List α)
    (hb : AttributeBase.bind T h0 w manager name = .ok (h1, w1))
    (hw : Attribute.set_values h1 w1 0 V = .ok w2) :
    ∃ hu, h1.unbind = .ok hu ∧ hu.is_bound = false ∧ hu.manager = none ∧
      w2.managers = w1.managers ∧
      ∀ h, (h = hu ∨ h = AttributeBase.new) →
        ∃ h2, AttributeBase.bind T h w2 manager name = .ok (h2, w2) ∧
          h2.store_ = h1.store_ ∧ h2.manager = h1.manager ∧
          h2.size w2 = h1.size w1 ∧ h2.size w2 = h1.size w2 ∧
          ∀ i (hi : i < V.length), Attribute.value h2 w2 i = .ok V[i] := by
  rcases AttributeBase.bind_ok T h0 h1 w w1 manager name hb with
    ⟨_, m, m1, p, s, _, hm1, hf, hh1, hs, ht, _⟩
  have hp : h1.store_ = some p := by rw [hh1]
  rcases Attribute.set_values_ok h1 p hp V w1 w2 0 s hs hw with
    ⟨hmgr, s2, hs2, hT2, hsz2, hvals, _⟩
  have ht2 : s2.elements_type_matches T.name = true := by
    unfold Store.elements_type_matches at ht ⊢
    rw [hT2]; exact ht
  have hm2 : w2.managers[manager]? = some m1 := by rw [hmgr]; exact hm1
  refine ⟨{ manager_ := none, store_ := none }, ?_, rfl, rfl, hmgr, ?_⟩
  · simp [AttributeBase.unbind, ringmesh_assert, AttributeBase.is_bound, hp]
  · intro h hh
    have hu : h.is_bound = false := by
      rcases hh with rfl | rfl <;> rfl
    refine ⟨h1, ?_, rfl, rfl, ?_, rfl, ?_⟩
    · rw [AttributeBase.bind_existing T h w2 manager name m1 p s2 hu hm2 hf hs2 ht2, hh1]
    · rw [AttributeBase.size_eq h1 w2 p s2 hp hs2, AttributeBase.size_eq h1 w1 p s hp hs,
        hsz2]
    · intro i hi
      have hget := hvals i V[i] (List.getElem?_eq_getElem hi)
      rw [Nat.zero_add] at hget
      rw [Attribute.value_eq h1 w2 p s2 i hp hs2]
      simp [hsz2, hget.1, hget.2]

/-- C6 at a concrete input: bind an `Attribute<int>` to the attribute "id" of
`id_k_world`, write 7, 8, 9, unbind and bind again. -/
theorem C6_values_persist_across_rebind_witness :
    AttributeBase.bind IntType AttributeBase.new id_k_world 0 "id"
      = .ok (AttributeBase.mk (some 0) (some 0), id_k_world) ∧
    (∃ w2, Attribute.set_values (AttributeBase.mk (some 0) (some 0)) id_k_world 0 [7, 8, 9]
        = .ok w2 ∧
      ∃ hu, (AttributeBase.mk (some 0) (some 0)).unbind = .ok hu ∧ hu.is_bound = false ∧
        hu.manager = none ∧ w2.managers = id_k_world.managers ∧
        ∀ h, (h = hu ∨ h = AttributeBase.new) →
          ∃ h2, AttributeBase.bind IntType h w2 0 "id" = .ok (h2, w2) ∧
            h2.store_ = (AttributeBase.mk (some 0) (some 0)).store_ ∧
            h2.manager = (AttributeBase.mk (some 0) (some 0)).manager ∧
            h2.size w2 = (AttributeBase.mk (some 0) (some 0)).size id_k_world ∧
            h2.size w2 = (AttributeBase.mk (some 0) (some 0)).size w2 ∧
            ∀ i (hi : i < [(7 : Int), 8, 9].length),
              Attribute.value h2 w2 i = .ok [(7 : Int), 8, 9][i]) :=
  ⟨by decide,
    ⟨id_k_world.put_store 0
        { store_ := some { ten_twenty_thirty with backing := .vector [7, 8, 9] } },
      by decide,
      C6_values_persist_across_rebind IntType AttributeBase.new
        (AttributeBase.mk (some 0) (some 0)) id_k_world id_k_world _ 0 "id" [7, 8, 9]
        (by decide) (by decide)⟩⟩

/-- C8 at a concrete input: index 7 on the attribute "id" of `id_k_world` (3 items) and
on the attribute "flag" of `flag_world` (3 items). -/
theorem C8_index_assertion_witness :
    handle_0_0.store_ = some 0 ∧ id_k_world.get_store 0 = some ten_twenty_thirty ∧
    handle_0_0.store_ = some 0 ∧ flag_world.get_store 0 = some three_flags ∧
    ((∃ w1, Attribute.set_value handle_0_0 id_k_world 7 1 = .assertion_failed w1)
      ↔ ten_twenty_thirty.size ≤ 7) ∧
    (∀ w1, Attribute.set_value handle_0_0 id_k_world 7 1 = .assertion_failed w1
      → w1 = id_k_world) ∧
    ((∃ w1, Attribute.value handle_0_0 id_k_world 7 = .assertion_failed w1)
      ↔ ten_twenty_thirty.size ≤ 7) ∧
    (∀ w1, Attribute.value handle_0_0 id_k_world 7 = .assertion_failed w1
      → w1 = id_k_world) ∧
    ((∃ w1, Attribute_bool.set_value handle_0_0 flag_world 7 true = .assertion_failed w1)
      ↔ three_flags.size ≤ 7) ∧
    (∀ w1, Attribute_bool.set_value handle_0_0 flag_world 7 true = .assertion_failed w1
      → w1 = flag_world) ∧
    ((∃ w1, Attribute_bool.set_value_byte handle_0_0 flag_world 7 1 = .assertion_failed w1)
      ↔ three_flags.size ≤ 7) ∧
    (∀ w1, Attribute_bool.set_value_byte handle_0_0 flag_world 7 1 = .assertion_failed w1
      → w1 = flag_world) ∧
    ((∃ w1, (Attribute_bool.value handle_0_0 7).to_bool flag_world = .assertion_failed w1)
      ↔ three_flags.size ≤ 7) ∧
    (∀ w1, (Attribute_bool.value handle_0_0 7).to_bool flag_world = .assertion_failed w1
      → w1 = flag_world) :=
  ⟨rfl, by decide, rfl, by decide,
    C8_index_assertion handle_0_0 id_k_world 0 ten_twenty_thirty 7 1 rfl (by decide)
      handle_0_0 flag_world 0 three_flags true 1 rfl (by decide)⟩

/-- C9: for an `Attribute<bool>` bound to a store of `Byte` whose items are all in its
storage, an index `i < size()` and a boolean `x`: `set_value( i, x )` returns, and
afterwards `value( i )` and `operator[]( i )` convert to `x`; the store holds the byte
`Byte( x )` at `i`, and its `element_size()` is 1 before and after the write (the element
size being the `sizeof( Byte )` that the `TypedStore<Byte>` constructor passed), as is
the element size of the `VectorStore<Byte>` that `bind` creates. -/
theorem C9_bool_set_value_then_read (b : AttributeBase) (w : World Nat) (p : Nat)
    (s : Store Nat) (i : Nat) (x : Bool) (hp : b.store_ = some p)
    (hs : w.get_store p = some s) (hsized : s.sized) (hi : i < s.size)
    (hT : s.T = ByteType) (hctor : s.element_size_ = s.T.sizeof) :
    ∃ w1 s1, Attribute_bool.set_value b w i x = .ok w1 ∧
      (Attribute_bool.value b i).to_bool w1 = .ok x ∧
      (Attribute_bool.get b i).to_bool w1 = .ok x ∧
      w1.get_store p = some s1 ∧ s1.data_get i = some (Byte_of_bool x) ∧
      s.element_size = 1 ∧ s1.element_size = 1 ∧
      (Store.VectorStore ByteType : Store Nat).element_size = 1 := by
  rcases Store.data_set_some_of_sized s i (Byte_of_bool x) hsized hi with ⟨s1, hs1⟩
  rcases Store.data_set_spec s s1 i _ hs1 with ⟨_, hsz, hes, _, _, hget, _⟩
  have hlt := World.get_store_lt w p s hs
  have hs1w : (w.put_store p { store_ := some s1 }).get_store p = some s1 :=
    World.get_store_put_store_same w p _ hlt
  have hsize1 : s1.size = s.size := hsz
  have hread : (Attribute_bool.value b i).to_bool (w.put_store p { store_ := some s1 })
      = .ok x := by
    simp only [ConstBoolAttributeAccessor.to_bool, Attribute_bool.value,
      Attribute_bool.element_eq b _ p s1 i hp hs1w, hsize1, hi, if_true, hget,
      Byte_of_bool_ne_zero]
  have hone : s.element_size = 1 := by
    unfold Store.element_size
    rw [hctor, hT]; rfl
  refine ⟨w.put_store p { store_ := some s1 }, s1, ?_, hread, hread, hs1w, hget, hone, ?_, rfl⟩
  · simp only [Attribute_bool.set_value, BoolAttributeAccessor.assign_bool,
      Attribute_bool.element_assign_eq b w p s i _ hp hs, hi, if_true, hs1]
  · unfold Store.element_size at hone ⊢
    rw [hes]; exact hone

/-- C9 at a concrete input: `set_value( 2, true )` on the attribute "flag" of
`flag_world`, then reading index 2. -/
theorem C9_bool_set_value_then_read_witness :
    handle_0_0.store_ = some 0 ∧ flag_world.get_store 0 = some three_flags ∧
    three_flags.sized ∧ 2 < three_flags.size ∧ three_flags.T = ByteType ∧
    three_flags.element_size_ = three_flags.T.sizeof ∧
    ∃ w1 s1, Attribute_bool.set_value handle_0_0 flag_world 2 true = .ok w1 ∧
      (Attribute_bool.value handle_0_0 2).to_bool w1 = .ok true ∧
      (Attribute_bool.get handle_0_0 2).to_bool w1 = .ok true ∧
      w1.get_store 0 = some s1 ∧ s1.data_get 2 = some (Byte_of_bool true) ∧
      three_flags.element_size = 1 ∧ s1.element_size = 1 ∧
      (Store.VectorStore ByteType : Store Nat).element_size = 1 :=
  ⟨rfl, by decide, by decide, by decide, rfl, rfl,
    C9_bool_set_value_then_read handle_0_0 flag_world 0 three_flags 2 true rfl (by decide)
      (by decide) (by decide) rfl rfl⟩

/-! ## Type registry -/

section RegistryLemmas

variable {α : Type}

theorem StdMap.index_of_find {V : Type} [Inhabited V] (m : StdMap V) (key : String) (v : V)
    (h : m.find key = some v) : m.index key = (v, m) := by
  simp [StdMap.index, h]

/-- The maps written by the last three statements of `register_attribute_creator`. -/
theorem Registry.store_mappings_spec (r : Registry α) (creator : AttributeStoreCreator α)
    (N M : String) :
    (r.store_mappings creator N M).type_name_to_creator_.find N = some creator ∧
    (r.store_mappings creator N M).typeid_name_to_type_name_.find M = some N ∧
    (r.store_mappings creator N M).type_name_to_typeid_name_.find N = some M := by
  simp [Registry.store_mappings, StdMap.find_assign_same]

/-- A registration that returned has run the last three statements, on maps that hold
the same entries as before the call. -/
theorem Registry.register_ok (r r1 : Registry α) (creator : AttributeStoreCreator α)
    (N M : String) (h : r.register_attribute_creator creator N M = .ok r1) :
    ∃ r0 : Registry α, r1 = r0.store_mappings creator N M ∧
      r0.type_name_to_creator_ = r.type_name_to_creator_ ∧
      r0.typeid_name_to_type_name_ = r.typeid_name_to_type_name_ ∧
      (∀ key, key ≠ N →
        r0.type_name_to_typeid_name_.find key = r.type_name_to_typeid_name_.find key) := by
  unfold Registry.register_attribute_creator ringmesh_assert at h
  by_cases h1 : r.element_type_name_is_known N = true
  · by_cases h2 : r.element_typeid_name_is_known M = true
    · simp only [h1, h2, if_true] at h
      by_cases h3 : ((r.type_name_to_typeid_name_.index N).1 == M) = true
      · simp only [h3, if_true, Outcome.ok.injEq] at h
        refine ⟨_, h.symm, rfl, rfl, ?_⟩
        intro key hkey
        show (r.type_name_to_typeid_name_.index N).2.find key = _
        unfold StdMap.index
        cases hfN : r.type_name_to_typeid_name_.find N with
        | some v => rfl
        | none => exact StdMap.find_assign_ne _ N key _ hkey
      · simp [h3] at h
    · simp only [h1, h2, if_true, Bool.false_eq_true, if_false, Outcome.ok.injEq] at h
      exact ⟨r, h.symm, rfl, rfl, fun _ _ => rfl⟩
  · simp only [h1, Bool.false_eq_true, if_false, Outcome.ok.injEq] at h
    exact ⟨r, h.symm, rfl, rfl, fun _ _ => rfl⟩

end RegistryLemmas

/-- C10: immediately after a `register_attribute_creator( creator, N, M )` that returned,
`element_type_name_is_known( N )` and `element_typeid_name_is_known( M )` are true,
`element_typeid_name_by_element_type_name( N )` returns `M`,
`element_type_name_by_element_typeid_name( M )` returns `N`, and the two lookups leave
the maps as they are. -/
theorem C10_register_then_lookup {α : Type} (r r1 : Registry α)
    (creator : AttributeStoreCreator α) (N M : String)
    (h : r.register_attribute_creator creator N M = .ok r1) :
    r1.element_type_name_is_known N = true ∧
    r1.element_typeid_name_is_known M = true ∧
    r1.element_typeid_name_by_element_type_name N = .ok (M, r1) ∧
    r1.element_type_name_by_element_typeid_name M = .ok (N, r1) := by
  rcases Registry.register_ok r r1 creator N M h with ⟨r0, hr1, _⟩
  rcases Registry.store_mappings_spec r0 creator N M with ⟨hc, hM, hN⟩
  rw [← hr1] at hc hM hN
  have hk1 : r1.element_type_name_is_known N = true := by
    simp [Registry.element_type_name_is_known, StdMap.contains, hc]
  have hk2 : r1.element_typeid_name_is_known M = true := by
    simp [Registry.element_typeid_name_is_known, StdMap.contains, hM]
  refine ⟨hk1, hk2, ?_, ?_⟩
  · simp only [Registry.element_typeid_name_by_element_type_name, ringmesh_assert, hk1,
      if_true, StdMap.index_of_find _ N M hN]
  · simp only [Registry.element_type_name_by_element_typeid_name, ringmesh_assert, hk2,
      if_true, StdMap.index_of_find _ M N hM]

/-- C10 at a concrete input: registering "double" with its mangled id "d" in the empty
registry. -/
theorem C10_register_then_lookup_witness :
    ∃ r1 : Registry Int,
      Registry.empty.register_attribute_creator double_creator "double" "d" = .ok r1 ∧
      r1.element_type_name_is_known "double" = true ∧
      r1.element_typeid_name_is_known "d" = true ∧
      r1.element_typeid_name_by_element_type_name "double" = .ok ("d", r1) ∧
      r1.element_type_name_by_element_typeid_name "d" = .ok ("double", r1) :=
  ⟨Registry.empty.store_mappings double_creator "double" "d", by decide,
    C10_register_then_lookup Registry.empty _ double_creator "double" "d" (by decide)⟩

/-! ## Registering a name again -/

section ReregisterLemmas

variable {α : Type}

theorem StdMap.find_assign {V : Type} (m : StdMap V) (key x : String) (v : V) :
    (m.assign key v).find x = if x = key then some v else m.find x := by
  by_cases h : x = key
  · subst h
    simp [StdMap.find_assign_same]
  · simp [h, StdMap.find_assign_ne m key x v h]

theorem StdMap.contains_assign_of_contains {V : Type} (m : StdMap V) (key x : String) (v : V)
    (h : m.contains key = true) : (m.assign key v).contains x = m.contains x := by
  unfold StdMap.contains at h ⊢
  rw [StdMap.find_assign]
  by_cases hx : x = key
  · subst hx
    simp [h]
  · simp [hx]

theorem StdMap.index_fst {V : Type} [Inhabited V] (m : StdMap V) (key : String) :
    (m.index key).1 = (m.find key).getD default := by
  unfold StdMap.index
  cases m.find key <;> rfl

/-- What `element_typeid_name_by_element_type_name` returns depends on the known names
and on the entry of the name. -/
theorem Registry.typeid_name_lookup_iff (r : Registry α) (x s : String) :
    (∃ ra, r.element_typeid_name_by_element_type_name x = .ok (s, ra)) ↔
      (r.element_type_name_is_known x = true ∧
        (r.type_name_to_typeid_name_.find x).getD default = s) := by
  unfold Registry.element_typeid_name_by_element_type_name ringmesh_assert
  by_cases hk : r.element_type_name_is_known x = true
  · simp only [hk, if_true, Outcome.ok.injEq, Prod.mk.injEq, true_and, StdMap.index_fst]
    constructor
    · rintro ⟨ra, hs, _⟩
      exact hs
    · intro hs
      exact ⟨_, hs, rfl⟩
  · simp [hk]

/-- What `element_type_name_by_element_typeid_name` returns depends on the known ids and
on the entry of the id. -/
theorem Registry.type_name_lookup_iff (r : Registry α) (x s : String) :
    (∃ ra, r.element_type_name_by_element_typeid_name x = .ok (s, ra)) ↔
      (r.element_typeid_name_is_known x = true ∧
        (r.typeid_name_to_type_name_.find x).getD default = s) := by
  unfold Registry.element_type_name_by_element_typeid_name ringmesh_assert
  by_cases hk : r.element_typeid_name_is_known x = true
  · simp only [hk, if_true, Outcome.ok.injEq, Prod.mk.injEq, true_and, StdMap.index_fst]
    constructor
    · rintro ⟨ra, hs, _⟩
      exact hs
    · intro hs
      exact ⟨_, hs, rfl⟩
  · simp [hk]

/-- Registering a known name whose entry is `M` with the id `M1`: the assertion is
reached when `M1` is a known id, and then compares `M` with `M1`. -/
theorem Registry.register_known (r : Registry α) (creator : AttributeStoreCreator α)
    (N M M1 : String) (hN : r.element_type_name_is_known N = true)
    (hM : r.type_name_to_typeid_name_.find N = some M) :
    r.register_attribute_creator creator N M1 =
      if r.element_typeid_name_is_known M1 = true ∧ M ≠ M1 then .assertion_failed r
      else .ok (r.store_mappings creator N M1) := by
  have hidx : r.type_name_to_typeid_name_.index N = (M, r.type_name_to_typeid_name_) :=
    StdMap.index_of_find _ N M hM
  unfold Registry.register_attribute_creator ringmesh_assert
  simp only [hN, if_true, hidx]
  by_cases hk : r.element_typeid_name_is_known M1 = true
  · by_cases hmm : M = M1
    · simp [hk, hmm]
    · simp [hk, hmm]
  · simp [hk]

/-- The lookups right after the three assignments of a registration. -/
theorem Registry.store_mappings_lookup (r : Registry α) (creator : AttributeStoreCreator α)
    (N M : String) :
    (r.store_mappings creator N M).element_type_name_is_known N = true ∧
    (r.store_mappings creator N M).element_typeid_name_is_known M = true ∧
    (r.store_mappings creator N M).element_typeid_name_by_element_type_name N
      = .ok (M, r.store_mappings creator N M) ∧
    (r.store_mappings creator N M).element_type_name_by_element_typeid_name M
      = .ok (N, r.store_mappings creator N M) := by
  rcases Registry.store_mappings_spec r creator N M with ⟨hc, hM, hN⟩
  have hk1 : (r.store_mappings creator N M).element_type_name_is_known N = true := by
    simp [Registry.element_type_name_is_known, StdMap.contains, hc]
  have hk2 : (r.store_mappings creator N M).element_typeid_name_is_known M = true := by
    simp [Registry.element_typeid_name_is_known, StdMap.contains, hM]
  refine ⟨hk1, hk2, ?_, ?_⟩
  · simp only [Registry.element_typeid_name_by_element_type_name, ringmesh_assert, hk1,
      if_true, StdMap.index_of_find _ N M hN]
  · simp only [Registry.element_type_name_by_element_typeid_name, ringmesh_assert, hk2,
      if_true, StdMap.index_of_find _ M N hM]

end ReregisterLemmas

/-- C11, counterexample: "double" is registered with the mangled id "d"; registering
"double" again with the different id "f", which no registration has used, passes (the
assertion is only reached for an id that is already known) and changes the mappings:
"double" now maps to "f" and "f" has become a known id. -/
theorem C11_unknown_id_is_accepted :
    Registry.empty.register_attribute_creator double_creator "double" "d"
      = .ok double_registry ∧
    double_registry.element_type_name_is_known "double" = true ∧
    double_registry.element_typeid_name_by_element_type_name "double"
      = .ok ("d", double_registry) ∧
    "f" ≠ "d" ∧
    double_registry.element_typeid_name_is_known "f" = false ∧
    ∃ r1, double_registry.register_attribute_creator double_creator "double" "f" = .ok r1 ∧
      r1.element_typeid_name_by_element_type_name "double" = .ok ("f", r1) ∧
      r1.element_typeid_name_is_known "f" = true := by
  refine ⟨by decide, by decide, by decide, by decide, by decide,
    double_registry.store_mappings double_creator "double" "f", by decide, by decide,
    by decide⟩

/-- C11, amended: in a registry state where the type name `N` is registered with the
mangled id `M`, `register_attribute_creator( creator, N, M1 )` with `M1 != M` stops on its
assertion exactly when `M1` is itself a known mangled id, and then the maps are as before
the call; when `M1` is not a known id the call returns and has run the three
assignments, so that `N` maps to `M1`. -/
theorem C11_reregister_other_id {α : Type} (r : Registry α)
    (creator : AttributeStoreCreator α) (N M M1 : String)
    (hN : r.element_type_name_is_known N = true)
    (hM : r.type_name_to_typeid_name_.find N = some M) (hne : M1 ≠ M) :
    ((∃ e, r.register_attribute_creator creator N M1 = .assertion_failed e) ↔
      r.element_typeid_name_is_known M1 = true) ∧
    (r.element_typeid_name_is_known M1 = true →
      r.register_attribute_creator creator N M1 = .assertion_failed r) ∧
    (r.element_typeid_name_is_known M1 = false →
      ∃ r1, r.register_attribute_creator creator N M1 = .ok r1 ∧
        r1 = r.store_mappings creator N M1 ∧
        r1.element_typeid_name_by_element_type_name N = .ok (M1, r1)) := by
  have hreg := Registry.register_known r creator N M M1 hN hM
  have hne1 : M ≠ M1 := fun h => hne h.symm
  by_cases hk : r.element_typeid_name_is_known M1 = true
  · have hfail : r.register_attribute_creator creator N M1 = .assertion_failed r := by
      rw [hreg]; simp [hk, hne1]
    refine ⟨⟨fun _ => hk, fun _ => ⟨r, hfail⟩⟩, fun _ => hfail, ?_⟩
    intro hf
    rw [hk] at hf
    cases hf
  · have hok : r.register_attribute_creator creator N M1
        = .ok (r.store_mappings creator N M1) := by
      rw [hreg]; simp [hk]
    refine ⟨⟨?_, fun h => absurd h hk⟩, fun h => absurd h hk, ?_⟩
    · rintro ⟨e, he⟩
      rw [hok] at he
      cases he
    · intro _
      exact ⟨_, hok, rfl, (Registry.store_mappings_lookup r creator N M1).2.2.1⟩

/-- C11 (amended) at a concrete input: with "double" registered with "d" and "float" with
"f", registering "double" with "f". -/
theorem C11_reregister_other_id_witness :
    double_float_registry.element_type_name_is_known "double" = true ∧
    double_float_registry.type_name_to_typeid_name_.find "double" = some "d" ∧
    "f" ≠ "d" ∧
    ((∃ e, double_float_registry.register_attribute_creator double_creator "double" "f"
        = .assertion_failed e) ↔
      double_float_registry.element_typeid_name_is_known "f" = true) ∧
    (double_float_registry.element_typeid_name_is_known "f" = true →
      double_float_registry.register_attribute_creator double_creator "double" "f"
        = .assertion_failed double_float_registry) ∧
    (double_float_registry.element_typeid_name_is_known "f" = false →
      ∃ r1, double_float_registry.register_attribute_creator double_creator "double" "f"
          = .ok r1 ∧
        r1 = double_float_registry.store_mappings double_creator "double" "f" ∧
        r1.element_typeid_name_by_element_type_name "double" = .ok ("f", r1)) :=
  ⟨by decide, by decide, by decide,
    C11_reregister_other_id double_float_registry double_creator "double" "d" "f"
      (by decide) (by decide) (by decide)⟩

/-- C12, counterexample: "unsigned int" and then "index_t" are registered with the mangled
id "j" of the type they both name, so "unsigned int" is registered with "j" and the id
"j" maps to "index_t".  Registering "unsigned int" with the same id "j" again passes, and
the lookup of the id "j" now returns "unsigned int": a lookup has changed. -/
theorem C12_id_lookup_changes :
    Registry.empty.register_attribute_creator uint_creator "unsigned int" "j"
      = .ok (Registry.empty.store_mappings uint_creator "unsigned int" "j") ∧
    (Registry.empty.store_mappings uint_creator "unsigned int" "j").register_attribute_creator
      uint_creator "index_t" "j" = .ok index_registry ∧
    index_registry.element_type_name_is_known "unsigned int" = true ∧
    index_registry.element_typeid_name_by_element_type_name "unsigned int"
      = .ok ("j", index_registry) ∧
    index_registry.element_type_name_by_element_typeid_name "j"
      = .ok ("index_t", index_registry) ∧
    ∃ r1, index_registry.register_attribute_creator uint_creator "unsigned int" "j" = .ok r1 ∧
      r1.element_type_name_by_element_typeid_name "j" = .ok ("unsigned int", r1) := by
  refine ⟨by decide, by decide, by decide, by decide, by decide,
    index_registry.store_mappings uint_creator "unsigned int" "j", by decide, by decide⟩

/-- C12, amended: in a registry state where the type name `N` is registered with the
mangled id `M` (`N` is known, its entry is `M`, and `M` is a known id),
`register_attribute_creator( creator, N, M )` returns; the known type names, the known
mangled ids, the lookup of the id of every name and the lookup of the name of every id
other than `M` are as before; the lookup of the name of `M` returns `N`, so that it is as
before too when `M` mapped to `N` before the call. -/
theorem C12_reregister_same_id {α : Type} (r : Registry α)
    (creator : AttributeStoreCreator α) (N M : String)
    (hN : r.element_type_name_is_known N = true)
    (hM : r.type_name_to_typeid_name_.find N = some M)
    (hMk : r.element_typeid_name_is_known M = true) :
    ∃ r1, r.register_attribute_creator creator N M = .ok r1 ∧
      (∀ x, r1.element_type_name_is_known x = r.element_type_name_is_known x) ∧
      (∀ x, r1.element_typeid_name_is_known x = r.element_typeid_name_is_known x) ∧
      (∀ x s, (∃ ra, r1.element_typeid_name_by_element_type_name x = .ok (s, ra)) ↔
        (∃ rb, r.element_typeid_name_by_element_type_name x = .ok (s, rb))) ∧
      (∀ x s, x ≠ M →
        ((∃ ra, r1.element_type_name_by_element_typeid_name x = .ok (s, ra)) ↔
          (∃ rb, r.element_type_name_by_element_typeid_name x = .ok (s, rb)))) ∧
      r1.element_type_name_by_element_typeid_name M = .ok (N, r1) ∧
      (r.typeid_name_to_type_name_.find M = some N → ∀ x s,
        ((∃ ra, r1.element_type_name_by_element_typeid_name x = .ok (s, ra)) ↔
          (∃ rb, r.element_type_name_by_element_typeid_name x = .ok (s, rb)))) := by
  have hok : r.register_attribute_creator creator N M = .ok (r.store_mappings creator N M) := by
    rw [Registry.register_known r creator N M M hN hM]; simp
  have hkn : ∀ x, (r.store_mappings creator N M).element_type_name_is_known x
      = r.element_type_name_is_known x := fun x =>
    StdMap.contains_assign_of_contains _ N x creator hN
  have hki : ∀ x, (r.store_mappings creator N M).element_typeid_name_is_known x
      = r.element_typeid_name_is_known x := fun x =>
    StdMap.contains_assign_of_contains _ M x N hMk
  have hfn : ∀ x, (r.store_mappings creator N M).type_name_to_typeid_name_.find x
      = r.type_name_to_typeid_name_.find x := by
    intro x
    show (r.type_name_to_typeid_name_.assign N M).find x = _
    rw [StdMap.find_assign]
    by_cases hx : x = N
    · subst hx; simp [hM]
    · simp [hx]
  have hfi : ∀ x, x ≠ M → (r.store_mappings creator N M).typeid_name_to_type_name_.find x
      = r.typeid_name_to_type_name_.find x := by
    intro x hx
    show (r.typeid_name_to_type_name_.assign M N).find x = _
    rw [StdMap.find_assign]
    simp [hx]
  refine ⟨_, hok, hkn, hki, ?_, ?_, (Registry.store_mappings_lookup r creator N M).2.2.2, ?_⟩
  · intro x s
    rw [Registry.typeid_name_lookup_iff, Registry.typeid_name_lookup_iff, hkn x, hfn x]
  · intro x s hx
    rw [Registry.type_name_lookup_iff, Registry.type_name_lookup_iff, hki x, hfi x hx]
  · intro hback x s
    rw [Registry.type_name_lookup_iff, Registry.type_name_lookup_iff, hki x]
    by_cases hx : x = M
    · subst hx
      have h1 : (r.store_mappings creator N x).typeid_name_to_type_name_.find x = some N :=
        (Registry.store_mappings_spec r creator N x).2.1
      rw [h1, hback]
    · rw [hfi x hx]

/-- C12 (amended) at a concrete input: registering "unsigned int" with "j" again after
"index_t" was registered with "j". -/
theorem C12_reregister_same_id_witness :
    index_registry.element_type_name_is_known "unsigned int" = true ∧
    index_registry.type_name_to_typeid_name_.find "unsigned int" = some "j" ∧
    index_registry.element_typeid_name_is_known "j" = true ∧
    ∃ r1, index_registry.register_attribute_creator uint_creator "unsigned int" "j" = .ok r1 ∧
      (∀ x, r1.element_type_name_is_known x = index_registry.element_type_name_is_known x) ∧
      (∀ x, r1.element_typeid_name_is_known x
        = index_registry.element_typeid_name_is_known x) ∧
      (∀ x s, (∃ ra, r1.element_typeid_name_by_element_type_name x = .ok (s, ra)) ↔
        (∃ rb, index_registry.element_typeid_name_by_element_type_name x = .ok (s, rb))) ∧
      (∀ x s, x ≠ "j" →
        ((∃ ra, r1.element_type_name_by_element_typeid_name x = .ok (s, ra)) ↔
          (∃ rb, index_registry.element_type_name_by_element_typeid_name x = .ok (s, rb)))) ∧
      r1.element_type_name_by_element_typeid_name "j" = .ok ("unsigned int", r1) ∧
      (index_registry.typeid_name_to_type_name_.find "j" = some "unsigned int" → ∀ x s,
        ((∃ ra, r1.element_type_name_by_element_typeid_name x = .ok (s, ra)) ↔
          (∃ rb, index_registry.element_type_name_by_element_typeid_name x
            = .ok (s, rb)))) :=
  ⟨by decide, by decide, by decide,
    C12_reregister_same_id index_registry uint_creator "unsigned int" "j" (by decide)
      (by decide) (by decide)⟩

/-! ## Creating and cloning through the registry -/

/-- C13, the code at the failing input: "double" is registered with its mangled id "d"
and `create_attribute_store_by_element_type_name( "double" )` returns the store of the
registered factory, but `clone()` of an `AttributeStore` owning a `VectorStore<double>`
stops on the assertion of `create_attribute_store_by_element_type_name`: it passes the
mangled id "d" where the type name is expected, and "d" is not a known type name. -/
theorem C13_clone_passes_mangled_id :
    Registry.empty.register_attribute_creator double_creator "double" "d"
      = .ok double_registry ∧
    two_doubles.element_typeid_name = "d" ∧
    double_registry.element_typeid_name_by_element_type_name "double"
      = .ok ("d", double_registry) ∧
    double_registry.create_attribute_store_by_element_type_name "double"
      = .ok (double_creator.create_attribute_store, double_registry) ∧
    double_registry.element_type_name_is_known "d" = false ∧
    AttributeStore.clone { store_ := some two_doubles } double_registry
      = .assertion_failed double_registry := by
  decide

/-- C14: `create_attribute_store_by_element_type_name( name )` stops on its assertion
exactly when `element_type_name_is_known( name )` is false, with the maps as they were;
when the name is known it returns the store built by the factory the maps hold for the
name, with the maps as they were (so the known names and ids are unchanged); and right
after a registration of `name` that returned, that factory is the one just registered. -/
theorem C14_create_by_type_name {α : Type} (r : Registry α) (name : String) :
    ((∃ e, r.create_attribute_store_by_element_type_name name = .assertion_failed e) ↔
      r.element_type_name_is_known name = false) ∧
    (∀ e, r.create_attribute_store_by_element_type_name name = .assertion_failed e → e = r) ∧
    (r.element_type_name_is_known name = true →
      ∃ creator, r.type_name_to_creator_.find name = some creator ∧
        r.create_attribute_store_by_element_type_name name
          = .ok (creator.create_attribute_store, r)) ∧
    (∀ creator M r1, r.register_attribute_creator creator name M = .ok r1 →
      r1.create_attribute_store_by_element_type_name name
        = .ok (creator.create_attribute_store, r1)) := by
  have hknown : ∀ (q : Registry α), q.element_type_name_is_known name = true →
      ∃ creator, q.type_name_to_creator_.find name = some creator ∧
        q.create_attribute_store_by_element_type_name name
          = .ok (creator.create_attribute_store, q) := by
    intro q hk
    cases hf : q.type_name_to_creator_.find name with
    | none =>
      simp [Registry.element_type_name_is_known, StdMap.contains, hf] at hk
    | some creator =>
      exact ⟨creator, rfl, by
        simp [Registry.create_attribute_store_by_element_type_name, ringmesh_assert, hk, hf]⟩
  refine ⟨?_, ?_, hknown r, ?_⟩
  · constructor
    · rintro ⟨e, he⟩
      cases hk : r.element_type_name_is_known name with
      | false => rfl
      | true =>
        rcases hknown r hk with ⟨creator, _, hok⟩
        rw [hok] at he
        cases he
    · intro hk
      exact ⟨r, by
        simp [Registry.create_attribute_store_by_element_type_name, ringmesh_assert, hk]⟩
  · intro e he
    cases hk : r.element_type_name_is_known name with
    | false =>
      simp [Registry.create_attribute_store_by_element_type_name, ringmesh_assert, hk] at he
      exact he.symm
    | true =>
      rcases hknown r hk with ⟨creator, _, hok⟩
      rw [hok] at he
      cases he
  · intro creator M r1 hreg
    rcases Registry.register_ok r r1 creator name M hreg with ⟨r0, hr1, _⟩
    have hc : r1.type_name_to_creator_.find name = some creator := by
      rw [hr1]; exact (Registry.store_mappings_spec r0 creator name M).1
    have hk : r1.element_type_name_is_known name = true := by
      simp [Registry.element_type_name_is_known, StdMap.contains, hc]
    simp [Registry.create_attribute_store_by_element_type_name, ringmesh_assert, hk, hc]

/-- C14 at a concrete input: the name "double" in the maps that hold "double" and
"float". -/
theorem C14_create_by_type_name_witness :
    double_float_registry.create_attribute_store_by_element_type_name "double"
      = .ok (double_creator.create_attribute_store, double_float_registry) ∧
    double_float_registry.create_attribute_store_by_element_type_name "int"
      = .assertion_failed double_float_registry ∧
    (double_float_registry.element_type_name_is_known "double" = true →
      ∃ creator, double_float_registry.type_name_to_creator_.find "double" = some creator ∧
        double_float_registry.create_attribute_store_by_element_type_name "double"
          = .ok (creator.create_attribute_store, double_float_registry)) :=
  ⟨by decide, by decide,
    (C14_create_by_type_name double_float_registry "double").2.2.1⟩

/-! ## Structural operations on a store -/

/-- C15: on a constant store (size 1, constant `c`) each of `resize( n )`, `clear()`,
`compress( old2new )`, `apply_permutation( perm )` and `copy_item( to, from )` returns
the store as it was, so `size()` is 1 and the constant is `c` afterwards; the calls
forwarded by `AttributeStore` return too; `resize` leaves `size()` as it is for every
constant store, and the constructor sets it to 1. -/
theorem C15_constant_store_operations {α : Type} [Inhabited α] (s : Store α) (c : α)
    (hc : s.backing = .constant c) (h1 : s.size = 1) (n : Nat) (old2new perm : List Nat)
    (dst src : Nat) (T : TypeInfo) :
    (s.resize n = s ∧ (s.resize n).size = 1 ∧ (s.resize n).backing = .constant c) ∧
    (s.clear = s ∧ s.clear.size = 1 ∧ s.clear.backing = .constant c) ∧
    (s.compress old2new = s ∧ (s.compress old2new).size = 1 ∧
      (s.compress old2new).backing = .constant c) ∧
    (s.apply_permutation perm = s ∧ (s.apply_permutation perm).size = 1 ∧
      (s.apply_permutation perm).backing = .constant c) ∧
    (s.copy_item dst src = s ∧ (s.copy_item dst src).size = 1 ∧
      (s.copy_item dst src).backing = .constant c) ∧
    AttributeStore.resize { store_ := some s } n = .ok { store_ := some s } ∧
    AttributeStore.clear { store_ := some s } = .ok { store_ := some s } ∧
    AttributeStore.compress { store_ := some s } old2new = .ok { store_ := some s } ∧
    AttributeStore.apply_permutation { store_ := some s } perm = .ok { store_ := some s } ∧
    (Store.ConstantStore T : Store α).size = 1 := by
  have hr : s.resize n = s := by
    unfold Store.resize; rw [hc]
  have hcl : s.clear = s := by
    unfold Store.clear; rw [hc]
  refine ⟨⟨hr, ?_, ?_⟩, ⟨hcl, ?_, ?_⟩, ⟨rfl, h1, hc⟩, ⟨rfl, h1, hc⟩, ⟨rfl, h1, hc⟩,
    ?_, ?_, rfl, rfl, rfl⟩
  · rw [hr]; exact h1
  · rw [hr]; exact hc
  · rw [hcl]; exact h1
  · rw [hcl]; exact hc
  · simp [AttributeStore.resize, hr]
  · simp [AttributeStore.clear, hcl]

/-- C15 at a concrete input: the constant store broadcasting 9. -/
theorem C15_constant_store_operations_witness :
    constant_nine.backing = .constant 9 ∧ constant_nine.size = 1 ∧
    (constant_nine.resize 5 = constant_nine ∧ (constant_nine.resize 5).size = 1 ∧
      (constant_nine.resize 5).backing = .constant 9) ∧
    (constant_nine.clear = constant_nine ∧ constant_nine.clear.size = 1 ∧
      constant_nine.clear.backing = .constant 9) ∧
    (constant_nine.compress [0, NO_ID] = constant_nine ∧
      (constant_nine.compress [0, NO_ID]).size = 1 ∧
      (constant_nine.compress [0, NO_ID]).backing = .constant 9) ∧
    (constant_nine.apply_permutation [1, 0] = constant_nine ∧
      (constant_nine.apply_permutation [1, 0]).size = 1 ∧
      (constant_nine.apply_permutation [1, 0]).backing = .constant 9) ∧
    (constant_nine.copy_item 0 1 = constant_nine ∧ (constant_nine.copy_item 0 1).size = 1 ∧
      (constant_nine.copy_item 0 1).backing = .constant 9) ∧
    AttributeStore.resize { store_ := some constant_nine } 5
      = .ok { store_ := some constant_nine } ∧
    AttributeStore.clear { store_ := some constant_nine }
      = .ok { store_ := some constant_nine } ∧
    AttributeStore.compress { store_ := some constant_nine } [0, NO_ID]
      = .ok { store_ := some constant_nine } ∧
    AttributeStore.apply_permutation { store_ := some constant_nine } [1, 0]
      = .ok { store_ := some constant_nine } ∧
    (Store.ConstantStore IntType : Store Int).size = 1 :=
  ⟨rfl, rfl,
    C15_constant_store_operations constant_nine 9 rfl rfl 5 [0, NO_ID] [1, 0] 0 1 IntType⟩

/-- C16: after `resize( new_size )` on a vector store, the store is a vector store whose
`vector_` has exactly `new_size` elements and whose `size()` is `new_size`; the call
forwarded by `AttributeStore` returns that store. -/
theorem C16_vector_resize {α : Type} [Inhabited α] (s : Store α) (v : List α)
    (new_size : Nat) (hv : s.backing = .vector v) :
    ∃ v1, (s.resize new_size).backing = .vector v1 ∧ v1.length = new_size ∧
      (s.resize new_size).size = new_size ∧
      AttributeStore.resize { store_ := some s } new_size
        = .ok { store_ := some (s.resize new_size) } := by
  refine ⟨Store.vector_resize v new_size, ?_, Store.vector_resize_length v new_size, ?_, rfl⟩
  · unfold Store.resize; rw [hv]
  · unfold Store.resize; rw [hv]; rfl

/-- C16 at a concrete input: growing and shrinking the store holding 10, 20, 30. -/
theorem C16_vector_resize_witness :
    ten_twenty_thirty.backing = .vector [10, 20, 30] ∧
    (ten_twenty_thirty.resize 5).backing = .vector [10, 20, 30, 0, 0] ∧
    (ten_twenty_thirty.resize 2).backing = .vector [10, 20] ∧
    ∃ v1, (ten_twenty_thirty.resize 5).backing = .vector v1 ∧ v1.length = 5 ∧
      (ten_twenty_thirty.resize 5).size = 5 ∧
      AttributeStore.resize { store_ := some ten_twenty_thirty } 5
        = .ok { store_ := some (ten_twenty_thirty.resize 5) } :=
  ⟨rfl, by decide, by decide, C16_vector_resize ten_twenty_thirty [10, 20, 30] 5 rfl⟩

/-- C17, the code at the failing input: after `clear()` on the vector store holding 10,
20, 30, `size()` is still 3, where the claim asks for 0: `VectorStore<T>::clear` empties
`vector_` and leaves `size_` as it was; the same through `AttributeStore::clear`. -/
theorem C17_clear_keeps_size :
    ten_twenty_thirty.size = 3 ∧ ten_twenty_thirty.clear.size = 3 ∧
    ten_twenty_thirty.clear.backing = .vector [] ∧
    (∃ s1, AttributeStore.clear { store_ := some ten_twenty_thirty }
        = .ok { store_ := some s1 } ∧ s1.size = 3) := by
  refine ⟨by decide, by decide, by decide, ten_twenty_thirty.clear, by decide, by decide⟩

/-- C18, the code at the failing input: after `copy_item( 0, 2 )` on the vector store
holding 10, 20, 30, index 0 still holds 10, where the claim asks for the item of index 2,
which is 30: `VectorStore<T>::copy_item` returns without touching the store. -/
theorem C18_copy_item_copies_nothing :
    ten_twenty_thirty.data_get 2 = some 30 ∧
    (ten_twenty_thirty.copy_item 0 2).data_get 0 = some 10 ∧
    ten_twenty_thirty.copy_item 0 2 = ten_twenty_thirty := by
  decide

/-! ## What bind does, and when it stops -/

section BindCases

variable {α : Type}

/-- Binding an unbound handle to a name the manager does not hold: a new
`AttributeStore` owning an empty `VectorStore<T>` is created at the next free position
and bound under the name. -/
theorem AttributeBase.bind_absent (T : TypeInfo) (h : AttributeBase) (w : World α)
    (manager : Nat) (name : String) (m : AttributesManager)
    (hu : h.is_bound = false) (hm : w.managers[manager]? = some m)
    (hf : m.find_attribute_store name = none) :
    AttributeBase.bind T h w manager name
      = .ok ({ manager_ := some manager, store_ := some w.stores.length },
          { managers := w.managers.set manager
              { m with attributes_ := m.attributes_.assign name w.stores.length },
            stores := w.stores ++ [some { store_ := some (Store.VectorStore T) }] }) := by
  have hnd : m.is_defined name = false := by
    simp [AttributesManager.is_defined, hf]
  simp [AttributeBase.bind, ringmesh_assert, hu, hm, hf, hnd,
    AttributesManager.bind_attribute_store, World.new_store, AttributeStore.set_store]

theorem World.get_store_eq (w : World α) (p : Nat) (as : AttributeStore α)
    (h : w.store_at p = some as) : w.get_store p = as.store_ := by
  simp [World.get_store, h, AttributeStore.get_store]

/-- `is_defined` for a name bound to an `AttributeStore` that owns a store. -/
theorem AttributeBase.is_defined_eq (T : TypeInfo) (w : World α) (manager : Nat)
    (name : String) (m : AttributesManager) (p : Nat) (s : Store α)
    (hm : w.managers[manager]? = some m) (hf : m.find_attribute_store name = some p)
    (hs : w.get_store p = some s) :
    AttributeBase.is_defined T w manager name = .ok (s.elements_type_matches T.name) := by
  rcases World.get_store_some w p s hs with ⟨as, has, hass⟩
  simp [AttributeBase.is_defined, hm, hf, has, AttributeStore.elements_type_matches, hass]

end BindCases

/-- C19: for an unbound handle and a manager, `bind( manager, name )` returns.  If the
manager holds the name with a store of the element type of the handle, the handle points
to that store and the world is unchanged (same names, same store contents).  If the
manager does not hold the name, a new object owning an empty `VectorStore<T>` is created,
the manager holds it under the name and holds every other name as before, every other
store object is unchanged, and the handle points to the new object.  In both cases
`is_bound()` is true and `is_defined( manager, name )` is true afterwards. -/
theorem C19_bind_reuses_or_creates {α : Type} (T : TypeInfo) (h : AttributeBase)
    (w : World α) (manager : Nat) (name : String) (m : AttributesManager)
    (hu : h.is_bound = false) (hm : w.managers[manager]? = some m) :
    (∀ p s, m.find_attribute_store name = some p → w.get_store p = some s →
      s.elements_type_matches T.name = true →
      ∃ h1, AttributeBase.bind T h w manager name = .ok (h1, w) ∧
        h1.store_ = some p ∧ h1.manager = some manager ∧ h1.is_bound = true ∧
        AttributeBase.is_defined T w manager name = .ok true) ∧
    (m.find_attribute_store name = none →
      ∃ h1 w1 m1 p, AttributeBase.bind T h w manager name = .ok (h1, w1) ∧
        w.store_at p = none ∧ w1.get_store p = some (Store.VectorStore T) ∧
        (Store.VectorStore T : Store α).is_vector = true ∧
        (Store.VectorStore T : Store α).elements_type_matches T.name = true ∧
        w1.managers[manager]? = some m1 ∧ m1.find_attribute_store name = some p ∧
        (∀ other, other ≠ name →
          m1.find_attribute_store other = m.find_attribute_store other) ∧
        m1.nb_items = m.nb_items ∧
        (∀ q, q ≠ p → w1.store_at q = w.store_at q) ∧
        h1.store_ = some p ∧ h1.manager = some manager ∧ h1.is_bound = true ∧
        AttributeBase.is_defined T w1 manager name = .ok true) := by
  have hlt : manager < w.managers.length := by
    rcases List.getElem?_eq_some.1 hm with ⟨hl, _⟩
    exact hl
  constructor
  · intro p s hf hs ht
    refine ⟨{ manager_ := some manager, store_ := some p },
      AttributeBase.bind_existing T h w manager name m p s hu hm hf hs ht, rfl, rfl, rfl, ?_⟩
    rw [AttributeBase.is_defined_eq T w manager name m p s hm hf hs, ht]
  · intro hf
    have hfind : ({ m with attributes_ := m.attributes_.assign name w.stores.length } :
        AttributesManager).find_attribute_store name = some w.stores.length := by
      simp [AttributesManager.find_attribute_store, StdMap.find_assign_same]
    have hmgr : (w.managers.set manager
        { m with attributes_ := m.attributes_.assign name w.stores.length })[manager]?
        = some { m with attributes_ := m.attributes_.assign name w.stores.length } := by
      simp [List.getElem?_set_self hlt]
    have hget : (World.mk
        (w.managers.set manager
          { m with attributes_ := m.attributes_.assign name w.stores.length })
        (w.stores ++ [some { store_ := some (Store.VectorStore T) }])).get_store
          w.stores.length = some (Store.VectorStore T) := by
      simp [World.get_store, World.store_at, AttributeStore.get_store]
    refine ⟨_, _, _, w.stores.length, AttributeBase.bind_absent T h w manager name m hu hm hf,
      ?_, hget, rfl, ?_, hmgr, hfind, ?_, rfl, ?_, rfl, rfl, rfl, ?_⟩
    · simp [World.store_at]
    · simp [Store.elements_type_matches, Store.VectorStore]
    · intro other ho
      simp [AttributesManager.find_attribute_store, StdMap.find_assign_ne _ name other _ ho]
    · intro q hq
      have hq1 : q < w.stores.length ∨ w.stores.length < q := by omega
      rcases hq1 with hq1 | hq1
      · simp [World.store_at, List.getElem?_append_left hq1]
      · have h1 : w.stores[q]? = none := List.getElem?_eq_none (by omega)
        have h2 : (w.stores ++ [some { store_ := some (Store.VectorStore T) }])[q]? = none :=
          List.getElem?_eq_none (by simp; omega)
        simp [World.store_at, h1, h2]
    · rw [AttributeBase.is_defined_eq T _ manager name _ w.stores.length _ hmgr hfind hget]
      simp [Store.elements_type_matches, Store.VectorStore]

/-- C19 at a concrete input: binding an unbound `Attribute<int>` to the manager of
`id_k_world`, once to the name "id" it holds and once to the new name "w". -/
theorem C19_bind_reuses_or_creates_witness :
    AttributeBase.new.is_bound = false ∧ id_k_world.managers[0]? = some id_k_manager ∧
    id_k_manager.find_attribute_store "w" = none ∧
    AttributeBase.bind IntType AttributeBase.new id_k_world 0 "id"
      = .ok (handle_0_0, id_k_world) ∧
    AttributeBase.is_defined IntType id_k_world 0 "id" = .ok true ∧
    AttributeBase.is_defined IntType id_k_world 0 "w" = .ok false ∧
    ∃ h1 w1 m1 p, AttributeBase.bind IntType AttributeBase.new id_k_world 0 "w"
        = .ok (h1, w1) ∧
      id_k_world.store_at p = none ∧ w1.get_store p = some (Store.VectorStore IntType) ∧
      (Store.VectorStore IntType : Store Int).is_vector = true ∧
      (Store.VectorStore IntType : Store Int).elements_type_matches IntType.name = true ∧
      w1.managers[0]? = some m1 ∧ m1.find_attribute_store "w" = some p ∧
      (∀ other, other ≠ "w" →
        m1.find_attribute_store other = id_k_manager.find_attribute_store other) ∧
      m1.nb_items = id_k_manager.nb_items ∧
      (∀ q, q ≠ p → w1.store_at q = id_k_world.store_at q) ∧
      h1.store_ = some p ∧ h1.manager = some 0 ∧ h1.is_bound = true ∧
      AttributeBase.is_defined IntType w1 0 "w" = .ok true :=
  ⟨rfl, by decide, by decide, by decide, by decide, by decide,
    (C19_bind_reuses_or_creates IntType AttributeBase.new id_k_world 0 "w" id_k_manager
      rfl (by decide)).2 (by decide)⟩

section BindAssertion

variable {α : Type}

/-- `bind` of an unbound handle to a name bound to a store: the type assertion decides. -/
theorem AttributeBase.bind_found (T : TypeInfo) (h : AttributeBase) (w : World α)
    (manager : Nat) (name : String) (m : AttributesManager) (p : Nat) (s : Store α)
    (hu : h.is_bound = false) (hm : w.managers[manager]? = some m)
    (hf : m.find_attribute_store name = some p) (hs : w.get_store p = some s) :
    AttributeBase.bind T h w manager name =
      if s.elements_type_matches T.name = true then
        .ok ({ manager_ := some manager, store_ := some p }, w)
      else .assertion_failed ({ manager_ := some manager, store_ := some p }, w) := by
  simp [AttributeBase.bind, ringmesh_assert, hu, hm, hf, hs]

/-- `bind_if_is_defined` of an unbound handle to a name bound to a store: the type
assertion decides. -/
theorem AttributeBase.bind_if_is_defined_found (T : TypeInfo) (h : AttributeBase)
    (w : World α) (manager : Nat) (name : String) (m : AttributesManager) (p : Nat)
    (s : Store α) (hu : h.is_bound = false) (hm : w.managers[manager]? = some m)
    (hf : m.find_attribute_store name = some p) (hs : w.get_store p = some s) :
    AttributeBase.bind_if_is_defined T h w manager name =
      if s.elements_type_matches T.name = true then
        .ok ({ manager_ := some manager, store_ := some p }, w)
      else .assertion_failed ({ manager_ := some manager, store_ := some p }, w) := by
  rcases World.get_store_some w p s hs with ⟨as, has, hass⟩
  simp [AttributeBase.bind_if_is_defined, ringmesh_assert, hu, hm, hf, has,
    AttributeStore.elements_type_matches, hass]

/-- `bind_if_is_defined` of an unbound handle to a name the manager does not hold
returns, with `manager_` set and `store_` null. -/
theorem AttributeBase.bind_if_is_defined_absent (T : TypeInfo) (h : AttributeBase)
    (w : World α) (manager : Nat) (name : String) (m : AttributesManager)
    (hu : h.is_bound = false) (hm : w.managers[manager]? = some m)
    (hf : m.find_attribute_store name = none) :
    AttributeBase.bind_if_is_defined T h w manager name
      = .ok ({ manager_ := some manager, store_ := none }, w) := by
  simp [AttributeBase.bind_if_is_defined, ringmesh_assert, hu, hm, hf]

end BindAssertion

/-- C20: `bind( manager, name )` on an `Attribute<T>` handle stops on an assertion if and
only if the handle is already bound, or the manager holds the name with a store whose
element type does not match `T`; `bind_if_is_defined( manager, name )` stops on an
assertion under the same two conditions. -/
theorem C20_bind_assertions {α : Type} (T : TypeInfo) (h : AttributeBase) (w : World α)
    (manager : Nat) (name : String) :
    ((∃ e, AttributeBase.bind T h w manager name = .assertion_failed e) ↔
      (h.is_bound = true ∨
        ∃ m p s, w.managers[manager]? = some m ∧ m.find_attribute_store name = some p ∧
          w.get_store p = some s ∧ s.elements_type_matches T.name = false)) ∧
    ((∃ e, AttributeBase.bind_if_is_defined T h w manager name = .assertion_failed e) ↔
      (h.is_bound = true ∨
        ∃ m p s, w.managers[manager]? = some m ∧ m.find_attribute_store name = some p ∧
          w.get_store p = some s ∧ s.elements_type_matches T.name = false)) := by
  cases hu : h.is_bound with
  | true =>
    refine ⟨⟨fun _ => Or.inl rfl, fun _ => ⟨(h, w), ?_⟩⟩,
      ⟨fun _ => Or.inl rfl, fun _ => ⟨(h, w), ?_⟩⟩⟩
    · simp [AttributeBase.bind, ringmesh_assert, hu]
    · simp [AttributeBase.bind_if_is_defined, ringmesh_assert, hu]
  | false =>
    cases hm : w.managers[manager]? with
    | none =>
      refine ⟨⟨?_, ?_⟩, ⟨?_, ?_⟩⟩
      · rintro ⟨e, he⟩
        simp [AttributeBase.bind, ringmesh_assert, hu, hm] at he
      · rintro (hb | ⟨m, p, s, hm1, _⟩)
        · cases hb
        · cases hm1
      · rintro ⟨e, he⟩
        simp [AttributeBase.bind_if_is_defined, ringmesh_assert, hu, hm] at he
      · rintro (hb | ⟨m, p, s, hm1, _⟩)
        · cases hb
        · cases hm1
    | some m =>
      cases hf : m.find_attribute_store name with
      | none =>
        refine ⟨⟨?_, ?_⟩, ⟨?_, ?_⟩⟩
        · rintro ⟨e, he⟩
          rw [AttributeBase.bind_absent T h w manager name m hu hm hf] at he
          cases he
        · rintro (hb | ⟨m1, p, s, hm1, hf1, _⟩)
          · cases hb
          · cases hm1
            rw [hf] at hf1
            cases hf1
        · rintro ⟨e, he⟩
          rw [AttributeBase.bind_if_is_defined_absent T h w manager name m hu hm hf] at he
          cases he
        · rintro (hb | ⟨m1, p, s, hm1, hf1, _⟩)
          · cases hb
          · cases hm1
            rw [hf] at hf1
            cases hf1
      | some p =>
        cases hs : w.get_store p with
        | none =>
          refine ⟨⟨?_, ?_⟩, ⟨?_, ?_⟩⟩
          · rintro ⟨e, he⟩
            simp [AttributeBase.bind, ringmesh_assert, hu, hm, hf, hs] at he
          · rintro (hb | ⟨m1, p1, s, hm1, hf1, hs1, _⟩)
            · cases hb
            · cases hm1
              rw [hf] at hf1
              cases hf1
              rw [hs] at hs1
              cases hs1
          · rintro ⟨e, he⟩
            unfold World.get_store at hs
            cases has : w.store_at p with
            | none =>
              simp [AttributeBase.bind_if_is_defined, ringmesh_assert, hu, hm, hf, has] at he
            | some as =>
              simp only [has, AttributeStore.get_store] at hs
              simp [AttributeBase.bind_if_is_defined, ringmesh_assert, hu, hm, hf, has,
                AttributeStore.elements_type_matches, hs] at he
          · rintro (hb | ⟨m1, p1, s, hm1, hf1, hs1, _⟩)
            · cases hb
            · cases hm1
              rw [hf] at hf1
              cases hf1
              rw [hs] at hs1
              cases hs1
        | some s =>
          have hb1 := AttributeBase.bind_found T h w manager name m p s hu hm hf hs
          have hb2 := AttributeBase.bind_if_is_defined_found T h w manager name m p s hu hm hf hs
          cases ht : s.elements_type_matches T.name with
          | true =>
            simp only [ht, if_true] at hb1 hb2
            refine ⟨⟨?_, ?_⟩, ⟨?_, ?_⟩⟩
            · rintro ⟨e, he⟩
              rw [hb1] at he
              cases he
            · rintro (hb | ⟨m1, p1, s1, hm1, hf1, hs1, ht1⟩)
              · cases hb
              · cases hm1
                rw [hf] at hf1
                cases hf1
                rw [hs] at hs1
                cases hs1
                rw [ht] at ht1
                cases ht1
            · rintro ⟨e, he⟩
              rw [hb2] at he
              cases he
            · rintro (hb | ⟨m1, p1, s1, hm1, hf1, hs1, ht1⟩)
              · cases hb
              · cases hm1
                rw [hf] at hf1
                cases hf1
                rw [hs] at hs1
                cases hs1
                rw [ht] at ht1
                cases ht1
          | false =>
            simp only [ht, Bool.false_eq_true, if_false] at hb1 hb2
            exact ⟨⟨fun _ => Or.inr ⟨m, p, s, rfl, hf, hs, ht⟩, fun _ => ⟨_, hb1⟩⟩,
              ⟨fun _ => Or.inr ⟨m, p, s, rfl, hf, hs, ht⟩, fun _ => ⟨_, hb2⟩⟩⟩

/-- C20 at concrete inputs: on `id_k_world`, whose attribute "id" is a store of `int`,
binding a handle that is already bound, binding an `Attribute<double>` to "id", and
binding an `Attribute<int>` to "id". -/
theorem C20_bind_assertions_witness :
    AttributeBase.bind IntType handle_0_0 id_k_world 0 "k"
      = .assertion_failed (handle_0_0, id_k_world) ∧
    AttributeBase.bind DoubleType AttributeBase.new id_k_world 0 "id"
      = .assertion_failed (handle_0_0, id_k_world) ∧
    AttributeBase.bind_if_is_defined DoubleType AttributeBase.new id_k_world 0 "id"
      = .assertion_failed (handle_0_0, id_k_world) ∧
    AttributeBase.bind_if_is_defined IntType AttributeBase.new id_k_world 0 "id"
      = .ok (handle_0_0, id_k_world) ∧
    ((∃ e, AttributeBase.bind IntType AttributeBase.new id_k_world 0 "id"
        = .assertion_failed e) ↔
      (AttributeBase.new.is_bound = true ∨
        ∃ m p s, id_k_world.managers[0]? = some m ∧ m.find_attribute_store "id" = some p ∧
          id_k_world.get_store p = some s ∧ s.elements_type_matches IntType.name = false)) :=
  ⟨by decide, by decide, by decide, by decide,
    (C20_bind_assertions IntType AttributeBase.new id_k_world 0 "id").1⟩

/-! ## destroy -/

section DestroyLemmas

variable {α : Type}

/-- Lookup after the entries have been filtered by a condition on their key. -/
theorem StdMap.find_filter_key {V : Type} (m : StdMap V) (P : String → Bool) (x : String) :
    (StdMap.mk (m.entries.filter (fun e => P e.1))).find x
      = if P x = true then m.find x else none := by
  have hgen : ∀ (l : List (String × V)),
      (StdMap.mk (l.filter (fun e => P e.1))).find x
        = if P x = true then (StdMap.mk l).find x else none := by
    intro l
    induction l with
    | nil => simp [StdMap.find]
    | cons e rest ih =>
      unfold StdMap.find at ih ⊢
      by_cases hP : P e.1 = true
      · have hf1 : List.filter (fun e : String × V => P e.1) (e :: rest)
            = e :: List.filter (fun e : String × V => P e.1) rest :=
          List.filter_cons_of_pos hP
        simp only [hf1]
        by_cases hx : e.1 = x
        · have h2 : (fun y : String × V => y.1 == x) e = true := by simp [hx]
          rw [List.find?_cons_of_pos (p := fun y : String × V => y.1 == x) _ h2,
            List.find?_cons_of_pos (p := fun y : String × V => y.1 == x) _ h2]
          rw [hx] at hP
          simp [hP]
        · have h2 : ¬ ((fun y : String × V => y.1 == x) e = true) := by simp [hx]
          rw [List.find?_cons_of_neg (p := fun y : String × V => y.1 == x) _ h2,
            List.find?_cons_of_neg (p := fun y : String × V => y.1 == x) _ h2]
          exact ih
      · have hf1 : List.filter (fun e : String × V => P e.1) (e :: rest)
            = List.filter (fun e : String × V => P e.1) rest :=
          List.filter_cons_of_neg hP
        simp only [hf1]
        by_cases hx : e.1 = x
        · have h2 : (fun y : String × V => y.1 == x) e = true := by simp [hx]
          rw [List.find?_cons_of_pos (p := fun y : String × V => y.1 == x) _ h2]
          rw [hx] at hP
          rw [ih]
          simp [hP]
        · have h2 : ¬ ((fun y : String × V => y.1 == x) e = true) := by simp [hx]
          rw [List.find?_cons_of_neg (p := fun y : String × V => y.1 == x) _ h2]
          exact ih
  exact hgen m.entries

theorem World.store_at_delete_store_ne (w : World α) (p q : Nat) (h : q ≠ p) :
    (w.delete_store p).store_at q = w.store_at q := by
  simp [World.delete_store, World.store_at, List.getElem?_set_ne (Ne.symm h)]

theorem World.store_at_delete_store_same (w : World α) (p : Nat) :
    (w.delete_store p).store_at p = none := by
  unfold World.delete_store World.store_at
  by_cases hp : p < w.stores.length
  · simp [List.getElem?_set_self hp]
  · have h1 : (w.stores.set p none)[p]? = none :=
      List.getElem?_eq_none (by simp; omega)
    simp [h1]

/-- What `delete_attribute_store` returns: the names bound to the store are gone, the
other names are bound as before, the store object is deleted and the others are as
before. -/
theorem World.delete_attribute_store_spec (w : World α) (manager p : Nat)
    (m : AttributesManager) (hm : w.managers[manager]? = some m) :
    ∃ w1 m1, w.delete_attribute_store manager p = .ok w1 ∧
      w1.managers[manager]? = some m1 ∧ m1.nb_items_ = m.nb_items_ ∧
      (∀ x, m1.find_attribute_store x
        = if m.find_attribute_store x = some p then none else m.find_attribute_store x) ∧
      w1.store_at p = none ∧ (∀ q, q ≠ p → w1.store_at q = w.store_at q) ∧
      w1.stores.length = w.stores.length := by
  have hlt : manager < w.managers.length := by
    rcases List.getElem?_eq_some.1 hm with ⟨hl, _⟩
    exact hl
  have hdel : w.delete_attribute_store manager p
      = .ok ((World.mk (w.managers.set manager
          { m with attributes_ := StdMap.mk (m.attributes_.entries.filter
            (fun e => !(m.attributes_.find e.1 == some p))) }) w.stores).delete_store p) := by
    simp only [World.delete_attribute_store, hm]
  refine ⟨_, { m with attributes_ := StdMap.mk (m.attributes_.entries.filter
      (fun e => !(m.attributes_.find e.1 == some p))) }, hdel, ?_, rfl, ?_, ?_, ?_, ?_⟩
  · simp [World.delete_store, List.getElem?_set_self hlt]
  · intro x
    show (StdMap.mk (m.attributes_.entries.filter
      (fun e => !(m.attributes_.find e.1 == some p)))).find x = _
    rw [StdMap.find_filter_key m.attributes_ (fun k => !(m.attributes_.find k == some p)) x]
    unfold AttributesManager.find_attribute_store
    by_cases hx : m.attributes_.find x = some p
    · simp [hx]
    · simp [hx]
  · exact World.store_at_delete_store_same _ p
  · intro q hq
    rw [World.store_at_delete_store_ne _ p q hq]
    rfl
  · simp [World.delete_store]

end DestroyLemmas

/-- C21: for a handle bound to (manager, name), that is, pointing to the manager and to
the store object the manager holds under the name, `destroy()` returns; afterwards
`find_attribute_store( name )` is not-found, `is_defined( manager, name )` is false, the
store object is deleted, the handle is unbound with a null manager, every name bound to
another store object is bound to it as before and that object is as before, and a new
`bind` to the name returns a bound handle.  `destroy()` on an unbound handle stops on
its assertion, in the state as it was. -/
theorem C21_destroy_frees_the_name {α : Type} (T : TypeInfo) (h : AttributeBase)
    (w : World α) (manager p : Nat) (name : String) (m : AttributesManager)
    (hmgr : h.manager_ = some manager) (hst : h.store_ = some p)
    (hm : w.managers[manager]? = some m) (hf : m.find_attribute_store name = some p) :
    (∃ h1 w1 m1, h.destroy w = .ok (h1, w1) ∧ h1.is_bound = false ∧ h1.manager = none ∧
      w1.managers[manager]? = some m1 ∧ m1.find_attribute_store name = none ∧
      m1.is_defined name = false ∧ AttributeBase.is_defined T w1 manager name = .ok false ∧
      w1.store_at p = none ∧ m1.nb_items = m.nb_items ∧
      (∀ other q, m.find_attribute_store other = some q → q ≠ p →
        m1.find_attribute_store other = some q ∧ w1.store_at q = w.store_at q) ∧
      (∃ h2 w2, AttributeBase.bind T AttributeBase.new w1 manager name = .ok (h2, w2) ∧
        h2.is_bound = true ∧ AttributeBase.is_defined T w2 manager name = .ok true)) ∧
    (∀ (hu : AttributeBase) (wu : World α), hu.is_bound = false →
      hu.destroy wu = .assertion_failed (hu, wu)) := by
  constructor
  · rcases World.delete_attribute_store_spec w manager p m hm with
      ⟨w1, m1, hdel, hm1, hnb, hfind, hgone, hothers, _⟩
    have hfn : m1.find_attribute_store name = none := by
      rw [hfind name, hf]; simp
    have hbind := AttributeBase.bind_absent T AttributeBase.new w1 manager name m1 rfl hm1 hfn
    refine ⟨{ manager_ := none, store_ := none }, w1, m1, ?_, rfl, rfl, hm1, hfn, ?_, ?_,
      hgone, hnb, ?_, ?_⟩
    · simp [AttributeBase.destroy, ringmesh_assert, AttributeBase.is_bound, hst, hmgr, hdel]
    · simp [AttributesManager.is_defined, hfn]
    · simp [AttributeBase.is_defined, hm1, hfn]
    · intro other q ho hq
      refine ⟨?_, hothers q hq⟩
      rw [hfind other, ho]
      simp [hq]
    · rcases AttributeBase.bind_ok T AttributeBase.new _ w1 _ manager name hbind with
        ⟨_, _, m2, p2, s2, _, hm2, hf2, _, hs2, ht2, _⟩
      refine ⟨_, _, hbind, rfl, ?_⟩
      rw [AttributeBase.is_defined_eq T _ manager name m2 p2 s2 hm2 hf2 hs2, ht2]
  · intro hu wu hub
    simp [AttributeBase.destroy, ringmesh_assert, hub]

/-- C21 at a concrete input: destroying the attribute "id" of `id_k_world` through the
handle bound to it. -/
theorem C21_destroy_frees_the_name_witness :
    handle_0_0.manager_ = some 0 ∧ handle_0_0.store_ = some 0 ∧
    id_k_world.managers[0]? = some id_k_manager ∧
    id_k_manager.find_attribute_store "id" = some 0 ∧
    (∃ h1 w1 m1, handle_0_0.destroy id_k_world = .ok (h1, w1) ∧ h1.is_bound = false ∧
      h1.manager = none ∧
      w1.managers[0]? = some m1 ∧ m1.find_attribute_store "id" = none ∧
      m1.is_defined "id" = false ∧ AttributeBase.is_defined IntType w1 0 "id" = .ok false ∧
      w1.store_at 0 = none ∧ m1.nb_items = id_k_manager.nb_items ∧
      (∀ other q, id_k_manager.find_attribute_store other = some q → q ≠ 0 →
        m1.find_attribute_store other = some q ∧ w1.store_at q = id_k_world.store_at q) ∧
      (∃ h2 w2, AttributeBase.bind IntType AttributeBase.new w1 0 "id" = .ok (h2, w2) ∧
        h2.is_bound = true ∧ AttributeBase.is_defined IntType w2 0 "id" = .ok true)) ∧
    (∀ (hu : AttributeBase) (wu : World Int), hu.is_bound = false →
      hu.destroy wu = .assertion_failed (hu, wu)) :=
  ⟨rfl, rfl, by decide, by decide,
    C21_destroy_frees_the_name IntType handle_0_0 id_k_world 0 0 "id" id_k_manager rfl rfl
      (by decide) (by decide)⟩

/-! ## set_constant_value, fill, two handles on one store -/

section HandleWrites

variable {α : Type}

theorem World.put_store_length (w : World α) (p : Nat) (as : AttributeStore α) :
    (w.put_store p as).stores.length = w.stores.length := by
  simp [World.put_store]

/-- The loop of `Attribute<bool>::fill` over the indices `i, ..., i + count - 1` of a
store whose items are all in its storage: it returns, every index of the range holds
`Byte( val )` afterwards and the indices below are as before. -/
theorem Attribute_bool.fill_loop_spec (b : AttributeBase) (p : Nat) (x : Bool)
    (hp : b.store_ = some p) :
    ∀ (count i : Nat) (w : World Nat) (s : Store Nat),
      w.get_store p = some s → s.sized → i + count ≤ s.size →
      ∃ w1 s1, Attribute_bool.fill_loop b x count i w = .ok w1 ∧
        w1.get_store p = some s1 ∧ s1.size = s.size ∧ s1.sized ∧ s1.T = s.T ∧
        w1.managers = w.managers ∧
        (∀ j, i ≤ j → j < i + count → s1.data_get j = some (Byte_of_bool x)) ∧
        (∀ j, j < i → s1.data_get j = s.data_get j) := by
  intro count
  induction count with
  | zero =>
    intro i w s hs hsized _
    exact ⟨w, s, rfl, hs, rfl, hsized, rfl, rfl, fun j h1 h2 => by omega, fun _ _ => rfl⟩
  | succ count ih =>
    intro i w s hs hsized hle
    have hi : i < s.size := by omega
    rcases Store.data_set_some_of_sized s i (Byte_of_bool x) hsized hi with ⟨s0, hs0⟩
    rcases Store.data_set_spec s s0 i _ hs0 with ⟨hT, hsz, _, _, hsd, hget, hframe⟩
    have hlt := World.get_store_lt w p s hs
    have hs0w : (w.put_store p { store_ := some s0 }).get_store p = some s0 :=
      World.get_store_put_store_same w p _ hlt
    have hsize0 : s0.size = s.size := hsz
    rcases ih (i + 1) (w.put_store p { store_ := some s0 }) s0 hs0w (hsd hsized)
        (by rw [hsize0]; omega) with ⟨w1, s1, hloop, hs1, hsz1, hsd1, hT1, hm1, hvals, hbelow⟩
    refine ⟨w1, s1, ?_, hs1, hsz1.trans hsize0, hsd1, hT1.trans hT, ?_, ?_, ?_⟩
    · simp only [Attribute_bool.fill_loop,
        Attribute_bool.element_assign_eq b w p s i _ hp hs, hi, if_true, hs0, hloop]
    · rw [hm1]; rfl
    · intro j h1 h2
      by_cases hj : j = i
      · subst hj
        rw [hbelow j (Nat.lt_succ_self _)]
        exact hget
      · exact hvals j (by omega) (by omega)
    · intro j hj
      rw [hbelow j (by omega)]
      exact hframe j (by omega)

end HandleWrites

/-- C22: for a handle bound to a live store object that the manager holds under the name,
`set_constant_value( v )` returns; afterwards the object owns a constant store of the
element type of the handle whose constant is `v`, `size()` is 1, `value( 0 )` is `v`, the
store matches the type of the handle, `is_defined( manager, name )` is true, and the
managers are as before. -/
theorem C22_set_constant_value {α : Type} [Inhabited α] (T : TypeInfo) (h : AttributeBase)
    (w : World α) (manager p : Nat) (name : String) (m : AttributesManager)
    (as : AttributeStore α) (v : α)
    (hst : h.store_ = some p) (has : w.store_at p = some as)
    (hm : w.managers[manager]? = some m) (hf : m.find_attribute_store name = some p) :
    ∃ w1 s1, Attribute.set_constant_value T h w v = .ok w1 ∧ w1.get_store p = some s1 ∧
      s1.backing = .constant v ∧ s1.is_vector = false ∧ s1.T = T ∧ s1.size = 1 ∧
      h.size w1 = some 1 ∧ Attribute.value h w1 0 = .ok v ∧
      s1.elements_type_matches T.name = true ∧
      AttributeBase.is_defined T w1 manager name = .ok true ∧
      w1.managers = w.managers := by
  have hlt := World.store_at_lt w p as has
  have hc : (w.put_store p (as.set_store (Store.ConstantStore T))).get_store p
      = some (Store.ConstantStore T) :=
    World.get_store_put_store_same w p _ hlt
  have hlt1 : p < (w.put_store p (as.set_store (Store.ConstantStore T))).stores.length := by
    rw [World.put_store_length]; exact hlt
  have hs1 : ((w.put_store p (as.set_store (Store.ConstantStore T))).put_store p
      { store_ := some { (Store.ConstantStore T : Store α) with backing := .constant v } }
      ).get_store p
      = some { (Store.ConstantStore T : Store α) with backing := .constant v } :=
    World.get_store_put_store_same _ p _ hlt1
  refine ⟨_, { (Store.ConstantStore T : Store α) with backing := .constant v }, ?_, hs1,
    rfl, rfl, rfl, rfl, ?_, ?_, ?_, ?_, rfl⟩
  · simp only [Attribute.set_constant_value, hst, has]
    rw [Attribute.set_value_eq h _ p (Store.ConstantStore T) 0 v hst hc]
    simp [Store.ConstantStore, Store.size, Store.data_set]
  · rw [AttributeBase.size_eq h _ p _ hst hs1]
    rfl
  · rw [Attribute.value_eq h _ p _ 0 hst hs1]
    simp [Store.ConstantStore, Store.size, Store.data_get]
  · simp [Store.elements_type_matches, Store.ConstantStore]
  · have hm1 : ((w.put_store p (as.set_store (Store.ConstantStore T))).put_store p
        { store_ := some { (Store.ConstantStore T : Store α) with backing := .constant v } }
        ).managers[manager]? = some m := hm
    rw [AttributeBase.is_defined_eq T _ manager name m p _ hm1 hf hs1]
    simp [Store.elements_type_matches, Store.ConstantStore]

/-- C22 at a concrete input: `set_constant_value( 4 )` on the attribute "id" of
`id_k_world`. -/
theorem C22_set_constant_value_witness :
    handle_0_0.store_ = some 0 ∧
    id_k_world.store_at 0 = some { store_ := some ten_twenty_thirty } ∧
    id_k_world.managers[0]? = some id_k_manager ∧
    id_k_manager.find_attribute_store "id" = some 0 ∧
    ∃ w1 s1, Attribute.set_constant_value IntType handle_0_0 id_k_world 4 = .ok w1 ∧
      w1.get_store 0 = some s1 ∧
      s1.backing = .constant 4 ∧ s1.is_vector = false ∧ s1.T = IntType ∧ s1.size = 1 ∧
      handle_0_0.size w1 = some 1 ∧ Attribute.value handle_0_0 w1 0 = .ok 4 ∧
      s1.elements_type_matches IntType.name = true ∧
      AttributeBase.is_defined IntType w1 0 "id" = .ok true ∧
      w1.managers = id_k_world.managers :=
  ⟨rfl, by decide, by decide, by decide,
    C22_set_constant_value IntType handle_0_0 id_k_world 0 0 "id" id_k_manager
      { store_ := some ten_twenty_thirty } 4 rfl (by decide) (by decide) (by decide)⟩

/-- C23, the specialisation `Attribute<bool>`: for a handle bound to a store of bytes
whose items are all in its storage, `fill( x )` returns; afterwards every index below
`size()` holds `Byte( x )` and reads as `x`, and `size()` is as before.  (The member
`Attribute<T>::fill` of the primary template is not embedded: its body names
`superclass::nb_elements()`, which `AttributeBase<T>` does not have, and assigns through
the `const T&` of `operator[]`, so it cannot be instantiated.) -/
theorem C23_bool_fill (b : AttributeBase) (w : World Nat) (p : Nat) (s : Store Nat)
    (x : Bool) (hp : b.store_ = some p) (hs : w.get_store p = some s) (hsized : s.sized) :
    ∃ w1 s1, Attribute_bool.fill b w x = .ok w1 ∧ w1.get_store p = some s1 ∧
      s1.size = s.size ∧ b.size w1 = b.size w ∧
      ∀ i, i < s.size → s1.data_get i = some (Byte_of_bool x) ∧
        (Attribute_bool.value b i).to_bool w1 = .ok x := by
  rcases Attribute_bool.fill_loop_spec b p x hp s.size 0 w s hs hsized (by omega) with
    ⟨w1, s1, hloop, hs1, hsz1, _, _, _, hvals, _⟩
  refine ⟨w1, s1, ?_, hs1, hsz1, ?_, ?_⟩
  · simp only [Attribute_bool.fill, hp, hs, Store.nb_elements]
    exact hloop
  · rw [AttributeBase.size_eq b w1 p s1 hp hs1, AttributeBase.size_eq b w p s hp hs, hsz1]
  · intro i hi
    have hget := hvals i (Nat.zero_le _) (by omega)
    refine ⟨hget, ?_⟩
    simp only [ConstBoolAttributeAccessor.to_bool, Attribute_bool.value,
      Attribute_bool.element_eq b w1 p s1 i hp hs1, hsz1, hi, if_true, hget,
      Byte_of_bool_ne_zero]

/-- C23 at a concrete input: `fill( true )` on the attribute "flag" of `flag_world`. -/
theorem C23_bool_fill_witness :
    handle_0_0.store_ = some 0 ∧ flag_world.get_store 0 = some three_flags ∧
    three_flags.sized ∧
    Attribute_bool.fill handle_0_0 flag_world true
      = .ok (flag_world.put_store 0
          { store_ := some { three_flags with backing := .vector [1, 1, 1] } }) ∧
    ∃ w1 s1, Attribute_bool.fill handle_0_0 flag_world true = .ok w1 ∧
      w1.get_store 0 = some s1 ∧
      s1.size = three_flags.size ∧ handle_0_0.size w1 = handle_0_0.size flag_world ∧
      ∀ i, i < three_flags.size → s1.data_get i = some (Byte_of_bool true) ∧
        (Attribute_bool.value handle_0_0 i).to_bool w1 = .ok true :=
  ⟨rfl, by decide, by decide, by decide,
    C23_bool_fill handle_0_0 flag_world 0 three_flags true rfl (by decide) (by decide)⟩

/-- C24: two handles bound one after the other to the same manager and name point to the
same store object (the second `bind` creates nothing); they report the same `size()`,
and for an index `i < size()` of a store whose items are all in its storage, after
`set_value( i, v )` through either handle, `value( i )` through the other returns `v`. -/
theorem C24_two_handles_share_the_store {α : Type} (T : TypeInfo)
    (ha hb h1 h2 : AttributeBase) (w w1 w2 : World α) (manager p : Nat) (name : String)
    (s : Store α) (i : Nat) (v : α)
    (hb1 : AttributeBase.bind T ha w manager name = .ok (h1, w1))
    (hb2 : AttributeBase.bind T hb w1 manager name = .ok (h2, w2))
    (hp : h1.store_ = some p) (hs : w2.get_store p = some s) (hsized : s.sized)
    (hi : i < s.size) :
    h2.store_ = h1.store_ ∧ h2.manager = h1.manager ∧ w2 = w1 ∧
    h1.size w2 = some s.size ∧ h2.size w2 = some s.size ∧
    (∃ w3, Attribute.set_value h1 w2 i v = .ok w3 ∧ Attribute.value h2 w3 i = .ok v ∧
      h1.size w3 = some s.size ∧ h2.size w3 = some s.size) ∧
    (∃ w4, Attribute.set_value h2 w2 i v = .ok w4 ∧ Attribute.value h1 w4 i = .ok v ∧
      h1.size w4 = some s.size ∧ h2.size w4 = some s.size) := by
  rcases AttributeBase.bind_ok T ha h1 w w1 manager name hb1 with
    ⟨_, _, m1, p1, _, _, hm1, hf1, hh1, _, _, _⟩
  rcases AttributeBase.bind_ok T hb h2 w1 w2 manager name hb2 with
    ⟨_, m1b, m2, p2, _, hm1b, _, hf2, hh2, _, _, hcase⟩
  rw [hm1] at hm1b
  cases hm1b
  have hw : m1.find_attribute_store name = some p2 ∧ w2 = w1 := by
    rcases hcase with hc | hc
    · exact hc
    · rw [hf1] at hc
      cases hc.1
  have hpp : p2 = p1 := by
    have := hw.1
    rw [hf1] at this
    cases this
    rfl
  subst hpp
  have hp1 : p2 = p := by
    rw [hh1] at hp
    cases hp
    rfl
  subst hp1
  have hp2 : h2.store_ = some p2 := by rw [hh2]
  have hp1 : h1.store_ = some p2 := by rw [hh1]
  rcases Store.data_set_some_of_sized s i v hsized hi with ⟨s1, hs1⟩
  rcases Store.data_set_spec s s1 i v hs1 with ⟨_, hsz, _, _, _, hget, _⟩
  have hlt := World.get_store_lt w2 p2 s hs
  have hs1w : (w2.put_store p2 { store_ := some s1 }).get_store p2 = some s1 :=
    World.get_store_put_store_same w2 p2 _ hlt
  have hsize1 : s1.size = s.size := hsz
  have hwrite : ∀ (hx : AttributeBase), hx.store_ = some p2 →
      Attribute.set_value hx w2 i v = .ok (w2.put_store p2 { store_ := some s1 }) := by
    intro hx hxp
    rw [Attribute.set_value_eq hx w2 p2 s i v hxp hs]
    simp [hi, hs1]
  have hread : ∀ (hx : AttributeBase), hx.store_ = some p2 →
      Attribute.value hx (w2.put_store p2 { store_ := some s1 }) i = .ok v := by
    intro hx hxp
    rw [Attribute.value_eq hx _ p2 s1 i hxp hs1w]
    simp [hsize1, hi, hget]
  have hsizes : ∀ (hx : AttributeBase), hx.store_ = some p2 →
      hx.size (w2.put_store p2 { store_ := some s1 }) = some s.size := by
    intro hx hxp
    rw [AttributeBase.size_eq hx _ p2 s1 hxp hs1w, hsize1]
  refine ⟨by rw [hh1, hh2], by rw [hh1, hh2], hw.2,
    AttributeBase.size_eq h1 w2 p2 s hp1 hs, AttributeBase.size_eq h2 w2 p2 s hp2 hs,
    ⟨_, hwrite h1 hp1, hread h2 hp2, hsizes h1 hp1, hsizes h2 hp2⟩,
    ⟨_, hwrite h2 hp2, hread h1 hp1, hsizes h1 hp1, hsizes h2 hp2⟩⟩

/-- C24 at a concrete input: two `Attribute<int>` bound to the attribute "id" of
`id_k_world`; 25 is written at index 1 through one and read through the other. -/
theorem C24_two_handles_share_the_store_witness :
    AttributeBase.bind IntType AttributeBase.new id_k_world 0 "id"
      = .ok (handle_0_0, id_k_world) ∧
    handle_0_0.store_ = some 0 ∧ id_k_world.get_store 0 = some ten_twenty_thirty ∧
    ten_twenty_thirty.sized ∧ 1 < ten_twenty_thirty.size ∧
    handle_0_0.store_ = handle_0_0.store_ ∧ handle_0_0.manager = handle_0_0.manager ∧
    id_k_world = id_k_world ∧
    handle_0_0.size id_k_world = some ten_twenty_thirty.size ∧
    handle_0_0.size id_k_world = some ten_twenty_thirty.size ∧
    (∃ w3, Attribute.set_value handle_0_0 id_k_world 1 25 = .ok w3 ∧
      Attribute.value handle_0_0 w3 1 = .ok 25 ∧
      handle_0_0.size w3 = some ten_twenty_thirty.size ∧
      handle_0_0.size w3 = some ten_twenty_thirty.size) ∧
    (∃ w4, Attribute.set_value handle_0_0 id_k_world 1 25 = .ok w4 ∧
      Attribute.value handle_0_0 w4 1 = .ok 25 ∧
      handle_0_0.size w4 = some ten_twenty_thirty.size ∧
      handle_0_0.size w4 = some ten_twenty_thirty.size) :=
  ⟨by decide, rfl, by decide, by decide, by decide,
    C24_two_handles_share_the_store IntType AttributeBase.new AttributeBase.new
      handle_0_0 handle_0_0 id_k_world id_k_world id_k_world 0 0 "id" ten_twenty_thirty 1 25
      (by decide) (by decide) rfl (by decide) (by decide) (by decide)⟩

/-! ## The scalar adapter -/

section AdapterLemmas

variable {α σ δ : Type}

/-- In an array of items of `m` scalars each, the scalar at flat position `k * m + e` is
the component `e` of the item `k`. -/
theorem List.flatMap_getElem_uniform (scalars : α → List σ) (m : Nat) :
    ∀ (v : List α) (k e : Nat), (∀ x ∈ v, (scalars x).length = m) → e < m →
      (v.flatMap scalars)[k * m + e]? = (v[k]?).bind (fun x => (scalars x)[e]?) := by
  intro v
  induction v with
  | nil =>
    intro k e _ _
    simp
  | cons x xs ih =>
    intro k e hm he
    have hx : (scalars x).length = m := hm x (List.mem_cons_self _ _)
    have hxs : ∀ y ∈ xs, (scalars y).length = m := fun y hy =>
      hm y (List.mem_cons_of_mem _ hy)
    rw [List.flatMap_cons]
    cases k with
    | zero =>
      rw [Nat.zero_mul, Nat.zero_add, List.getElem?_append_left (by rw [hx]; exact he)]
      simp
    | succ k =>
      have hge : (scalars x).length ≤ (k + 1) * m + e := by
        rw [hx, Nat.succ_mul]; omega
      rw [List.getElem?_append_right hge, hx]
      have harith : (k + 1) * m + e - m = k * m + e := by
        rw [Nat.succ_mul]; omega
      rw [harith, ih k e hxs he]
      simp

/-- `get_element` on an adapter bound to a live store, for an index below `size()`. -/
theorem ReadOnlyScalarAttributeAdapter.get_element_eq (a : ReadOnlyScalarAttributeAdapter)
    (w : World α) (p : Nat) (s : Store α) (scalars : α → List σ) (to_double : σ → δ)
    (i multiplier : Nat) (hp : a.store_ = some p) (hs : w.get_store p = some s)
    (hi : i < s.size) :
    a.get_element w scalars to_double i multiplier =
      match s.data_get_scalar scalars
          (((i * multiplier) % 2 ^ 32 + a.element_index_) % 2 ^ 32) with
      | none => .undefined
      | some x => .ok (to_double x) := by
  simp [ReadOnlyScalarAttributeAdapter.get_element, ringmesh_assert,
    ReadOnlyScalarAttributeAdapter.is_bound, ReadOnlyScalarAttributeAdapter.size, hp, hs, hi]

end AdapterLemmas

/-- C25, amended: for an adapter bound to a vector store whose items are all in its
storage and have `m` scalars each, with the selected component `e < m`, and an item
`k < size()` such that `k * m + e < 2 ^ 32`: `get_element( k, m )` returns, converted to
double, the component `e` of the item `k`, which is the scalar at flat position
`k * m + e` of the storage. -/
theorem C25_get_element_reads_component {α σ δ : Type}
    (a : ReadOnlyScalarAttributeAdapter) (w : World α) (p : Nat) (s : Store α)
    (v : List α) (scalars : α → List σ) (to_double : σ → δ) (m k : Nat)
    (hp : a.store_ = some p) (hs : w.get_store p = some s) (hv : s.backing = .vector v)
    (hsized : v.length = s.size) (hm : ∀ x ∈ v, (scalars x).length = m)
    (he : a.element_index < m) (hk : k < s.size)
    (hbound : k * m + a.element_index < 2 ^ 32) :
    ∃ item x, v[k]? = some item ∧ (scalars item)[a.element_index]? = some x ∧
      (v.flatMap scalars)[k * m + a.element_index]? = some x ∧
      a.get_element w scalars to_double k m = .ok (to_double x) := by
  have hkl : k < v.length := by rw [hsized]; exact hk
  have hitem : v[k]? = some v[k] := List.getElem?_eq_getElem hkl
  have hlen : (scalars v[k]).length = m := hm _ (List.getElem_mem hkl)
  have hel : a.element_index < (scalars v[k]).length := by rw [hlen]; exact he
  have hx : (scalars v[k])[a.element_index]? = some (scalars v[k])[a.element_index] :=
    List.getElem?_eq_getElem hel
  have hflat : (v.flatMap scalars)[k * m + a.element_index]?
      = some (scalars v[k])[a.element_index] := by
    rw [List.flatMap_getElem_uniform scalars m v k a.element_index hm he, hitem]
    exact hx
  refine ⟨v[k], (scalars v[k])[a.element_index], hitem, hx, hflat, ?_⟩
  rw [ReadOnlyScalarAttributeAdapter.get_element_eq a w p s scalars to_double k m hp hs hk]
  have hmod : ((k * m) % 2 ^ 32 + a.element_index_) % 2 ^ 32 = k * m + a.element_index := by
    unfold ReadOnlyScalarAttributeAdapter.element_index at hbound ⊢
    have h1 : k * m < 2 ^ 32 := by omega
    rw [Nat.mod_eq_of_lt h1, Nat.mod_eq_of_lt hbound]
  rw [hmod]
  simp only [Store.data_get_scalar, hv, hflat]

/-- C25 (amended) at a concrete input: the adapter of "pos[1]" over the two points
(1, 2, 3) and (4, 5, 6) reads 5 for the item 1. -/
theorem C25_get_element_reads_component_witness :
    pos_1_adapter.store_ = some 0 ∧ pos_world.get_store 0 = some two_points ∧
    two_points.backing = .vector [[1, 2, 3], [4, 5, 6]] ∧
    [[(1 : Int), 2, 3], [4, 5, 6]].length = two_points.size ∧
    (∀ x ∈ [[(1 : Int), 2, 3], [4, 5, 6]], (id x).length = 3) ∧
    pos_1_adapter.element_index < 3 ∧ 1 < two_points.size ∧
    1 * 3 + pos_1_adapter.element_index < 2 ^ 32 ∧
    pos_1_adapter.get_element pos_world id id 1 3 = .ok 5 ∧
    ∃ item x, [[(1 : Int), 2, 3], [4, 5, 6]][1]? = some item ∧
      (id item)[pos_1_adapter.element_index]? = some x ∧
      ([[(1 : Int), 2, 3], [4, 5, 6]].flatMap id)[1 * 3 + pos_1_adapter.element_index]?
        = some x ∧
      pos_1_adapter.get_element pos_world id id 1 3 = .ok (id x) :=
  ⟨rfl, by decide, rfl, by decide, by decide, by decide, by decide, by decide, by decide,
    C25_get_element_reads_component pos_1_adapter pos_world 0 two_points
      [[1, 2, 3], [4, 5, 6]] id id 3 1 rfl (by decide) rfl (by decide) (by decide)
      (by decide) (by decide) (by decide)⟩

section LongStore

theorem long_store_items (n : Nat) :
    (List.replicate n [(0 : Int), 0] ++ [[5, 6]]).length = n + 1 ∧
    (∀ x ∈ List.replicate n [(0 : Int), 0] ++ [[5, 6]], (id x).length = 2) ∧
    (List.replicate n [(0 : Int), 0] ++ [[5, 6]])[n]? = some [5, 6] ∧
    (0 < n → (List.replicate n [(0 : Int), 0] ++ [[5, 6]])[0]? = some [0, 0]) := by
  refine ⟨by simp, ?_, ?_, ?_⟩
  · intro x hx
    rcases List.mem_append.1 hx with h | h
    · rw [(List.mem_replicate.1 h).2]; rfl
    · rw [List.mem_singleton.1 h]; rfl
  · rw [List.getElem?_append_right (by simp)]
    simp
  · intro hn
    rw [List.getElem?_append_left (by simpa using hn), List.getElem?_replicate]
    simp [hn]

/-- Reading the last item of `long_store n` when `n * 2` is a multiple of `2 ^ 32`: the
index wraps to 0 and the first scalar of the storage is returned. -/
theorem long_world_get_element (n : Nat) (hn : 0 < n) (hwrap : (n * 2) % 2 ^ 32 = 0) :
    uv_0_adapter.get_element (long_world n) id id n 2 = .ok (0 : Int) := by
  have hs : (long_world n).get_store 0 = some (long_store n) := rfl
  have hi : n < (long_store n).size := Nat.lt_succ_self n
  rcases long_store_items n with ⟨_, hm, _, h0⟩
  have hflat := List.flatMap_getElem_uniform (id : List Int → List Int) 2
    (List.replicate n [(0 : Int), 0] ++ [[5, 6]]) 0 0 hm (by omega)
  rw [h0 hn] at hflat
  rw [ReadOnlyScalarAttributeAdapter.get_element_eq uv_0_adapter (long_world n) 0
    (long_store n) id id n 2 rfl hs hi, hwrap]
  have hidx : (0 + uv_0_adapter.element_index_) % 2 ^ 32 = 0 * 2 + 0 := rfl
  rw [hidx]
  simp only [Store.data_get_scalar, long_store, hflat]
  rfl

end LongStore

/-- C25, counterexample: a vector store of 2147483649 items of two scalars each, the
items 0 to 2147483647 being (0, 0) and the item 2147483648 being (5, 6); the adapter
selects the component 0.  The component 0 of the item 2147483648, at flat position
`2147483648 * 2 + 0`, is 5, and `get_element( 2147483648, 2 )` returns 0: the index
`( i * multiplier ) + element_index_` is computed in the 32 bits of `index_t`, where
`2147483648 * 2` is 0. -/
theorem C25_index_wraps :
    uv_0_adapter.store_ = some 0 ∧
    (long_world 2147483648).get_store 0 = some (long_store 2147483648) ∧
    2147483648 < (long_store 2147483648).size ∧ uv_0_adapter.element_index < 2 ∧
    (∃ v : List (List Int), (long_store 2147483648).backing = .vector v ∧
      v.length = (long_store 2147483648).size ∧ (∀ x ∈ v, (id x).length = 2) ∧
      v[2147483648]? = some [5, 6] ∧
      (v.flatMap id)[2147483648 * 2 + uv_0_adapter.element_index]? = some 5) ∧
    uv_0_adapter.get_element (long_world 2147483648) id id 2147483648 2 = .ok (0 : Int) := by
  rcases long_store_items 2147483648 with ⟨hlen, hm, hlast, _⟩
  refine ⟨rfl, rfl, Nat.lt_succ_self _, by decide, ⟨_, rfl, hlen, hm, hlast, ?_⟩,
    long_world_get_element 2147483648 (by decide) (by decide)⟩
  have hflat := List.flatMap_getElem_uniform (id : List Int → List Int) 2
    (List.replicate 2147483648 [(0 : Int), 0] ++ [[5, 6]]) 2147483648 0 hm (by omega)
  rw [hlast] at hflat
  exact hflat

/-! ## Compound names -/

section CompoundNames

open ReadOnlyScalarAttributeAdapter

/-- The character of a decimal digit: its value, and it is neither bracket. -/
theorem digit_char (d : Nat) (hd : d < 10) :
    (Char.ofNat (48 + d)).toNat - 48 = d ∧ ((Char.ofNat (48 + d)) != ']') = true ∧
      ((Char.ofNat (48 + d)) != '[') = true := by
  interval_cases d <;> decide

theorem decimal_no_bracket (k : Nat) : ∀ c ∈ decimal k, (c != ']') = true := by
  intro c hc
  unfold decimal at hc
  by_cases hk : k = 0
  · simp only [hk, if_true, List.mem_singleton] at hc
    subst hc
    decide
  · simp only [hk, if_false, List.mem_map, List.mem_reverse] at hc
    rcases hc with ⟨d, hd, rfl⟩
    exact (digit_char d (Nat.digits_lt_base (by omega) hd)).2.1

theorem parse_decimal_decimal (k : Nat) : parse_decimal (decimal k) = k := by
  unfold decimal parse_decimal
  by_cases hk : k = 0
  · subst hk
    rfl
  · simp only [hk, if_false]
    rw [List.map_reverse, List.foldl_reverse, List.foldr_map]
    have hfold : ∀ (L : List Nat), (∀ d ∈ L, d < 10) →
        List.foldr (fun d acc => 10 * acc + ((Char.ofNat (48 + d)).toNat - 48)) 0 L
          = Nat.ofDigits 10 L := by
      intro L
      induction L with
      | nil => intro _; rfl
      | cons d rest ih =>
        intro hL
        rw [List.foldr_cons, ih (fun x hx => hL x (List.mem_cons_of_mem _ hx)),
          (digit_char d (hL d (List.mem_cons_self _ _))).1, Nat.ofDigits_cons]
        omega
    rw [hfold _ (fun d hd => Nat.digits_lt_base (by omega) hd), Nat.ofDigits_digits]

/-- The characters of the compound name `b[k]`. -/
theorem compound_data (b : String) (k : Nat) :
    (b ++ "[" ++ String.mk (decimal k) ++ "]").data
      = b.data ++ '[' :: (decimal k ++ [']']) := by
  simp only [String.data_append]
  show (b.data ++ ['[']) ++ decimal k ++ [']'] = _
  simp

theorem takeWhile_until (p : Char → Bool) (l rest : List Char) (c : Char)
    (hl : ∀ x ∈ l, p x = true) (hc : p c = false) :
    (l ++ c :: rest).takeWhile p = l ∧ (l ++ c :: rest).dropWhile p = c :: rest := by
  constructor
  · rw [List.takeWhile_append_of_pos hl, List.takeWhile_cons_of_neg (by simp [hc])]
    simp
  · rw [List.dropWhile_append_of_pos hl, List.dropWhile_cons_of_neg (by simp [hc])]

theorem takeWhile_all (p : Char → Bool) (l : List Char) (hl : ∀ x ∈ l, p x = true) :
    l.takeWhile p = l ∧ l.dropWhile p = [] := by
  induction l with
  | nil => exact ⟨rfl, rfl⟩
  | cons x rest ih =>
    have hx : p x = true := hl x (List.mem_cons_self _ _)
    have hrest := ih (fun y hy => hl y (List.mem_cons_of_mem _ hy))
    constructor
    · rw [List.takeWhile_cons_of_pos hx, hrest.1]
    · rw [List.dropWhile_cons_of_pos hx, hrest.2]

end CompoundNames

/-- C26: for a base name `b` without `[` and an index `k`, the compound name `b[k]` (`k`
written in base ten) has the base name `b` and the element index `k`; a name without `[`
is its own base name and has the element index 0. -/
theorem C26_compound_name_parsing (b name : String) (k : Nat)
    (hb : ∀ c ∈ b.data, c ≠ '[') (hname : ∀ c ∈ name.data, c ≠ '[') :
    ReadOnlyScalarAttributeAdapter.attribute_base_name
      (b ++ "[" ++ String.mk (ReadOnlyScalarAttributeAdapter.decimal k) ++ "]") = b ∧
    ReadOnlyScalarAttributeAdapter.attribute_element_index
      (b ++ "[" ++ String.mk (ReadOnlyScalarAttributeAdapter.decimal k) ++ "]") = k ∧
    ReadOnlyScalarAttributeAdapter.attribute_base_name name = name ∧
    ReadOnlyScalarAttributeAdapter.attribute_element_index name = 0 := by
  have hbp : ∀ c ∈ b.data, (fun c : Char => c != '[') c = true := by
    intro c hc
    simpa using hb c hc
  have hnp : ∀ c ∈ name.data, (fun c : Char => c != '[') c = true := by
    intro c hc
    simpa using hname c hc
  have hsplit := takeWhile_until (fun c : Char => c != '[') b.data
    (ReadOnlyScalarAttributeAdapter.decimal k ++ [']']) '[' hbp (by decide)
  have hdigits := takeWhile_until (fun c : Char => c != ']')
    (ReadOnlyScalarAttributeAdapter.decimal k) [] ']' (decimal_no_bracket k) (by decide)
  have hall := takeWhile_all (fun c : Char => c != '[') name.data hnp
  refine ⟨?_, ?_, ?_, ?_⟩
  · unfold ReadOnlyScalarAttributeAdapter.attribute_base_name
    rw [compound_data, hsplit.1]
  · unfold ReadOnlyScalarAttributeAdapter.attribute_element_index
    rw [compound_data, hsplit.2]
    simp only [hdigits.1, parse_decimal_decimal]
  · unfold ReadOnlyScalarAttributeAdapter.attribute_base_name
    rw [hall.1]
  · unfold ReadOnlyScalarAttributeAdapter.attribute_element_index
    rw [hall.2]

/-- C26 at a concrete input: "foobar[5]" has the base name "foobar" and the index 5;
"foobar" has the index 0. -/
theorem C26_compound_name_parsing_witness :
    "foobar" ++ "[" ++ String.mk (ReadOnlyScalarAttributeAdapter.decimal 5) ++ "]"
      = "foobar[5]" ∧
    ReadOnlyScalarAttributeAdapter.attribute_base_name "foobar[5]" = "foobar" ∧
    ReadOnlyScalarAttributeAdapter.attribute_element_index "foobar[5]" = 5 ∧
    ReadOnlyScalarAttributeAdapter.attribute_element_index "pos[12]" = 12 ∧
    (∀ c ∈ "foobar".data, c ≠ '[') ∧
    ReadOnlyScalarAttributeAdapter.attribute_base_name
      ("foobar" ++ "[" ++ String.mk (ReadOnlyScalarAttributeAdapter.decimal 5) ++ "]")
      = "foobar" ∧
    ReadOnlyScalarAttributeAdapter.attribute_element_index
      ("foobar" ++ "[" ++ String.mk (ReadOnlyScalarAttributeAdapter.decimal 5) ++ "]") = 5 ∧
    ReadOnlyScalarAttributeAdapter.attribute_base_name "foobar" = "foobar" ∧
    ReadOnlyScalarAttributeAdapter.attribute_element_index "foobar" = 0 :=
  have hfive : ReadOnlyScalarAttributeAdapter.decimal 5 = ['5'] := by
    norm_num [ReadOnlyScalarAttributeAdapter.decimal]
  ⟨by rw [hfive]; decide, by decide, by decide, by decide, by decide,
    C26_compound_name_parsing "foobar" "foobar" 5 (by decide) (by decide)⟩

/-! ## The manager: binding, finding, clearing -/

section ManagerLemmas

theorem StdMap.find_none_iff {V : Type} (m : StdMap V) (key : String) :
    m.find key = none ↔ ∀ e ∈ m.entries, e.1 ≠ key := by
  unfold StdMap.find
  constructor
  · intro h e he hk
    cases hf : m.entries.find? (fun e => e.1 == key) with
    | some x => simp [hf] at h
    | none =>
      have := List.find?_eq_none.1 hf e he
      simp [hk] at this
  · intro h
    have hf : m.entries.find? (fun e => e.1 == key) = none := by
      apply List.find?_eq_none.2
      intro e he
      simpa using h e he
    simp [hf]

theorem StdMap.size_assign_new {V : Type} (m : StdMap V) (key : String) (v : V)
    (h : m.find key = none) : (m.assign key v).size = m.size + 1 := by
  have hall := (StdMap.find_none_iff m key).1 h
  have hfilter : m.entries.filter (fun e => !(e.1 == key)) = m.entries := by
    apply List.filter_eq_self.2
    intro e he
    simpa using hall e he
  simp [StdMap.assign, StdMap.erase, StdMap.size, hfilter]

end ManagerLemmas

/-- C27: `bind_attribute_store( name, store )` stops on its precondition when the name
is already bound; otherwise it returns, and afterwards `find_attribute_store( name )` is
that store, the lookup of every other name is as before, `nb_attributes()` has grown by
one and `nb_items()` is as before.  `find_attribute_store` only reads the manager: for a
name that is not bound it is the not-found value, and `is_defined( name )` is true exactly
when `find_attribute_store( name )` is not the not-found value. -/
theorem C27_bind_and_find_attribute_store (m : AttributesManager) (name : String)
    (as : Nat) :
    (m.is_defined name = true → m.bind_attribute_store name as = .assertion_failed m) ∧
    (m.is_defined name = false →
      ∃ m1, m.bind_attribute_store name as = .ok m1 ∧
        m1.find_attribute_store name = some as ∧ m1.is_defined name = true ∧
        (∀ other, other ≠ name →
          m1.find_attribute_store other = m.find_attribute_store other) ∧
        m1.nb_attributes = m.nb_attributes + 1 ∧ m1.nb_items = m.nb_items) ∧
    (m.is_defined name = true ↔ m.find_attribute_store name ≠ none) ∧
    (m.is_defined name = false ↔ m.find_attribute_store name = none) ∧
    (AttributesManager.new.find_attribute_store name = none) := by
  refine ⟨?_, ?_, ?_, ?_, rfl⟩
  · intro hd
    simp [AttributesManager.bind_attribute_store, ringmesh_assert, hd]
  · intro hd
    have hnone : m.attributes_.find name = none := by
      unfold AttributesManager.is_defined AttributesManager.find_attribute_store at hd
      cases hf : m.attributes_.find name with
      | none => rfl
      | some q => simp [hf] at hd
    refine ⟨{ m with attributes_ := m.attributes_.assign name as }, ?_, ?_, ?_, ?_, ?_, rfl⟩
    · simp [AttributesManager.bind_attribute_store, ringmesh_assert, hd]
    · simp [AttributesManager.find_attribute_store, StdMap.find_assign_same]
    · simp [AttributesManager.is_defined, AttributesManager.find_attribute_store,
        StdMap.find_assign_same]
    · intro other ho
      simp [AttributesManager.find_attribute_store, StdMap.find_assign_ne _ name other _ ho]
    · exact StdMap.size_assign_new m.attributes_ name as hnone
  · unfold AttributesManager.is_defined
    cases m.find_attribute_store name <;> simp
  · unfold AttributesManager.is_defined
    cases m.find_attribute_store name <;> simp

/-- C27 at a concrete input: binding the store object 2 under "w" in `id_k_manager`, and
binding under "id", which is bound already. -/
theorem C27_bind_and_find_attribute_store_witness :
    id_k_manager.bind_attribute_store "id" 2 = .assertion_failed id_k_manager ∧
    id_k_manager.find_attribute_store "w" = none ∧
    (id_k_manager.is_defined "w" = false →
      ∃ m1, id_k_manager.bind_attribute_store "w" 2 = .ok m1 ∧
        m1.find_attribute_store "w" = some 2 ∧ m1.is_defined "w" = true ∧
        (∀ other, other ≠ "w" →
          m1.find_attribute_store other = id_k_manager.find_attribute_store other) ∧
        m1.nb_attributes = id_k_manager.nb_attributes + 1 ∧
        m1.nb_items = id_k_manager.nb_items) :=
  ⟨by decide, by decide, (C27_bind_and_find_attribute_store id_k_manager "w" 2).2.1⟩

section ClearLemmas

variable {α : Type}

/-- After `delete_stores`, the store objects behind the pointers of the list are deleted,
every other store object is as before, and the managers are as before. -/
theorem World.delete_stores_spec :
    ∀ (L : List (String × Nat)) (w : World α),
      (World.delete_stores L w).managers = w.managers ∧
      ∀ q, (World.delete_stores L w).store_at q =
        if q ∈ L.map Prod.snd then none else w.store_at q := by
  intro L
  induction L with
  | nil =>
    intro w
    exact ⟨rfl, fun q => by simp [World.delete_stores]⟩
  | cons e rest ih =>
    intro w
    rcases e with ⟨name, p⟩
    rcases ih (w.delete_store p) with ⟨hm, hq⟩
    refine ⟨?_, ?_⟩
    · show (World.delete_stores rest (w.delete_store p)).managers = _
      rw [hm]; rfl
    · intro q
      show (World.delete_stores rest (w.delete_store p)).store_at q = _
      rw [hq q]
      by_cases hqp : q = p
      · subst hqp
        simp [World.store_at_delete_store_same]
      · rw [World.store_at_delete_store_ne w p q hqp]
        simp only [List.map_cons, List.mem_cons, hqp, false_or]

end ClearLemmas

/-- C28: in a world where every pointer held by the manager refers to an `AttributeStore`
that owns a store, `clear( true )` returns; afterwards the manager binds the same names
to the same pointers (`attribute_names()` is unchanged), every bound vector-backed store
is vector-backed with `size() == 0` and an empty storage, and every bound constant-backed
store is as before.  `clear( false )` returns; afterwards no name is bound
(`nb_attributes() == 0`, `attribute_names()` is empty), `nb_items()` is 0 and every store
object the manager held is deleted. -/
theorem C28_manager_clear {α : Type} [Inhabited α] (w : World α) (manager : Nat)
    (m : AttributesManager) (hm : w.managers[manager]? = some m)
    (hstores : ∀ e ∈ m.attributes_.entries, ∃ s, w.get_store e.2 = some s) :
    (∃ w1 m1, World.clear w manager true = .ok w1 ∧ w1.managers[manager]? = some m1 ∧
      m1.attribute_names = m.attribute_names ∧ m1.attributes_ = m.attributes_ ∧
      ∀ name p s, m1.find_attribute_store name = some p → w.get_store p = some s →
        ∃ s1, w1.get_store p = some s1 ∧
          (s.is_vector = true → s1.is_vector = true ∧ s1.size = 0 ∧ s1.sized) ∧
          (s.is_vector = false → s1 = s)) ∧
    (∃ w2 m2, World.clear w manager false = .ok w2 ∧ w2.managers[manager]? = some m2 ∧
      m2.nb_attributes = 0 ∧ m2.nb_items = 0 ∧ m2.attribute_names = [] ∧
      (∀ name, m2.find_attribute_store name = none) ∧
      ∀ e ∈ m.attributes_.entries, w2.store_at e.2 = none) := by
  have hlt : manager < w.managers.length := by
    rcases List.getElem?_eq_some.1 hm with ⟨h, _⟩
    exact h
  constructor
  · rcases World.resize_stores_spec 0 m.attributes_.entries w hstores with
      ⟨w1, hw1, hm1, hq1⟩
    refine ⟨w1, m, ?_, ?_, rfl, rfl, ?_⟩
    · simp [World.clear, hm, hw1]
    · rw [hm1]; exact hm
    · intro name p s hfind hs
      have hmem : p ∈ m.attributes_.entries.map Prod.snd :=
        List.mem_map.2 ⟨(name, p), StdMap.find_mem _ name p hfind, rfl⟩
      have hget : w1.get_store p = some (s.resize 0) := by
        rw [hq1 p]
        simp only [hmem, if_true]
        change Option.map _ (w.get_store p) = _
        rw [hs]; rfl
      refine ⟨s.resize 0, hget, ?_, ?_⟩
      · intro hv
        exact Store.resize_size_vector s 0 hv
      · intro hc
        exact Store.resize_constant s 0 hc
  · rcases World.delete_stores_spec m.attributes_.entries
        (World.mk (w.managers.set manager AttributesManager.new) w.stores) with ⟨hm2, hq2⟩
    refine ⟨World.delete_stores m.attributes_.entries
        (World.mk (w.managers.set manager AttributesManager.new) w.stores),
      AttributesManager.new, ?_, ?_, rfl, rfl, rfl, fun _ => rfl, ?_⟩
    · simp [World.clear, hm]
    · rw [hm2]
      simp [List.getElem?_set_self hlt]
    · intro e he
      rw [hq2 e.2]
      simp only [List.mem_map]
      rw [if_pos ⟨e, he, rfl⟩]

/-- C28 at a concrete input: clearing the manager that binds "id" to a vector store of
3 items and "k" to a constant store. -/
theorem C28_manager_clear_witness :
    id_k_world.managers[0]? = some id_k_manager ∧
    (∀ e ∈ id_k_manager.attributes_.entries, ∃ s, id_k_world.get_store e.2 = some s) ∧
    World.clear id_k_world 0 true
      = .ok (id_k_world.put_store 0
          { store_ := some { ten_twenty_thirty with size_ := 0, backing := .vector [] } }) ∧
    World.clear id_k_world 0 false
      = .ok (World.mk [AttributesManager.new] [none, none]) ∧
    ((∃ w1 m1, World.clear id_k_world 0 true = .ok w1 ∧ w1.managers[0]? = some m1 ∧
      m1.attribute_names = id_k_manager.attribute_names ∧
      m1.attributes_ = id_k_manager.attributes_ ∧
      ∀ name p s, m1.find_attribute_store name = some p → id_k_world.get_store p = some s →
        ∃ s1, w1.get_store p = some s1 ∧
          (s.is_vector = true → s1.is_vector = true ∧ s1.size = 0 ∧ s1.sized) ∧
          (s.is_vector = false → s1 = s)) ∧
    (∃ w2 m2, World.clear id_k_world 0 false = .ok w2 ∧ w2.managers[0]? = some m2 ∧
      m2.nb_attributes = 0 ∧ m2.nb_items = 0 ∧ m2.attribute_names = [] ∧
      (∀ name, m2.find_attribute_store name = none) ∧
      ∀ e ∈ id_k_manager.attributes_.entries, w2.store_at e.2 = none)) :=
  have hstores : ∀ e ∈ id_k_manager.attributes_.entries,
      ∃ s, id_k_world.get_store e.2 = some s := by
    intro e he
    simp [id_k_manager] at he
    rcases he with rfl | rfl
    · exact ⟨ten_twenty_thirty, rfl⟩
    · exact ⟨constant_nine, rfl⟩
  ⟨by decide, hstores, by decide, by decide,
    C28_manager_clear id_k_world 0 id_k_manager (by decide) hstores⟩

/-- C29, counterexample: `resize( 3 )` on a default-constructed `AttributeStore` does not
stop on an assertion; the body is `store_->resize( new_size )` on a null `store_`, which
is undefined behaviour. -/
theorem C29_resize_without_store_is_undefined :
    (AttributeStore.new : AttributeStore Int).store_ = none ∧
    (AttributeStore.new : AttributeStore Int).resize 3 = .undefined ∧
    ¬ ∃ e, (AttributeStore.new : AttributeStore Int).resize 3 = .assertion_failed e := by
  refine ⟨rfl, rfl, ?_⟩
  rintro ⟨e, he⟩
  cases he

/-- C29, amended: on a default-constructed `AttributeStore` (no store bound) each of
`resize`, `clear`, `compress`, `apply_permutation`, `data`, `elements_type_matches` and
`clone` dereferences the null `store_`: no result is returned, no store is touched, and
none of the calls stops on an assertion (undefined behaviour); `clone` does so whatever
the registry holds. -/
theorem C29_forwarding_without_store {α : Type} [Inhabited α] (n : Nat)
    (old2new perm : List Nat) (type_name : String) (r : Registry α) :
    (AttributeStore.new : AttributeStore α).resize n = .undefined ∧
    (AttributeStore.new : AttributeStore α).clear = .undefined ∧
    (AttributeStore.new : AttributeStore α).compress old2new = .undefined ∧
    (AttributeStore.new : AttributeStore α).apply_permutation perm = .undefined ∧
    (AttributeStore.new : AttributeStore α).data = .undefined ∧
    (AttributeStore.new : AttributeStore α).elements_type_matches type_name = .undefined ∧
    (AttributeStore.new : AttributeStore α).clone r = .undefined ∧
    (AttributeStore.new : AttributeStore α).get_store = none :=
  ⟨rfl, rfl, rfl, rfl, rfl, rfl, rfl, rfl⟩

/-- C30, the code at the failing input: `create_vector_attribute( manager, "pos", 3 )` on
an unbound handle and an empty manager returns; the handle is bound and the manager holds
the name, but the new `AttributeStore` owns no store (`set_store` is never called): there
is no vector store of 3 components, and `size()` and `is_defined( manager, "pos" )`
dereference the null store instead of returning 0 and true; `bind` on the same input
creates the store. -/
theorem C30_create_vector_attribute_gives_no_store :
    AttributeBase.new.is_bound = false ∧
    (∃ h1 w1 m1, AttributeBase.create_vector_attribute AttributeBase.new empty_world 0 "pos" 3
        = .ok (h1, w1) ∧
      h1.is_bound = true ∧ h1.store_ = some 0 ∧ w1.managers[0]? = some m1 ∧
      m1.is_defined "pos" = true ∧
      w1.store_at 0 = some AttributeStore.new ∧ w1.get_store 0 = none ∧
      h1.size w1 = none ∧
      AttributeBase.is_defined Vec3Type w1 0 "pos" = .undefined ∧
      Attribute.set_value h1 w1 0 7 = .undefined) ∧
    (∃ h2 w2, AttributeBase.bind Vec3Type AttributeBase.new empty_world 0 "pos"
        = .ok (h2, w2) ∧
      w2.get_store 0 = some (Store.VectorStore Vec3Type) ∧ h2.size w2 = some 0 ∧
      AttributeBase.is_defined Vec3Type w2 0 "pos" = .ok true) ∧
    AttributeBase.create_vector_attribute handle_0_0 id_k_world 0 "pos" 3
      = .assertion_failed (handle_0_0, id_k_world) ∧
    AttributeBase.create_vector_attribute AttributeBase.new id_k_world 0 "id" 3
      = .assertion_failed ({ manager_ := some 0, store_ := none }, id_k_world) := by
  refine ⟨rfl, ⟨{ manager_ := some 0, store_ := some 0 },
      World.mk [{ nb_items_ := 0, attributes_ := { entries := [("pos", 0)] } }]
        [some AttributeStore.new],
      { nb_items_ := 0, attributes_ := { entries := [("pos", 0)] } },
      by decide, by decide, by decide, by decide, by decide, by decide, by decide,
      by decide, by decide, by decide⟩,
    ⟨{ manager_ := some 0, store_ := some 0 },
      World.mk [{ nb_items_ := 0, attributes_ := { entries := [("pos", 0)] } }]
        [some { store_ := some (Store.VectorStore Vec3Type) }],
      by decide, by decide, by decide, by decide⟩, by decide, by decide⟩

/-! ## The class `range` -/

section RangeLemmas

/-- With more fuel than values left, the loop over a range whose `last_` fits `index_t`
visits `iter_, iter_ + 1, ..., last_ - 1`. -/
theorem range.for_loop_spec :
    ∀ (fuel : Nat) (it last : range), it.last_ < 2 ^ 32 → it.last_ - it.iter_ < fuel →
      range.for_loop fuel it last = some (List.range' it.iter_ (it.last_ - it.iter_)) := by
  intro fuel
  induction fuel with
  | zero =>
    intro it last _ hf
    omega
  | succ fuel ih =>
    intro it last hl hf
    unfold range.for_loop
    by_cases hlt : it.iter_ < it.last_
    · have hmod : (it.iter_ + 1) % 2 ^ 32 = it.iter_ + 1 := Nat.mod_eq_of_lt (by omega)
      have hincr : it.incr = { iter_ := it.iter_ + 1, last_ := it.last_ } := by
        unfold range.incr; rw [hmod]
      have hih := ih { iter_ := it.iter_ + 1, last_ := it.last_ } last hl (by
        show it.last_ - (it.iter_ + 1) < fuel
        omega)
      have hstep : it.last_ - it.iter_ = (it.last_ - (it.iter_ + 1)) + 1 := by omega
      have hcond : it.ne last = true := by simp [range.ne, hlt]
      rw [if_pos hcond, hincr, hih, hstep, List.range'_succ]
      rfl
    · have hz : it.last_ - it.iter_ = 0 := by omega
      simp [range.ne, hlt, hz]

/-- With more fuel than values left, the counting loop up to a bound that fits `index_t`
visits `i, i + 1, ..., n - 1`. -/
theorem range.counting_loop_spec :
    ∀ (fuel i n : Nat), n < 2 ^ 32 → n - i < fuel →
      range.counting_loop fuel i n = some (List.range' i (n - i)) := by
  intro fuel
  induction fuel with
  | zero =>
    intro i n _ hf
    omega
  | succ fuel ih =>
    intro i n hn hf
    unfold range.counting_loop
    by_cases hlt : i < n
    · have hmod : (i + 1) % 2 ^ 32 = i + 1 := Nat.mod_eq_of_lt (by omega)
      have hih := ih (i + 1) n hn (by omega)
      have hstep : n - i = (n - (i + 1)) + 1 := by omega
      simp only [hlt, if_true, hmod, hih, Option.map_some']
      rw [hstep, List.range'_succ]
    · have hz : n - i = 0 := by omega
      simp [hlt, hz]

end RangeLemmas

/-- C31: for `index_t` values `n`, `b`, `e` (below `2 ^ 32`): the loop
`for( index_t i : range( n ) )` ends (any fuel above `n` is enough) and visits
`0, 1, ..., n - 1` in this order, as the loop `for( index_t i = 0; i < n; i++ )` does;
the loop over `range( b, e )` ends and visits `b, b + 1, ..., e - 1`, and visits nothing
when `b >= e`. -/
theorem C31_range_for_visits (n b e fuel : Nat) (hn : n < 2 ^ 32) (hb : b < 2 ^ 32)
    (he : e < 2 ^ 32) :
    (n < fuel → range.for_each fuel (range.of_end n) = some (List.range n) ∧
      range.counting_loop fuel 0 n = some (List.range n)) ∧
    (e - b < fuel →
      range.for_each fuel (range.of_begin_end b e) = some (List.range' b (e - b))) ∧
    (e ≤ b → range.for_each 1 (range.of_begin_end b e) = some []) := by
  have hnm : n % 2 ^ 32 = n := Nat.mod_eq_of_lt hn
  have hbm : b % 2 ^ 32 = b := Nat.mod_eq_of_lt hb
  have hem : e % 2 ^ 32 = e := Nat.mod_eq_of_lt he
  have hrn : range.of_end n = { iter_ := 0, last_ := n } := by
    unfold range.of_end; rw [hnm]
  have hrbe : range.of_begin_end b e = { iter_ := b, last_ := e } := by
    unfold range.of_begin_end; rw [hbm, hem]
  refine ⟨?_, ?_, ?_⟩
  · intro hf
    constructor
    · have h := range.for_loop_spec fuel { iter_ := 0, last_ := n } { iter_ := 0, last_ := n }
        hn (by show n - 0 < fuel; omega)
      rw [List.range_eq_range']
      unfold range.for_each range.begin_ range.end_
      rw [hrn, h]
      rfl
    · have h := range.counting_loop_spec fuel 0 n hn (by omega)
      rw [List.range_eq_range', h]
      rfl
  · intro hf
    have h := range.for_loop_spec fuel { iter_ := b, last_ := e } { iter_ := b, last_ := e }
      he hf
    unfold range.for_each range.begin_ range.end_
    rw [hrbe, h]
  · intro hle
    have h := range.for_loop_spec 1 { iter_ := b, last_ := e } { iter_ := b, last_ := e }
      he (by show e - b < 1; omega)
    have hz : e - b = 0 := by omega
    unfold range.for_each range.begin_ range.end_
    rw [hrbe, h]
    show some (List.range' b (e - b)) = some []
    rw [hz]
    rfl

/-- C31 at concrete inputs: `range( 4 )`, `range( 2, 5 )` and `range( 5, 2 )`. -/
theorem C31_range_for_visits_witness :
    (4 : Nat) < 2 ^ 32 ∧ (2 : Nat) < 2 ^ 32 ∧ (5 : Nat) < 2 ^ 32 ∧
    range.for_each 5 (range.of_end 4) = some [0, 1, 2, 3] ∧
    range.for_each 4 (range.of_begin_end 2 5) = some [2, 3, 4] ∧
    range.for_each 1 (range.of_begin_end 5 2) = some [] ∧
    ((4 < 6 → range.for_each 6 (range.of_end 4) = some (List.range 4) ∧
      range.counting_loop 6 0 4 = some (List.range 4)) ∧
    (5 - 2 < 6 →
      range.for_each 6 (range.of_begin_end 2 5) = some (List.range' 2 (5 - 2))) ∧
    (5 ≤ 2 → range.for_each 1 (range.of_begin_end 2 5) = some [])) :=
  ⟨by decide, by decide, by decide, by decide, by decide, by decide,
    C31_range_for_visits 4 2 5 6 (by decide) (by decide) (by decide)⟩

/-! ## Type match, resize frame, the size invariant -/

/-- C32: for every store `s` and string `t`, `s.elements_type_matches( t )` is true
exactly when `t` is `s.element_typeid_name()`; it is true for
`s.element_typeid_name()`; two stores of the same element type give the same answer,
whatever their variant and contents; the call forwarded by `AttributeStore` returns
that answer; and the constant store that `set_constant_value` installs for the type `T`
answers as a vector store of `T` does. -/
theorem C32_elements_type_matches {α : Type} [Inhabited α] (s s2 : Store α) (t : String)
    (T : TypeInfo) (c : α) :
    (s.elements_type_matches t = true ↔ t = s.element_typeid_name) ∧
    s.elements_type_matches s.element_typeid_name = true ∧
    (s2.T = s.T → s2.elements_type_matches t = s.elements_type_matches t) ∧
    AttributeStore.elements_type_matches { store_ := some s } t
      = .ok (s.elements_type_matches t) ∧
    (Store.VectorStore T : Store α).elements_type_matches t
      = (Store.ConstantStore T : Store α).elements_type_matches t ∧
    (Store.VectorStore T : Store α).elements_type_matches t
      = ({ (Store.ConstantStore T : Store α) with backing := .constant c } :
          Store α).elements_type_matches t ∧
    (Store.ConstantStore T : Store α).elements_type_matches T.name = true := by
  refine ⟨?_, ?_, ?_, rfl, rfl, rfl, ?_⟩
  · simp [Store.elements_type_matches, Store.element_typeid_name]
  · simp [Store.elements_type_matches, Store.element_typeid_name]
  · intro h
    simp [Store.elements_type_matches, h]
  · simp [Store.elements_type_matches, Store.ConstantStore]

/-- C34, the code at the failing input: a new `VectorStore<int>`, `resize( 3 )`, then
`clear()`.  After `resize` the invariant holds (`size()` is 3 and `vector_` has 3
elements); after `clear()` `size()` is still 3 and `vector_` is empty, so the index 1,
below `size()`, addresses no element; a `clone()` of that store has the same shape.
`VectorStore<T>::clear` empties `vector_` and leaves `size_` as it was. -/
theorem C34_clear_breaks_the_size_invariant :
    (Store.VectorStore IntType : Store Int).sized ∧
    ((Store.VectorStore IntType : Store Int).resize 3).sized ∧
    ((Store.VectorStore IntType : Store Int).resize 3).clear.size = 3 ∧
    ((Store.VectorStore IntType : Store Int).resize 3).clear.backing = .vector [] ∧
    ¬ ((Store.VectorStore IntType : Store Int).resize 3).clear.sized ∧
    ((Store.VectorStore IntType : Store Int).resize 3).clear.data_get 1 = none ∧
    ¬ ((Store.VectorStore IntType : Store Int).resize 3).clear.clone.sized := by
  decide

/-- C35: for a vector store whose `vector_` is `v` and an index `i` below the length of
`v` and below `new_size`, the element of index `i` after `resize( new_size )` is the
element of index `i` before; the length of `v` is `size()` when the items are all in the
storage. -/
theorem C35_resize_keeps_the_first_elements {α : Type} [Inhabited α] (s : Store α)
    (v : List α) (new_size i : Nat) (hv : s.backing = .vector v)
    (hi : i < min v.length new_size) :
    (s.sized → v.length = s.size) ∧
    ∃ x, s.data_get i = some x ∧ (s.resize new_size).data_get i = some x := by
  have hil : i < v.length := lt_of_lt_of_le hi (min_le_left _ _)
  have hin : i < new_size := lt_of_lt_of_le hi (min_le_right _ _)
  constructor
  · intro hsz
    unfold Store.sized at hsz
    simp only [hv] at hsz
    exact hsz
  · refine ⟨v[i], ?_, ?_⟩
    · simp [Store.data_get, hv, hil]
    · unfold Store.resize
      simp only [hv, Store.data_get, Store.vector_resize]
      rw [List.getElem?_append_left (by simp; omega)]
      simp [List.getElem?_take, hin, hil]

/-- C35 at a concrete input: the store holding 10, 20, 30 resized to 2 and to 5. -/
theorem C35_resize_keeps_the_first_elements_witness :
    ten_twenty_thirty.backing = .vector [10, 20, 30] ∧
    1 < min [(10 : Int), 20, 30].length 2 ∧
    (ten_twenty_thirty.resize 2).data_get 1 = some 20 ∧
    (ten_twenty_thirty.resize 5).data_get 2 = some 30 ∧
    (ten_twenty_thirty.sized → [(10 : Int), 20, 30].length = ten_twenty_thirty.size) ∧
    ∃ x, ten_twenty_thirty.data_get 1 = some x ∧
      (ten_twenty_thirty.resize 2).data_get 1 = some x :=
  ⟨rfl, by decide, by decide, by decide,
    C35_resize_keeps_the_first_elements ten_twenty_thirty [10, 20, 30] 2 1 rfl
      (by decide)⟩

/-! ## Bool accessors: copies and the bytes they leave -/

section BoolBytes

theorem Store.bytes_are_bool_iff (s : Store Nat) :
    s.bytes_are_bool ↔ ∀ k y, s.data_get k = some y → y = 0 ∨ y = 1 := by
  unfold Store.bytes_are_bool Store.data_get
  cases hb : s.backing with
  | vector v =>
    simp only
    constructor
    · intro h k y hk
      exact h y (List.mem_iff_getElem?.2 ⟨k, hk⟩)
    · intro h y hy
      rcases List.mem_iff_getElem?.1 hy with ⟨k, hk⟩
      exact h k y hk
  | constant c =>
    simp only
    constructor
    · intro h k y hk
      by_cases h0 : k = 0
      · simp [h0] at hk
        rw [← hk]; exact h
      · simp [h0] at hk
    · intro h
      exact h 0 c (by simp)

theorem Store.data_set_bytes_are_bool (s s1 : Store Nat) (i v : Nat)
    (h : s.data_set i v = some s1) (hs : s.bytes_are_bool) (hv : v = 0 ∨ v = 1) :
    s1.bytes_are_bool := by
  rcases Store.data_set_spec s s1 i v h with ⟨_, _, _, _, _, hget, hframe⟩
  rw [Store.bytes_are_bool_iff] at hs ⊢
  intro k y hk
  by_cases hki : k = i
  · subst hki
    rw [hget] at hk
    cases hk
    exact hv
  · rw [hframe k hki] at hk
    exact hs k y hk

theorem Store.data_get_some_lt (s : Store Nat) (k y : Nat) (hs : s.sized)
    (h : s.data_get k = some y) : k < s.size := by
  unfold Store.sized at hs
  unfold Store.data_get at h
  unfold Store.size
  cases hb : s.backing with
  | vector v =>
    simp only [hb] at hs h
    rcases List.getElem?_eq_some.1 h with ⟨hlt, _⟩
    omega
  | constant c =>
    simp only [hb] at hs h
    by_cases h0 : k = 0
    · omega
    · simp [h0] at h

theorem Byte_of_bool_is_bool (x : Bool) : Byte_of_bool x = 0 ∨ Byte_of_bool x = 1 := by
  cases x
  · exact Or.inl rfl
  · exact Or.inr rfl

/-- Writing the byte `c` at an index below `size()` of a store whose items are all in its
storage, through `element( i ) = c`. -/
theorem Attribute_bool.element_assign_ok (a : AttributeBase) (w : World Nat) (pa : Nat)
    (sa : Store Nat) (i c : Nat) (hpa : a.store_ = some pa) (hsa : w.get_store pa = some sa)
    (hza : sa.sized) (hi : i < sa.size) :
    ∃ s1, sa.data_set i c = some s1 ∧
      Attribute_bool.element_assign a w i c = .ok (w.put_store pa { store_ := some s1 }) ∧
      (w.put_store pa { store_ := some s1 }).get_store pa = some s1 ∧
      (∀ q, q ≠ pa → (w.put_store pa { store_ := some s1 }).get_store q = w.get_store q) := by
  rcases Store.data_set_some_of_sized sa i c hza hi with ⟨s1, hs1⟩
  have hlt := World.get_store_lt w pa sa hsa
  refine ⟨s1, hs1, ?_, World.get_store_put_store_same w pa _ hlt,
    fun q hq => World.get_store_put_store_ne w pa q _ hq⟩
  simp only [Attribute_bool.element_assign_eq a w pa sa i c hpa hsa, hi, if_true, hs1]

/-- Reading the byte at an index below `size()` of a store whose items are all in its
storage, through `element( j )`. -/
theorem Attribute_bool.element_ok (b : AttributeBase) (w : World Nat) (pb : Nat)
    (sb : Store Nat) (j : Nat) (hpb : b.store_ = some pb) (hsb : w.get_store pb = some sb)
    (hzb : sb.sized) (hj : j < sb.size) :
    ∃ x, sb.data_get j = some x ∧ Attribute_bool.element b w j = .ok x ∧
      (Attribute_bool.value b j).to_bool w = .ok (x != 0) := by
  rcases Store.data_get_some_of_sized sb j hzb hj with ⟨x, hx⟩
  have he : Attribute_bool.element b w j = .ok x := by
    simp only [Attribute_bool.element_eq b w pb sb j hpb hsb, hj, if_true, hx]
  refine ⟨x, hx, he, ?_⟩
  simp only [ConstBoolAttributeAccessor.to_bool, Attribute_bool.value, he]

end BoolBytes

/-- C33: for `Attribute<bool>` handles `a` and `b` (the same or not, bound to the same
store or not) on stores whose items are all in their storage, and indices `i`, `j` below
their sizes: assigning the accessor of `(b, j)`, mutable or read-only, to the mutable
accessor of `(a, i)` returns; afterwards the byte of `(a, i)` is the byte `(b, j)` had, so
`a.value( i )` reads what `b.value( j )` read before; the size and every other element of
the store of `a` are as before and every other store is as before.  Assigning an accessor
to itself returns and changes nothing. -/
theorem C33_accessor_copy (a b : AttributeBase) (w : World Nat) (pa pb : Nat)
    (sa sb : Store Nat) (i j : Nat)
    (hpa : a.store_ = some pa) (hpb : b.store_ = some pb)
    (hsa : w.get_store pa = some sa) (hsb : w.get_store pb = some sb)
    (hza : sa.sized) (hzb : sb.sized) (hi : i < sa.size) (hj : j < sb.size) :
    ∃ x w1 s1, sb.data_get j = some x ∧
      (Attribute_bool.value b j).to_bool w = .ok (x != 0) ∧
      (BoolAttributeAccessor.mk a i).assign_accessor w (BoolAttributeAccessor.mk b j) false
        = .ok w1 ∧
      (BoolAttributeAccessor.mk a i).assign_const_accessor w (Attribute_bool.value b j)
        = .ok w1 ∧
      w1.get_store pa = some s1 ∧ s1.data_get i = some x ∧
      (Attribute_bool.value a i).to_bool w1 = .ok (x != 0) ∧
      s1.size = sa.size ∧ (∀ k, k ≠ i → s1.data_get k = sa.data_get k) ∧
      (∀ q, q ≠ pa → w1.get_store q = w.get_store q) ∧
      (BoolAttributeAccessor.mk a i).assign_accessor w (BoolAttributeAccessor.mk a i) true
        = .ok w := by
  rcases Attribute_bool.element_ok b w pb sb j hpb hsb hzb hj with ⟨x, hx, hex, hread⟩
  rcases Attribute_bool.element_assign_ok a w pa sa i x hpa hsa hza hi with
    ⟨s1, hs1, hassign, hs1w, hothers⟩
  rcases Store.data_set_spec sa s1 i x hs1 with ⟨_, hsz, _, _, hsd, hget, hframe⟩
  have hsize1 : s1.size = sa.size := hsz
  rcases Attribute_bool.element_ok a _ pa s1 i hpa hs1w (hsd hza) (by rw [hsize1]; exact hi)
    with ⟨y, hy, _, hread1⟩
  rw [hget] at hy
  cases hy
  refine ⟨x, _, s1, hx, hread, ?_, ?_, hs1w, hget, hread1, hsize1, hframe, hothers, ?_⟩
  · simp only [BoolAttributeAccessor.assign_accessor, Bool.false_eq_true, if_false, hex,
      hassign]
  · simp only [BoolAttributeAccessor.assign_const_accessor, Attribute_bool.value, hex,
      hassign]
  · simp [BoolAttributeAccessor.assign_accessor]

/-- C33 at a concrete input: on the attribute "flag" holding the bytes 0, 1, 0, the
accessor of index 1 is assigned to the accessor of index 2. -/
theorem C33_accessor_copy_witness :
    handle_0_0.store_ = some 0 ∧
    (flag_world.put_store 0
        { store_ := some { three_flags with backing := .vector [0, 1, 0] } }).get_store 0
      = some { three_flags with backing := .vector [0, 1, 0] } ∧
    ({ three_flags with backing := .vector [0, 1, 0] } : Store Nat).sized ∧
    2 < ({ three_flags with backing := .vector [0, 1, 0] } : Store Nat).size ∧
    (BoolAttributeAccessor.mk handle_0_0 2).assign_accessor
        (flag_world.put_store 0
          { store_ := some { three_flags with backing := .vector [0, 1, 0] } })
        (BoolAttributeAccessor.mk handle_0_0 1) false
      = .ok (flag_world.put_store 0
          { store_ := some { three_flags with backing := .vector [0, 1, 1] } }) ∧
    ∃ x w1 s1,
      ({ three_flags with backing := .vector [0, 1, 0] } : Store Nat).data_get 1 = some x ∧
      (Attribute_bool.value handle_0_0 1).to_bool
        (flag_world.put_store 0
          { store_ := some { three_flags with backing := .vector [0, 1, 0] } })
        = .ok (x != 0) ∧
      (BoolAttributeAccessor.mk handle_0_0 2).assign_accessor
        (flag_world.put_store 0
          { store_ := some { three_flags with backing := .vector [0, 1, 0] } })
        (BoolAttributeAccessor.mk handle_0_0 1) false = .ok w1 ∧
      (BoolAttributeAccessor.mk handle_0_0 2).assign_const_accessor
        (flag_world.put_store 0
          { store_ := some { three_flags with backing := .vector [0, 1, 0] } })
        (Attribute_bool.value handle_0_0 1) = .ok w1 ∧
      w1.get_store 0 = some s1 ∧ s1.data_get 2 = some x ∧
      (Attribute_bool.value handle_0_0 2).to_bool w1 = .ok (x != 0) ∧
      s1.size = ({ three_flags with backing := .vector [0, 1, 0] } : Store Nat).size ∧
      (∀ k, k ≠ 2 → s1.data_get k
        = ({ three_flags with backing := .vector [0, 1, 0] } : Store Nat).data_get k) ∧
      (∀ q, q ≠ 0 → w1.get_store q
        = (flag_world.put_store 0
            { store_ := some { three_flags with backing := .vector [0, 1, 0] } }).get_store
          q) ∧
      (BoolAttributeAccessor.mk handle_0_0 2).assign_accessor
        (flag_world.put_store 0
          { store_ := some { three_flags with backing := .vector [0, 1, 0] } })
        (BoolAttributeAccessor.mk handle_0_0 2) true
        = .ok (flag_world.put_store 0
          { store_ := some { three_flags with backing := .vector [0, 1, 0] } }) :=
  ⟨rfl, by decide, by decide, by decide, by decide,
    C33_accessor_copy handle_0_0 handle_0_0 _ 0 0 _ _ 2 1 rfl rfl (by decide) (by decide)
      (by decide) (by decide) (by decide) (by decide)⟩

/-- Writing a byte that is 0 or 1 through `element( i ) = c` into a store whose bytes are
all 0 or 1: the call returns and the bytes of the store are still all 0 or 1. -/
theorem Attribute_bool.element_assign_bytes_are_bool (a : AttributeBase) (w : World Nat)
    (pa : Nat) (sa : Store Nat) (i c : Nat) (hpa : a.store_ = some pa)
    (hsa : w.get_store pa = some sa) (hza : sa.sized) (hi : i < sa.size)
    (hna : sa.bytes_are_bool) (hc : c = 0 ∨ c = 1) :
    ∃ w1 s1, Attribute_bool.element_assign a w i c = .ok w1 ∧ w1.get_store pa = some s1 ∧
      s1.bytes_are_bool ∧ s1.data_get i = some c := by
  rcases Attribute_bool.element_assign_ok a w pa sa i c hpa hsa hza hi with
    ⟨s1, hs1, hassign, hs1w, _⟩
  rcases Store.data_set_spec sa s1 i c hs1 with ⟨_, _, _, _, _, hget, _⟩
  exact ⟨_, s1, hassign, hs1w, Store.data_set_bytes_are_bool sa s1 i c hs1 hna hc, hget⟩

/-- C39: for an `Attribute<bool>` handle `a` on a store whose items are all in its storage
and whose bytes are all 0 or 1, and an index `i` below its size: `set_value( i, bool )`,
`set_value( i, Byte )`, `fill( bool )`, the assignment of a `bool` to the accessor of
`(a, i)` and the assignment of an accessor, mutable or read-only, of `(b, j)`, where the
bytes of the store of `b` are all 0 or 1 too, all return, and afterwards the bytes of the
store of `a` are still all 0 or 1.  `set_value( i, Byte v )` stores 0 when `v` is 0 and 1
otherwise. -/
theorem C39_bool_bytes_stay_normalised (a b : AttributeBase) (w : World Nat) (pa pb : Nat)
    (sa sb : Store Nat) (i j : Nat) (x : Bool) (v : Nat)
    (hpa : a.store_ = some pa) (hpb : b.store_ = some pb)
    (hsa : w.get_store pa = some sa) (hsb : w.get_store pb = some sb)
    (hza : sa.sized) (hzb : sb.sized) (hi : i < sa.size) (hj : j < sb.size)
    (hna : sa.bytes_are_bool) (hnb : sb.bytes_are_bool) :
    (∃ w1 s1, Attribute_bool.set_value a w i x = .ok w1 ∧ w1.get_store pa = some s1 ∧
      s1.bytes_are_bool) ∧
    (∃ w1 s1, Attribute_bool.set_value_byte a w i v = .ok w1 ∧ w1.get_store pa = some s1 ∧
      s1.bytes_are_bool ∧ s1.data_get i = some (if v = 0 then 0 else 1)) ∧
    (∃ w1 s1, Attribute_bool.fill a w x = .ok w1 ∧ w1.get_store pa = some s1 ∧
      s1.bytes_are_bool) ∧
    (∃ w1 s1, (BoolAttributeAccessor.mk a i).assign_bool w x = .ok w1 ∧
      w1.get_store pa = some s1 ∧ s1.bytes_are_bool) ∧
    (∃ w1 s1,
      (BoolAttributeAccessor.mk a i).assign_accessor w (BoolAttributeAccessor.mk b j) false
        = .ok w1 ∧
      w1.get_store pa = some s1 ∧ s1.bytes_are_bool) ∧
    (∃ w1 s1,
      (BoolAttributeAccessor.mk a i).assign_const_accessor w (Attribute_bool.value b j)
        = .ok w1 ∧
      w1.get_store pa = some s1 ∧ s1.bytes_are_bool) ∧
    (BoolAttributeAccessor.mk a i).assign_accessor w (BoolAttributeAccessor.mk a i) true
      = .ok w := by
  have hbool : ∀ y : Bool, ∃ w1 s1,
      Attribute_bool.element_assign a w i (Byte_of_bool y) = .ok w1 ∧
      w1.get_store pa = some s1 ∧ s1.bytes_are_bool ∧
      s1.data_get i = some (Byte_of_bool y) := fun y =>
    Attribute_bool.element_assign_bytes_are_bool a w pa sa i _ hpa hsa hza hi hna
      (Byte_of_bool_is_bool y)
  rcases Attribute_bool.element_ok b w pb sb j hpb hsb hzb hj with ⟨c, hc, hec, _⟩
  have hc01 : c = 0 ∨ c = 1 := (Store.bytes_are_bool_iff sb).1 hnb j c hc
  rcases Attribute_bool.element_assign_bytes_are_bool a w pa sa i c hpa hsa hza hi hna hc01
    with ⟨wc, sc, hassign, hscw, hscn, _⟩
  refine ⟨?_, ?_, ?_, ?_, ?_, ?_, ?_⟩
  · rcases hbool x with ⟨w1, s1, h1, h2, h3, _⟩
    exact ⟨w1, s1, h1, h2, h3⟩
  · rcases hbool (v != 0) with ⟨w1, s1, h1, h2, h3, h4⟩
    refine ⟨w1, s1, h1, h2, h3, ?_⟩
    rw [h4]
    by_cases hv : v = 0
    · simp [Byte_of_bool, hv]
    · simp [Byte_of_bool, hv]
  · rcases Attribute_bool.fill_loop_spec a pa x hpa sa.size 0 w sa hsa hza (by omega) with
      ⟨w1, s1, hloop, hs1, hsz1, hsd1, _, _, hvals, _⟩
    refine ⟨w1, s1, ?_, hs1, ?_⟩
    · simp only [Attribute_bool.fill, hpa, hsa, Store.nb_elements]
      exact hloop
    · rw [Store.bytes_are_bool_iff]
      intro k y hk
      have hlt := Store.data_get_some_lt s1 k y hsd1 hk
      rw [hvals k (Nat.zero_le _) (by omega)] at hk
      cases hk
      exact Byte_of_bool_is_bool x
  · rcases hbool x with ⟨w1, s1, h1, h2, h3, _⟩
    exact ⟨w1, s1, h1, h2, h3⟩
  · refine ⟨wc, sc, ?_, hscw, hscn⟩
    simp only [BoolAttributeAccessor.assign_accessor, Bool.false_eq_true, if_false, hec,
      hassign]
  · refine ⟨wc, sc, ?_, hscw, hscn⟩
    simp only [BoolAttributeAccessor.assign_const_accessor, Attribute_bool.value, hec,
      hassign]
  · simp [BoolAttributeAccessor.assign_accessor]

/-- C39 at a concrete input: on the attribute "flag" holding the bytes 0, 0, 0, the writes
at index 2, with the byte 5 for `set_value( i, Byte )`. -/
theorem C39_bool_bytes_stay_normalised_witness :
    flag_world.get_store 0 = some three_flags ∧ three_flags.sized ∧
    three_flags.bytes_are_bool ∧ 2 < three_flags.size ∧
    Attribute_bool.set_value_byte handle_0_0 flag_world 2 5
      = .ok (flag_world.put_store 0
          { store_ := some { three_flags with backing := .vector [0, 0, 1] } }) ∧
    ((∃ w1 s1, Attribute_bool.set_value handle_0_0 flag_world 2 true = .ok w1 ∧
      w1.get_store 0 = some s1 ∧ s1.bytes_are_bool) ∧
    (∃ w1 s1, Attribute_bool.set_value_byte handle_0_0 flag_world 2 5 = .ok w1 ∧
      w1.get_store 0 = some s1 ∧ s1.bytes_are_bool ∧
      s1.data_get 2 = some (if 5 = 0 then 0 else 1)) ∧
    (∃ w1 s1, Attribute_bool.fill handle_0_0 flag_world true = .ok w1 ∧
      w1.get_store 0 = some s1 ∧ s1.bytes_are_bool) ∧
    (∃ w1 s1, (BoolAttributeAccessor.mk handle_0_0 2).assign_bool flag_world true = .ok w1 ∧
      w1.get_store 0 = some s1 ∧ s1.bytes_are_bool) ∧
    (∃ w1 s1,
      (BoolAttributeAccessor.mk handle_0_0 2).assign_accessor flag_world
        (BoolAttributeAccessor.mk handle_0_0 1) false = .ok w1 ∧
      w1.get_store 0 = some s1 ∧ s1.bytes_are_bool) ∧
    (∃ w1 s1,
      (BoolAttributeAccessor.mk handle_0_0 2).assign_const_accessor flag_world
        (Attribute_bool.value handle_0_0 1) = .ok w1 ∧
      w1.get_store 0 = some s1 ∧ s1.bytes_are_bool) ∧
    (BoolAttributeAccessor.mk handle_0_0 2).assign_accessor flag_world
      (BoolAttributeAccessor.mk handle_0_0 2) true = .ok flag_world) :=
  ⟨by decide, by decide, by decide, by decide, by decide,
    C39_bool_bytes_stay_normalised handle_0_0 handle_0_0 flag_world 0 0 three_flags
      three_flags 2 1 true 5 rfl rfl (by decide) (by decide) (by decide) (by decide)
      (by decide) (by decide) (by decide) (by decide)⟩

/-- C38: on a manager that binds "id" and "k" only, `bind_if_is_defined( manager, "w" )`
on a fresh handle returns with `is_bound()` false while `manager()` is the manager, not
null; nothing is created in the manager.  `bind` on the same handle, `unbind` and
`destroy` leave `manager()` null exactly when `is_bound()` is false. -/
theorem C38_bind_if_is_defined_keeps_the_manager :
    AttributeBase.new.is_bound = false ∧ AttributeBase.new.manager = none ∧
    id_k_manager.find_attribute_store "w" = none ∧
    AttributeBase.bind_if_is_defined IntType AttributeBase.new id_k_world 0 "w"
      = .ok ({ manager_ := some 0, store_ := none }, id_k_world) ∧
    ({ manager_ := some 0, store_ := none } : AttributeBase).is_bound = false ∧
    ({ manager_ := some 0, store_ := none } : AttributeBase).manager = some 0 ∧
    AttributeBase.bind_if_is_defined IntType AttributeBase.new id_k_world 0 "id"
      = .ok ({ manager_ := some 0, store_ := some 0 }, id_k_world) ∧
    ({ manager_ := some 0, store_ := some 0 } : AttributeBase).unbind
      = .ok AttributeBase.new := by
  decide

/-! ## The registry over all reachable states -/

section RegistryInvariants

variable {α : Type}

theorem StdMap.contains_assign_iff {V : Type} (m : StdMap V) (key x : String) (v : V) :
    (m.assign key v).contains x = true ↔ x = key ∨ m.contains x = true := by
  unfold StdMap.contains
  rw [StdMap.find_assign]
  by_cases h : x = key <;> simp [h]

theorem StdMap.find_of_contains {V : Type} (m : StdMap V) (x : String)
    (h : m.contains x = true) : ∃ v, m.find x = some v := by
  unfold StdMap.contains at h
  exact Option.isSome_iff_exists.1 h

theorem StdMap.contains_of_find {V : Type} (m : StdMap V) (x : String) (v : V)
    (h : m.find x = some v) : m.contains x = true := by
  unfold StdMap.contains
  rw [h]
  rfl

/-- A lookup of the id of a known name whose entry is present returns the entry and leaves
the maps as they are. -/
theorem Registry.typeid_name_of_find (r : Registry α) (n m : String)
    (hk : r.element_type_name_is_known n = true)
    (hf : r.type_name_to_typeid_name_.find n = some m) :
    r.element_typeid_name_by_element_type_name n = .ok (m, r) := by
  simp only [Registry.element_typeid_name_by_element_type_name, ringmesh_assert, hk,
    if_true, StdMap.index_of_find _ n m hf]

/-- A lookup of the name of a known id returns its entry and leaves the maps as they
are. -/
theorem Registry.type_name_of_find (r : Registry α) (m n : String)
    (hf : r.typeid_name_to_type_name_.find m = some n) :
    r.element_type_name_by_element_typeid_name m = .ok (n, r) := by
  have hk : r.element_typeid_name_is_known m = true :=
    StdMap.contains_of_find _ m n hf
  simp only [Registry.element_type_name_by_element_typeid_name, ringmesh_assert, hk,
    if_true, StdMap.index_of_find _ m n hf]

/-- The entries of the three maps after the last three statements of a registration. -/
theorem Registry.store_mappings_find (r : Registry α) (creator : AttributeStoreCreator α)
    (N M : String) :
    (∀ n, (r.store_mappings creator N M).type_name_to_creator_.contains n = true ↔
      n = N ∨ r.type_name_to_creator_.contains n = true) ∧
    (∀ m, (r.store_mappings creator N M).typeid_name_to_type_name_.contains m = true ↔
      m = M ∨ r.typeid_name_to_type_name_.contains m = true) ∧
    (∀ m, (r.store_mappings creator N M).typeid_name_to_type_name_.find m
      = if m = M then some N else r.typeid_name_to_type_name_.find m) ∧
    (∀ n, (r.store_mappings creator N M).type_name_to_typeid_name_.find n
      = if n = N then some M else r.type_name_to_typeid_name_.find n) :=
  ⟨fun n => StdMap.contains_assign_iff _ N n creator,
    fun m => StdMap.contains_assign_iff _ M m N,
    fun m => StdMap.find_assign _ M m N,
    fun n => StdMap.find_assign _ N n M⟩

/-- In every state reached by registrations that returned, a name with a factory has an
entry whose id is known, and a known id has an entry whose name has a factory. -/
theorem Registry.reachable_closed (r : Registry α) (h : Registry.Reachable r) :
    (∀ n, r.type_name_to_creator_.contains n = true →
      ∃ m, r.type_name_to_typeid_name_.find n = some m ∧
        r.typeid_name_to_type_name_.contains m = true) ∧
    (∀ m, r.typeid_name_to_type_name_.contains m = true →
      ∃ n, r.typeid_name_to_type_name_.find m = some n ∧
        r.type_name_to_creator_.contains n = true) := by
  induction h with
  | empty =>
    constructor <;> intro x hx <;>
      simp [Registry.empty, StdMap.empty, StdMap.contains, StdMap.find] at hx
  | register r r1 creator N M _ hreg ih =>
    rcases ih with ⟨iha, ihb⟩
    rcases Registry.register_ok r r1 creator N M hreg with ⟨r0, hr1, hc, hi, hn⟩
    rcases Registry.store_mappings_find r0 creator N M with ⟨hcc, hic, hif, hnf⟩
    rw [← hr1, hc] at hcc
    rw [← hr1, hi] at hic hif
    rw [← hr1] at hnf
    constructor
    · intro n hn1
      by_cases hnN : n = N
      · exact ⟨M, by rw [hnf, if_pos hnN], (hic M).2 (Or.inl rfl)⟩
      · rcases (hcc n).1 hn1 with h | h
        · exact absurd h hnN
        · rcases iha n h with ⟨m, hm1, hm2⟩
          exact ⟨m, by rw [hnf, if_neg hnN, hn n hnN]; exact hm1, (hic m).2 (Or.inr hm2)⟩
    · intro m hm1
      by_cases hmM : m = M
      · exact ⟨N, by rw [hif, if_pos hmM], (hcc N).2 (Or.inl rfl)⟩
      · rcases (hic m).1 hm1 with h | h
        · exact absurd h hmM
        · rcases ihb m h with ⟨n, hn1, hn2⟩
          exact ⟨n, by rw [hif, if_neg hmM]; exact hn1, (hcc n).2 (Or.inr hn2)⟩

/-- In every state reached by registrations that returned and kept names and ids
one-to-one, the entry of a name with a factory is an id whose entry is the name, and the
entry of a known id is a name with a factory whose entry is the id. -/
theorem Registry.reachable_one_to_one (r : Registry α)
    (h : Registry.ReachableOneToOne r) :
    (∀ n, r.type_name_to_creator_.contains n = true →
      ∃ m, r.type_name_to_typeid_name_.find n = some m ∧
        r.typeid_name_to_type_name_.find m = some n) ∧
    (∀ m, r.typeid_name_to_type_name_.contains m = true →
      ∃ n, r.typeid_name_to_type_name_.find m = some n ∧
        r.type_name_to_typeid_name_.find n = some m ∧
        r.type_name_to_creator_.contains n = true) := by
  induction h with
  | empty =>
    constructor <;> intro x hx <;>
      simp [Registry.empty, StdMap.empty, StdMap.contains, StdMap.find] at hx
  | register r r1 creator N M _ hname hid hreg ih =>
    rcases ih with ⟨iha, ihb⟩
    rcases Registry.register_ok r r1 creator N M hreg with ⟨r0, hr1, hc, hi, hn⟩
    rcases Registry.store_mappings_find r0 creator N M with ⟨hcc, hic, hif, hnf⟩
    rw [← hr1, hc] at hcc
    rw [← hr1, hi] at hic hif
    rw [← hr1] at hnf
    constructor
    · intro n hn1
      by_cases hnN : n = N
      · refine ⟨M, by rw [hnf, if_pos hnN], ?_⟩
        rw [hif, if_pos rfl, hnN]
      · rcases (hcc n).1 hn1 with h | h
        · exact absurd h hnN
        · rcases iha n h with ⟨m, hm1, hm2⟩
          refine ⟨m, by rw [hnf, if_neg hnN, hn n hnN]; exact hm1, ?_⟩
          have hmM : m ≠ M := by
            intro hmM
            rw [hmM] at hm2
            have h3 := hid (StdMap.contains_of_find _ M n hm2)
            rw [hm2] at h3
            exact hnN (Option.some.inj h3)
          rw [hif, if_neg hmM]
          exact hm2
    · intro m hm1
      by_cases hmM : m = M
      · refine ⟨N, by rw [hif, if_pos hmM], ?_, (hcc N).2 (Or.inl rfl)⟩
        rw [hnf, if_pos rfl, hmM]
      · rcases (hic m).1 hm1 with h | h
        · exact absurd h hmM
        · rcases ihb m h with ⟨n, hn1, hn2, hn3⟩
          have hnN : n ≠ N := by
            intro hnN
            rw [hnN] at hn2 hn3
            have h3 := hname hn3
            rw [hn2] at h3
            exact hmM (Option.some.inj h3)
          refine ⟨n, by rw [hif, if_neg hmM]; exact hn1, ?_, (hcc n).2 (Or.inr hn3)⟩
          rw [hnf, if_neg hnN, hn n hnN]
          exact hn2

/-- A registration stops at its assertion or returns, and in both cases the names with
a factory and the known ids of before are still there. -/
theorem Registry.register_monotone (r : Registry α) (creator : AttributeStoreCreator α)
    (N M : String) :
    ∃ r1, (r.register_attribute_creator creator N M = .ok r1 ∨
        r.register_attribute_creator creator N M = .assertion_failed r1) ∧
      (∀ n, r.element_type_name_is_known n = true →
        r1.element_type_name_is_known n = true) ∧
      (∀ m, r.element_typeid_name_is_known m = true →
        r1.element_typeid_name_is_known m = true) := by
  have hok : ∀ r1, r.register_attribute_creator creator N M = .ok r1 →
      (∀ n, r.element_type_name_is_known n = true →
        r1.element_type_name_is_known n = true) ∧
      (∀ m, r.element_typeid_name_is_known m = true →
        r1.element_typeid_name_is_known m = true) := by
    intro r1 hreg
    rcases Registry.register_ok r r1 creator N M hreg with ⟨r0, hr1, hc, hi, _⟩
    rcases Registry.store_mappings_find r0 creator N M with ⟨hcc, hic, _, _⟩
    rw [← hr1, hc] at hcc
    rw [← hr1, hi] at hic
    exact ⟨fun n h => (hcc n).2 (Or.inr h), fun m h => (hic m).2 (Or.inr h)⟩
  cases hreg : r.register_attribute_creator creator N M with
  | ok r1 => exact ⟨r1, Or.inl rfl, hok r1 hreg⟩
  | assertion_failed r1 =>
    refine ⟨r1, Or.inr rfl, ?_⟩
    unfold Registry.register_attribute_creator ringmesh_assert at hreg
    by_cases h1 : r.element_type_name_is_known N = true
    · by_cases h2 : r.element_typeid_name_is_known M = true
      · simp only [h1, h2, if_true] at hreg
        by_cases h3 : ((r.type_name_to_typeid_name_.index N).1 == M) = true
        · simp [h3] at hreg
        · simp only [h3, Bool.false_eq_true, if_false, Outcome.assertion_failed.injEq]
            at hreg
          rw [← hreg]
          exact ⟨fun _ h => h, fun _ h => h⟩
      · simp [h1, h2] at hreg
    · simp [h1] at hreg
  | undefined =>
    exfalso
    unfold Registry.register_attribute_creator ringmesh_assert at hreg
    by_cases h1 : r.element_type_name_is_known N = true
    · by_cases h2 : r.element_typeid_name_is_known M = true
      · simp only [h1, h2, if_true] at hreg
        by_cases h3 : ((r.type_name_to_typeid_name_.index N).1 == M) = true
        · simp [h3] at hreg
        · simp [h3] at hreg
      · simp [h1, h2] at hreg
    · simp [h1] at hreg

end RegistryInvariants

/-- C36, counterexample: the maps after registering "unsigned int" and then "index_t",
both with the mangled id "j", are reached by registrations that returned; there the known
name "unsigned int" maps to "j" and "j" maps back to "index_t".  The maps after
registering "double" with "d" and then with "f" are reached by registrations that returned
too; there the known id "d" maps to "double" and "double" maps to "f". -/
theorem C36_round_trip_fails_for_shared_entries :
    Registry.Reachable index_registry ∧
    index_registry.element_type_name_is_known "unsigned int" = true ∧
    index_registry.element_typeid_name_by_element_type_name "unsigned int"
      = .ok ("j", index_registry) ∧
    index_registry.element_type_name_by_element_typeid_name "j"
      = .ok ("index_t", index_registry) ∧
    Registry.Reachable (double_registry.store_mappings double_creator "double" "f") ∧
    (double_registry.store_mappings double_creator "double" "f").element_typeid_name_is_known
      "d" = true ∧
    (double_registry.store_mappings double_creator "double"
        "f").element_type_name_by_element_typeid_name "d"
      = .ok ("double", double_registry.store_mappings double_creator "double" "f") ∧
    (double_registry.store_mappings double_creator "double"
        "f").element_typeid_name_by_element_type_name "double"
      = .ok ("f", double_registry.store_mappings double_creator "double" "f") :=
  ⟨Registry.Reachable.register
      (Registry.empty.store_mappings uint_creator "unsigned int" "j") _ uint_creator
      "index_t" "j"
      (Registry.Reachable.register Registry.empty _ uint_creator "unsigned int" "j"
        Registry.Reachable.empty (by decide))
      (by decide),
    by decide, by decide, by decide,
    Registry.Reachable.register double_registry _ double_creator "double" "f"
      (Registry.Reachable.register Registry.empty _ double_creator "double" "d"
        Registry.Reachable.empty (by decide))
      (by decide),
    by decide, by decide, by decide⟩

/-- C36, amended: in every registry state reached from the empty maps by registrations
that returned and in which a name already known was given the id it had and an id already
known was given the name it had, the two maps are mutually inverse: for every known name
`n` the id lookup returns some `m` whose name lookup returns `n`, for every known id `m`
the name lookup returns some `n` whose id lookup returns `m`, and the lookups leave the
maps as they are. -/
theorem C36_one_to_one_round_trip {α : Type} (r : Registry α)
    (h : Registry.ReachableOneToOne r) :
    (∀ n, r.element_type_name_is_known n = true →
      ∃ m, r.element_typeid_name_by_element_type_name n = .ok (m, r) ∧
        r.element_type_name_by_element_typeid_name m = .ok (n, r)) ∧
    (∀ m, r.element_typeid_name_is_known m = true →
      ∃ n, r.element_type_name_by_element_typeid_name m = .ok (n, r) ∧
        r.element_typeid_name_by_element_type_name n = .ok (m, r)) := by
  rcases Registry.reachable_one_to_one r h with ⟨ha, hb⟩
  constructor
  · intro n hn
    rcases ha n hn with ⟨m, hm1, hm2⟩
    exact ⟨m, Registry.typeid_name_of_find r n m hn hm1, Registry.type_name_of_find r m n hm2⟩
  · intro m hm
    rcases hb m hm with ⟨n, hn1, hn2, hn3⟩
    exact ⟨n, Registry.type_name_of_find r m n hn1,
      Registry.typeid_name_of_find r n m hn3 hn2⟩

/-- C36, amended, at a concrete input: the maps after registering "double" with "d" and
then "float" with "f". -/
theorem C36_one_to_one_round_trip_witness :
    Registry.ReachableOneToOne double_float_registry ∧
    double_float_registry.element_type_name_is_known "float" = true ∧
    double_float_registry.element_typeid_name_by_element_type_name "float"
      = .ok ("f", double_float_registry) ∧
    double_float_registry.element_type_name_by_element_typeid_name "f"
      = .ok ("float", double_float_registry) ∧
    (∀ n, double_float_registry.element_type_name_is_known n = true →
      ∃ m, double_float_registry.element_typeid_name_by_element_type_name n
          = .ok (m, double_float_registry) ∧
        double_float_registry.element_type_name_by_element_typeid_name m
          = .ok (n, double_float_registry)) ∧
    (∀ m, double_float_registry.element_typeid_name_is_known m = true →
      ∃ n, double_float_registry.element_type_name_by_element_typeid_name m
          = .ok (n, double_float_registry) ∧
        double_float_registry.element_typeid_name_by_element_type_name n
          = .ok (m, double_float_registry)) :=
  have hreach : Registry.ReachableOneToOne double_float_registry :=
    Registry.ReachableOneToOne.register double_registry _ float_creator "float" "f"
      (Registry.ReachableOneToOne.register Registry.empty _ double_creator "double" "d"
        Registry.ReachableOneToOne.empty (by decide) (by decide) (by decide))
      (by decide) (by decide) (by decide)
  ⟨hreach, by decide, by decide, by decide,
    C36_one_to_one_round_trip double_float_registry hreach⟩

/-- C37: in every registry state reached from the empty maps by registrations that
returned, every known name has a factory, which
`create_attribute_store_by_element_type_name` calls, and its id lookup returns a known
id; the name lookup of every known id returns a known name; the lookups leave the maps as
they are.  A call of `register_attribute_creator` in such a state returns or stops at its
assertion, the state it stops in is the state of before, and every name and id known
before the call is known after it. -/
theorem C37_registry_closure_and_monotonicity {α : Type} (r : Registry α)
    (h : Registry.Reachable r) (creator : AttributeStoreCreator α) (N M : String) :
    (∀ n, r.element_type_name_is_known n = true →
      ∃ c m, r.type_name_to_creator_.find n = some c ∧
        r.create_attribute_store_by_element_type_name n
          = .ok (c.create_attribute_store, r) ∧
        r.element_typeid_name_by_element_type_name n = .ok (m, r) ∧
        r.element_typeid_name_is_known m = true) ∧
    (∀ m, r.element_typeid_name_is_known m = true →
      ∃ n, r.element_type_name_by_element_typeid_name m = .ok (n, r) ∧
        r.element_type_name_is_known n = true) ∧
    (∃ r1, (r.register_attribute_creator creator N M = .ok r1 ∨
        r.register_attribute_creator creator N M = .assertion_failed r1 ∧ r1 = r) ∧
      (∀ n, r.element_type_name_is_known n = true →
        r1.element_type_name_is_known n = true) ∧
      (∀ m, r.element_typeid_name_is_known m = true →
        r1.element_typeid_name_is_known m = true)) := by
  rcases Registry.reachable_closed r h with ⟨ha, hb⟩
  refine ⟨?_, ?_, ?_⟩
  · intro n hn
    rcases StdMap.find_of_contains _ n hn with ⟨c, hc⟩
    rcases ha n hn with ⟨m, hm1, hm2⟩
    refine ⟨c, m, hc, ?_, Registry.typeid_name_of_find r n m hn hm1, hm2⟩
    simp only [Registry.create_attribute_store_by_element_type_name, ringmesh_assert, hn,
      if_true, hc]
  · intro m hm
    rcases hb m hm with ⟨n, hn1, hn2⟩
    exact ⟨n, Registry.type_name_of_find r m n hn1, hn2⟩
  · rcases Registry.register_monotone r creator N M with ⟨r1, hreg, hn, hm⟩
    rcases hreg with hreg | hreg
    · exact ⟨r1, Or.inl hreg, hn, hm⟩
    · refine ⟨r, Or.inr ⟨?_, rfl⟩, fun _ hk => hk, fun _ hk => hk⟩
      rw [hreg]
      congr 1
      unfold Registry.register_attribute_creator ringmesh_assert at hreg
      by_cases h1 : r.element_type_name_is_known N = true
      · by_cases h2 : r.element_typeid_name_is_known M = true
        · simp only [h1, h2, if_true] at hreg
          by_cases h3 : ((r.type_name_to_typeid_name_.index N).1 == M) = true
          · simp [h3] at hreg
          · simp only [h3, Bool.false_eq_true, if_false, Outcome.assertion_failed.injEq]
              at hreg
            rcases ha N h1 with ⟨m0, hm0, _⟩
            rw [← hreg, StdMap.index_of_find _ N m0 hm0]
        · simp [h1, h2] at hreg
      · simp [h1] at hreg

/-- C37 at a concrete input: the maps after registering "double" with "d" and then "float"
with "f", and the call that registers "double" with "f" there, which stops at its
assertion. -/
theorem C37_registry_closure_and_monotonicity_witness :
    Registry.Reachable double_float_registry ∧
    double_float_registry.register_attribute_creator double_creator "double" "f"
      = .assertion_failed double_float_registry ∧
    (∀ n, double_float_registry.element_type_name_is_known n = true →
      ∃ c m, double_float_registry.type_name_to_creator_.find n = some c ∧
        double_float_registry.create_attribute_store_by_element_type_name n
          = .ok (c.create_attribute_store, double_float_registry) ∧
        double_float_registry.element_typeid_name_by_element_type_name n
          = .ok (m, double_float_registry) ∧
        double_float_registry.element_typeid_name_is_known m = true) ∧
    (∀ m, double_float_registry.element_typeid_name_is_known m = true →
      ∃ n, double_float_registry.element_type_name_by_element_typeid_name m
          = .ok (n, double_float_registry) ∧
        double_float_registry.element_type_name_is_known n = true) ∧
    (∃ r1, (double_float_registry.register_attribute_creator double_creator "double" "f"
          = .ok r1 ∨
        double_float_registry.register_attribute_creator double_creator "double" "f"
          = .assertion_failed r1 ∧ r1 = double_float_registry) ∧
      (∀ n, double_float_registry.element_type_name_is_known n = true →
        r1.element_type_name_is_known n = true) ∧
      (∀ m, double_float_registry.element_typeid_name_is_known m = true →
        r1.element_typeid_name_is_known m = true)) :=
  have hreach : Registry.Reachable double_float_registry :=
    Registry.Reachable.register double_registry _ float_creator "float" "f"
      (Registry.Reachable.register Registry.empty _ double_creator "double" "d"
        Registry.Reachable.empty (by decide))
      (by decide)
  ⟨hreach, by decide,
    C37_registry_closure_and_monotonicity double_float_registry hreach double_creator
      "double" "f"⟩

end RINGMesh
